import Mathlib

/-!
# GOCBT: test-session lifecycle and answer scoring

A shallow embedding of the session core of the GOCBT backend
(`internal/models`, `internal/database`, `internal/services`) and of the input
validation of `internal/utils`, followed by theorems about them.

Conventions of the embedding

* Go `int` and `time.Duration` are `Int`; a sum or product of such values
  that the code does not keep within 64 bits is wrapped around
  (`wrapInt64`). A nullable pointer (`*string`, `*int`, `*bool`,
  `*time.Time`) is an `Option`.
* `time.Time` is `Time`, an integer count of nanoseconds; every call of
  `time.Now()` is an explicit clock reading passed to the operation.
* The SQL tables are lists of rows in table order; a `QueryRow` without
  `ORDER BY` yields the first matching row, an `UPDATE ... WHERE id = ?`
  rewrites every row with that id, an `INSERT` appends a row with the next
  id of the table's sequence.
* The store is reliable and exact: a statement succeeds, and a value read
  back is the value written. A timestamp column that the database fills by
  itself on `INSERT` (`created_at`, `updated_at`, `answered_at`,
  `completed_at`; the schema is not part of the Go sources) receives a value
  of the database's own, which is a clock reading of its own place. On the
  driver `postgres` the `INSERT ... RETURNING` hands that value to the Go
  struct; on every other driver the struct receives a later reading of
  `time.Now()` instead, so that the struct returned and the row stored may
  differ in these fields.
* `strings.ToLower` is the rune-wise map of `unicode.ToLower`; the rune map is
  a parameter `lowerRune`, so that the theorems hold for every rune map.
-/

namespace GOCBT

/-! ## Data model (`internal/models`) -/

/-- Wall-clock instants and durations, in nanoseconds. -/
abbrev Time := Int

/-- The errors returned by the services. `storage` stands for an error that a
repository hands back unchanged. -/
inductive Err where
  | ErrUserNotFound
  | testNotAvailable
  | sessionNotAvailable
  | invalidQuestion
  | sessionNotActive
  | storage (msg : String)
  deriving DecidableEq, Repr

/-- `models.QuestionType`; `unrecognised` stands for every string that is none
of the three declared constants. -/
inductive QuestionType where
  | multiple_choice
  | true_false
  | short_answer
  | unrecognised
  deriving DecidableEq, Repr

/-- `models.SessionStatus`, the five declared constants. -/
inductive SessionStatus where
  | not_started
  | in_progress
  | completed
  | submitted
  | expired
  deriving DecidableEq, Repr

/-- `models.Test`, the columns read by the session core. -/
structure Test where
  ID : Int
  DurationMinutes : Int
  TotalMarks : Int
  PassingMarks : Int
  IsActive : Bool
  StartTime : Option Time
  EndTime : Option Time
  deriving DecidableEq, Repr

/-- `models.Question`, the columns read by the session core. -/
structure Question where
  ID : Int
  TestID : Int
  QuestionType : QuestionType
  Marks : Int
  OrderIndex : Int
  deriving DecidableEq, Repr

/-- `models.QuestionOption`. -/
structure QuestionOption where
  ID : Int
  QuestionID : Int
  OptionText : String
  IsCorrect : Bool
  OrderIndex : Int
  deriving DecidableEq, Repr

/-- `models.CorrectAnswer`. -/
structure CorrectAnswer where
  ID : Int
  QuestionID : Int
  AnswerText : String
  IsCaseSensitive : Bool
  deriving DecidableEq, Repr

/-- `models.TestSession`, the stored columns. -/
structure TestSession where
  ID : Int
  TestID : Int
  UserID : Int
  SessionToken : String
  Status : SessionStatus
  StartedAt : Option Time
  SubmittedAt : Option Time
  ExpiresAt : Time
  TimeRemaining : Option Int
  CurrentQuestionIndex : Int
  CreatedAt : Time
  UpdatedAt : Time
  deriving DecidableEq, Repr

/-- `models.TestResult`, the stored columns. `Percentage` is a `float64`; its
value is kept as the rational number the float denotes. -/
structure TestResult where
  ID : Int
  SessionID : Int
  TestID : Int
  UserID : Int
  TotalQuestions : Int
  AnsweredQuestions : Int
  CorrectAnswers : Int
  TotalMarks : Int
  MarksObtained : Int
  Percentage : ℚ
  Grade : Option String
  IsPassed : Bool
  TimeTaken : Option Int
  CompletedAt : Time
  deriving DecidableEq, Repr

/-- `models.UserAnswer`, the stored columns. -/
structure UserAnswer where
  ID : Int
  SessionID : Int
  QuestionID : Int
  AnswerText : Option String
  SelectedOptionID : Option Int
  IsCorrect : Option Bool
  MarksAwarded : Int
  AnsweredAt : Time
  deriving DecidableEq, Repr

/-- `TestSession.IsExpired`: `time.Now().After(s.ExpiresAt)` at the clock
reading `now`. -/
def TestSession.IsExpired (s : TestSession) (now : Time) : Bool :=
  decide (s.ExpiresAt < now)

/-- `TestSession.IsActive`: in progress and not expired. -/
def TestSession.IsActive (s : TestSession) (now : Time) : Bool :=
  decide (s.Status = SessionStatus.in_progress) && !s.IsExpired now

/-- `Test.IsAvailable` at the clock reading `now`. -/
def Test.IsAvailable (t : Test) (now : Time) : Bool :=
  if !t.IsActive then false
  else if (match t.StartTime with
      | some st => decide (now < st)
      | none => false) then false
  else if (match t.EndTime with
      | some en => decide (en < now)
      | none => false) then false
  else true

/-- Two's-complement wrap-around of a 64-bit signed integer. -/
def wrapInt64 (x : Int) : Int :=
  (x + 2 ^ 63) % 2 ^ 64 - 2 ^ 63

/-- `Test.GetDuration`: `time.Duration(t.DurationMinutes) * time.Minute`, an
`int64` count of nanoseconds. -/
def Test.GetDuration (t : Test) : Time :=
  wrapInt64 (t.DurationMinutes * 60000000000)

/-! ## Strings (`strings.TrimSpace`, `strings.ToLower`) -/

/-- `unicode.IsSpace`: the Latin-1 spaces and the code points with the
White_Space property. -/
def isSpace (c : Char) : Bool :=
  let n := c.toNat
  (9 ≤ n && n ≤ 13) || n == 32 || n == 0x85 || n == 0xA0 || n == 0x1680 ||
  (0x2000 ≤ n && n ≤ 0x200A) || n == 0x2028 || n == 0x2029 || n == 0x202F ||
  n == 0x205F || n == 0x3000

/-- `strings.TrimSpace`: drop the leading and the trailing white space. -/
def TrimSpace (s : String) : String :=
  String.mk (((s.data.dropWhile isSpace).reverse.dropWhile isSpace).reverse)

/-- `strings.ToLower`: map every rune through the lower-case rune map. -/
def ToLower (lowerRune : Char → Char) (s : String) : String :=
  String.mk (s.data.map lowerRune)

/-- The lower-case rune map on the ASCII range (`unicode.ToLower` restricted
to `A`..`Z`); used to instantiate `lowerRune` on ASCII inputs. -/
def asciiLower (c : Char) : Char :=
  if 65 ≤ c.toNat ∧ c.toNat ≤ 90 then Char.ofNat (c.toNat + 32) else c

/-! ## Floating point (`float64`)

The values that reach a `float64` in the session core are quotients and
products of 64-bit integers, which lie in the normal range of binary64; a
float is modelled by the rational it denotes, and every operation rounds its
exact result to 53 significant bits, ties to even. -/

/-- Number of binary digits of `n`, by halving at most `fuel` times. -/
def bitLenAux : Nat → Nat → Nat
  | 0, _ => 0
  | fuel + 1, n => if n = 0 then 0 else bitLenAux fuel (n / 2) + 1

/-- Number of binary digits of `n`. -/
def bitLen (n : Nat) : Nat := bitLenAux n n

/-- The power `2 ^ e` for an integer exponent. -/
def pow2 (e : Int) : ℚ :=
  if 0 ≤ e then ((2 ^ e.toNat : Nat) : ℚ) else 1 / ((2 ^ (-e).toNat : Nat) : ℚ)

/-- The exponent `e` with `2 ^ e ≤ q < 2 ^ (e + 1)`, for positive `q`. -/
def floorLog2 (q : ℚ) : Int :=
  let e0 : Int := (bitLen q.num.natAbs : Int) - (bitLen q.den : Int)
  if pow2 e0 ≤ q then e0 else e0 - 1

/-- Round to the nearest integer, ties to the even one. -/
def roundHalfEven (q : ℚ) : Int :=
  let f := Rat.floor q
  let r := q - (f : ℚ)
  if r < 1 / 2 then f
  else if 1 / 2 < r then f + 1
  else if f % 2 = 0 then f else f + 1

/-- Round a rational to the nearest binary64 value (normal range). -/
def f64round (q : ℚ) : ℚ :=
  if q = 0 then 0
  else
    let e := floorLog2 |q| - 52
    (roundHalfEven (q / pow2 e) : ℚ) * pow2 e

/-- Conversion `float64(n)` of an integer. -/
def f64ofInt (n : Int) : ℚ := f64round (n : ℚ)

/-- Float division. -/
def f64div (x y : ℚ) : ℚ := f64round (x / y)

/-- Float multiplication. -/
def f64mul (x y : ℚ) : ℚ := f64round (x * y)

/-- Float addition. -/
def f64add (x y : ℚ) : ℚ := f64round (x + y)

/-- Conversion `int(x)` of a float: truncation toward zero. -/
def f64toInt (x : ℚ) : Int :=
  if 0 ≤ x then Rat.floor x else -Rat.floor (-x)

/-- `time.Duration.Seconds`: `float64(d / Second) + float64(d % Second) / 1e9`
with the truncated division of Go. -/
def durationSeconds (d : Int) : ℚ :=
  f64add (f64ofInt (Int.tdiv d 1000000000))
    (f64div (f64ofInt (Int.tmod d 1000000000)) (f64round 1000000000))

/-- `time.Time.Sub`: the difference as a `Duration`, saturated to the `int64`
range. -/
def timeSub (t u : Time) : Int :=
  max (-(2 ^ 63)) (min (2 ^ 63 - 1) (t - u))

/-! ## Scoring engine (`services/session_service.go`) -/

/-- The two look-ups of `models.QuestionRepository` that the scoring engine
calls; either may fail. -/
structure QuestionLookups where
  GetOptionsByQuestionID : Int → Except Err (List QuestionOption)
  GetCorrectAnswersByQuestionID : Int → Except Err (List CorrectAnswer)

/-- The `for ... range options` loop of `scoreMultipleChoiceAnswer`. -/
def scoreMultipleChoiceLoop (marks : Int) (selected : Int) :
    List QuestionOption → Bool × Int
  | [] => (false, 0)
  | option :: rest =>
    if option.ID = selected ∧ option.IsCorrect = true then (true, marks)
    else scoreMultipleChoiceLoop marks selected rest

/-- `scoreMultipleChoiceAnswer`. -/
def scoreMultipleChoiceAnswer (questionRepo : QuestionLookups) (question : Question)
    (selectedOptionID : Option Int) : Bool × Int :=
  match selectedOptionID with
  | none => (false, 0)
  | some selected =>
    match questionRepo.GetOptionsByQuestionID question.ID with
    | .error _ => (false, 0)
    | .ok options => scoreMultipleChoiceLoop question.Marks selected options

/-- The `for ... range correctAnswers` loop of `scoreShortAnswer`. The variable
`userAnswer` is declared before the loop and assigned inside it, so its value
is carried from one iteration to the next; `expectedAnswer` is declared afresh
in every iteration. -/
def scoreShortAnswerLoop (lowerRune : Char → Char) (marks : Int) :
    String → List CorrectAnswer → Bool × Int
  | _, [] => (false, 0)
  | userAnswer, correctAnswer :: rest =>
    let expectedAnswer := correctAnswer.AnswerText
    let userAnswer1 :=
      if correctAnswer.IsCaseSensitive = false then ToLower lowerRune userAnswer else userAnswer
    let expectedAnswer1 :=
      if correctAnswer.IsCaseSensitive = false then ToLower lowerRune expectedAnswer
      else expectedAnswer
    if userAnswer1 = expectedAnswer1 then (true, marks)
    else scoreShortAnswerLoop lowerRune marks userAnswer1 rest

/-- `scoreShortAnswer`. -/
def scoreShortAnswer (lowerRune : Char → Char) (questionRepo : QuestionLookups)
    (question : Question) (answerText : Option String) : Bool × Int :=
  match answerText with
  | none => (false, 0)
  | some text =>
    if TrimSpace text = "" then (false, 0)
    else
      match questionRepo.GetCorrectAnswersByQuestionID question.ID with
      | .error _ => (false, 0)
      | .ok correctAnswers =>
        scoreShortAnswerLoop lowerRune question.Marks (TrimSpace text) correctAnswers

/-- `scoreAnswer`: dispatch on the question type. -/
def scoreAnswer (lowerRune : Char → Char) (questionRepo : QuestionLookups)
    (question : Question) (answerText : Option String) (selectedOptionID : Option Int) :
    Bool × Int :=
  match question.QuestionType with
  | .multiple_choice => scoreMultipleChoiceAnswer questionRepo question selectedOptionID
  | .true_false => scoreMultipleChoiceAnswer questionRepo question selectedOptionID
  | .short_answer => scoreShortAnswer lowerRune questionRepo question answerText
  | .unrecognised => (false, 0)

/-! ## The store (`internal/database`) -/

/-- The database handle (`database.DB`): the name of the driver, the tables,
each a list of rows in table order, and the last id handed out by the id
sequence of each table written by the core. -/
structure DB where
  Driver : String
  tests : List Test
  questions : List Question
  question_options : List QuestionOption
  correct_answers : List CorrectAnswer
  test_sessions : List TestSession
  user_answers : List UserAnswer
  test_results : List TestResult
  test_sessions_seq : Int
  user_answers_seq : Int
  test_results_seq : Int
  deriving DecidableEq, Repr

/-- `TestRepository.GetByID`: `SELECT ... FROM tests WHERE id = ?`. -/
def TestRepository.GetByID (db : DB) (id : Int) : Option Test :=
  db.tests.find? (fun t => decide (t.ID = id))

/-- `QuestionRepository.GetByID`: `SELECT ... FROM questions WHERE id = ?`. -/
def QuestionRepository.GetByID (db : DB) (id : Int) : Option Question :=
  db.questions.find? (fun q => decide (q.ID = id))

/-- `QuestionRepository.GetByTestID`:
`SELECT ... FROM questions WHERE test_id = ? ORDER BY order_index ASC`. -/
def QuestionRepository.GetByTestID (db : DB) (testID : Int) : List Question :=
  (db.questions.filter (fun q => decide (q.TestID = testID))).insertionSort
    (fun a b => a.OrderIndex ≤ b.OrderIndex)

/-- `QuestionRepository.GetOptionsByQuestionID`:
`SELECT ... FROM question_options WHERE question_id = ? ORDER BY order_index ASC`. -/
def QuestionRepository.GetOptionsByQuestionID (db : DB) (questionID : Int) :
    List QuestionOption :=
  (db.question_options.filter (fun o => decide (o.QuestionID = questionID))).insertionSort
    (fun a b => a.OrderIndex ≤ b.OrderIndex)

/-- `QuestionRepository.GetCorrectAnswersByQuestionID`:
`SELECT ... FROM correct_answers WHERE question_id = ?`. -/
def QuestionRepository.GetCorrectAnswersByQuestionID (db : DB) (questionID : Int) :
    List CorrectAnswer :=
  db.correct_answers.filter (fun c => decide (c.QuestionID = questionID))

/-- The look-ups of the scoring engine, answered by the database. -/
def QuestionRepository.lookups (db : DB) : QuestionLookups where
  GetOptionsByQuestionID := fun id => .ok (QuestionRepository.GetOptionsByQuestionID db id)
  GetCorrectAnswersByQuestionID := fun id =>
    .ok (QuestionRepository.GetCorrectAnswersByQuestionID db id)

/-- `TestSessionRepository.Create`: insert the row. The columns `started_at`
and `submitted_at` are not part of the `INSERT` and stay `NULL`; `created_at`
and `updated_at` are not part of it either and receive the values
`rowCreatedAt` and `rowUpdatedAt` of the database. On the driver `postgres`
the statement returns the id and these two values into the struct; on any
other driver the struct receives the id and two readings of `time.Now()`,
`createdAt` and `updatedAt`. -/
def TestSessionRepository.Create (db : DB) (rowCreatedAt rowUpdatedAt createdAt updatedAt : Time)
    (session : TestSession) : TestSession × DB :=
  let id := db.test_sessions_seq + 1
  let row : TestSession :=
    { session with ID := id, StartedAt := none, SubmittedAt := none,
                   CreatedAt := rowCreatedAt, UpdatedAt := rowUpdatedAt }
  let session1 : TestSession :=
    if db.Driver = "postgres" then
      { session with ID := id, CreatedAt := rowCreatedAt, UpdatedAt := rowUpdatedAt }
    else { session with ID := id, CreatedAt := createdAt, UpdatedAt := updatedAt }
  (session1,
   { db with test_sessions := db.test_sessions ++ [row], test_sessions_seq := id })

/-- `TestSessionRepository.GetByID`. -/
def TestSessionRepository.GetByID (db : DB) (id : Int) : Option TestSession :=
  db.test_sessions.find? (fun s => decide (s.ID = id))

/-- `TestSessionRepository.GetByToken`:
`SELECT ... FROM test_sessions WHERE session_token = ?`. -/
def TestSessionRepository.GetByToken (db : DB) (token : String) : Option TestSession :=
  db.test_sessions.find? (fun s => decide (s.SessionToken = token))

/-- `TestSessionRepository.GetByUserAndTest`:
`SELECT ... FROM test_sessions WHERE user_id = ? AND test_id = ?`, read with
`QueryRow`: the first matching row, with no `ORDER BY` and no filter on the
status. -/
def TestSessionRepository.GetByUserAndTest (db : DB) (userID testID : Int) :
    Option TestSession :=
  db.test_sessions.find? (fun s => decide (s.UserID = userID) && decide (s.TestID = testID))

/-- The row written by `UPDATE test_sessions SET status, started_at,
submitted_at, time_remaining, current_question_index, updated_at`. -/
def TestSessionRepository.updateRow (session : TestSession) (r : TestSession) : TestSession :=
  { r with Status := session.Status, StartedAt := session.StartedAt,
           SubmittedAt := session.SubmittedAt, TimeRemaining := session.TimeRemaining,
           CurrentQuestionIndex := session.CurrentQuestionIndex,
           UpdatedAt := session.UpdatedAt }

/-- `TestSessionRepository.Update`: stamp `UpdatedAt` on the struct, then
rewrite the rows `WHERE id = ?`. -/
def TestSessionRepository.Update (db : DB) (stamp : Time) (session : TestSession) :
    TestSession × DB :=
  let session1 := { session with UpdatedAt := stamp }
  (session1,
   { db with test_sessions := db.test_sessions.map (fun r =>
      if r.ID = session1.ID then TestSessionRepository.updateRow session1 r else r) })

/-- `TestSessionRepository.ExpireOldSessions`:
`UPDATE test_sessions SET status = 'expired', updated_at = ? WHERE expires_at < ?
AND status IN ('not_started', 'in_progress')`. -/
def TestSessionRepository.ExpireOldSessions (db : DB) (now : Time) : DB :=
  { db with test_sessions := db.test_sessions.map (fun r =>
      if r.ExpiresAt < now ∧
          (r.Status = SessionStatus.not_started ∨ r.Status = SessionStatus.in_progress) then
        { r with Status := SessionStatus.expired, UpdatedAt := now }
      else r) }

/-- `UserAnswerRepository.Create`: insert the row; the column `answered_at`
is not part of the `INSERT` and receives the value `rowAnsweredAt` of the
database. On the driver `postgres` the statement returns the id and that value
into the struct; on any other driver the struct receives the id and a reading
of `time.Now()`, `answeredAt`. -/
def UserAnswerRepository.Create (db : DB) (rowAnsweredAt answeredAt : Time)
    (answer : UserAnswer) : UserAnswer × DB :=
  let id := db.user_answers_seq + 1
  let row : UserAnswer := { answer with ID := id, AnsweredAt := rowAnsweredAt }
  let answer1 : UserAnswer :=
    if db.Driver = "postgres" then { answer with ID := id, AnsweredAt := rowAnsweredAt }
    else { answer with ID := id, AnsweredAt := answeredAt }
  (answer1,
   { db with user_answers := db.user_answers ++ [row], user_answers_seq := id })

/-- `UserAnswerRepository.GetBySessionAndQuestion`:
`SELECT ... FROM user_answers WHERE session_id = ? AND question_id = ?`. -/
def UserAnswerRepository.GetBySessionAndQuestion (db : DB) (sessionID questionID : Int) :
    Option UserAnswer :=
  db.user_answers.find? (fun a =>
    decide (a.SessionID = sessionID) && decide (a.QuestionID = questionID))

/-- `UserAnswerRepository.GetBySession`:
`SELECT ... FROM user_answers WHERE session_id = ? ORDER BY answered_at ASC`. -/
def UserAnswerRepository.GetBySession (db : DB) (sessionID : Int) : List UserAnswer :=
  (db.user_answers.filter (fun a => decide (a.SessionID = sessionID))).insertionSort
    (fun a b => a.AnsweredAt ≤ b.AnsweredAt)

/-- The row written by `UPDATE user_answers SET answer_text, selected_option_id,
is_correct, marks_awarded`. -/
def UserAnswerRepository.updateRow (answer : UserAnswer) (r : UserAnswer) : UserAnswer :=
  { r with AnswerText := answer.AnswerText, SelectedOptionID := answer.SelectedOptionID,
           IsCorrect := answer.IsCorrect, MarksAwarded := answer.MarksAwarded }

/-- `UserAnswerRepository.Update`: rewrite the rows `WHERE id = ?`. -/
def UserAnswerRepository.Update (db : DB) (answer : UserAnswer) : DB :=
  { db with user_answers := db.user_answers.map (fun r =>
      if r.ID = answer.ID then UserAnswerRepository.updateRow answer r else r) }

/-- `TestResultRepository.Create`: insert the row; the column `completed_at`
is not part of the `INSERT` and receives the value `rowCompletedAt` of the
database. On the driver `postgres` the statement returns the id and that value
into the struct; on any other driver the struct receives the id and a reading
of `time.Now()`, `completedAt`. -/
def TestResultRepository.Create (db : DB) (rowCompletedAt completedAt : Time)
    (result : TestResult) : TestResult × DB :=
  let id := db.test_results_seq + 1
  let row : TestResult := { result with ID := id, CompletedAt := rowCompletedAt }
  let result1 : TestResult :=
    if db.Driver = "postgres" then { result with ID := id, CompletedAt := rowCompletedAt }
    else { result with ID := id, CompletedAt := completedAt }
  (result1,
   { db with test_results := db.test_results ++ [row], test_results_seq := id })

/-- `TestResultRepository.GetBySessionID`:
`SELECT ... FROM test_results WHERE session_id = ?`. -/
def TestResultRepository.GetBySessionID (db : DB) (sessionID : Int) : Option TestResult :=
  db.test_results.find? (fun r => decide (r.SessionID = sessionID))

/-! ## Result aggregation (`models/result.go`, `services/result_service.go`)

The clock of an operation is a function `clk : Nat → Time`: `clk i` is the
reading of the `i`-th place of the operation where `time.Now()` is called or
where the database fills a timestamp column of an inserted row by itself.
Places are numbered in program order; an operation called from another one
receives the caller's clock shifted to its own first place. -/

/-- `TestResult.CalculateGrade`. -/
def TestResult.CalculateGrade (r : TestResult) : String :=
  if r.Percentage ≥ 90 then "A+"
  else if r.Percentage ≥ 80 then "A"
  else if r.Percentage ≥ 70 then "B+"
  else if r.Percentage ≥ 60 then "B"
  else if r.Percentage ≥ 50 then "C"
  else if r.Percentage ≥ 40 then "D"
  else "F"

/-- The `for ... range answers` loop of `CalculateResult`, from the running
pair `(correctAnswers, marksObtained)`. `marksObtained += answer.MarksAwarded`
is an addition of 64-bit integers and wraps around; `correctAnswers++` counts
elements of a slice, of which there are fewer than `2 ^ 63`, and cannot. -/
def tallyAnswers : Int × Int → List UserAnswer → Int × Int
  | acc, [] => acc
  | acc, answer :: rest =>
    let correctAnswers := if answer.IsCorrect = some true then acc.1 + 1 else acc.1
    tallyAnswers (correctAnswers, wrapInt64 (acc.2 + answer.MarksAwarded)) rest

/-- `TestResultService.CalculateResult`. Clock: place 0 is the `completed_at`
that the database gives the inserted row, place 1 the reading of `time.Now()`
in `TestResultRepository.Create` on a driver other than `postgres`. -/
def TestResultService.CalculateResult (db : DB) (clk : Nat → Time) (sessionID : Int) :
    Except Err TestResult × DB :=
  match TestResultRepository.GetBySessionID db sessionID with
  | some existingResult => (.ok existingResult, db)
  | none =>
    match TestSessionRepository.GetByID db sessionID with
    | none => (.error Err.ErrUserNotFound, db)
    | some session =>
      match TestRepository.GetByID db session.TestID with
      | none => (.error Err.ErrUserNotFound, db)
      | some test =>
        let questions := QuestionRepository.GetByTestID db session.TestID
        let answers := UserAnswerRepository.GetBySession db sessionID
        let totalQuestions : Int := questions.length
        let answeredQuestions : Int := answers.length
        let tally := tallyAnswers (0, 0) answers
        let correctAnswers := tally.1
        let marksObtained := tally.2
        let percentage : ℚ :=
          if test.TotalMarks > 0 then
            f64mul (f64div (f64ofInt marksObtained) (f64ofInt test.TotalMarks)) 100
          else 0
        let isPassed := decide (marksObtained ≥ test.PassingMarks)
        let timeTaken : Option Int :=
          match session.StartedAt, session.SubmittedAt with
          | some startedAt, some submittedAt =>
            some (f64toInt (durationSeconds (timeSub submittedAt startedAt)))
          | _, _ => none
        let result : TestResult :=
          { ID := 0, SessionID := sessionID, TestID := session.TestID,
            UserID := session.UserID, TotalQuestions := totalQuestions,
            AnsweredQuestions := answeredQuestions, CorrectAnswers := correctAnswers,
            TotalMarks := test.TotalMarks, MarksObtained := marksObtained,
            Percentage := percentage, Grade := none, IsPassed := isPassed,
            TimeTaken := timeTaken, CompletedAt := 0 }
        let result1 := { result with Grade := some result.CalculateGrade }
        let created := TestResultRepository.Create db (clk 0) (clk 1) result1
        (.ok created.1, created.2)

/-! ## Session lifecycle (`services/session_service.go`) -/

/-- `hex.EncodeToString` on one byte: two lower-case hexadecimal digits. -/
def hexByte (b : Fin 256) : List Char :=
  ["0123456789abcdef".data.getD (b.val / 16) '0', "0123456789abcdef".data.getD (b.val % 16) '0']

/-- `generateSessionToken`: the hexadecimal encoding of the 32 bytes read from
`crypto/rand`; the read may fail. -/
def generateSessionToken (entropy : Except Err (Fin 32 → Fin 256)) : Except Err String :=
  match entropy with
  | .error e => .error e
  | .ok bytes => .ok (String.mk ((List.ofFn bytes).flatMap hexByte))

/-- `TestSessionService.StartSession`. Clock: place 0 is `test.IsAvailable`,
place 1 `existingSession.IsExpired`, place 2 the reading for `expiresAt`,
places 3 and 4 the `created_at` and `updated_at` that the database gives the
inserted row, places 5 and 6 the two readings of `time.Now()` in
`TestSessionRepository.Create` on a driver other than `postgres`. -/
def TestSessionService.StartSession (db : DB) (clk : Nat → Time)
    (entropy : Except Err (Fin 32 → Fin 256)) (userID testID : Int) :
    Except Err TestSession × DB :=
  match TestRepository.GetByID db testID with
  | none => (.error Err.testNotAvailable, db)
  | some test =>
    if test.IsAvailable (clk 0) = false then (.error Err.testNotAvailable, db)
    else
      let create : Except Err TestSession × DB :=
        match generateSessionToken entropy with
        | .error e => (.error e, db)
        | .ok token =>
          let session : TestSession :=
            { ID := 0, TestID := testID, UserID := userID, SessionToken := token,
              Status := SessionStatus.not_started, StartedAt := none, SubmittedAt := none,
              ExpiresAt := clk 2 + test.GetDuration,
              TimeRemaining := some (f64toInt (durationSeconds test.GetDuration)),
              CurrentQuestionIndex := 0, CreatedAt := 0, UpdatedAt := 0 }
          let created := TestSessionRepository.Create db (clk 3) (clk 4) (clk 5) (clk 6) session
          (.ok created.1, created.2)
      match TestSessionRepository.GetByUserAndTest db userID testID with
      | some existingSession =>
        if existingSession.IsExpired (clk 1) = false ∧
            existingSession.Status ≠ SessionStatus.submitted then
          (.ok existingSession, db)
        else create
      | none => create

/-- `TestSessionService.GetSession`. Clock: place 0 is `session.IsExpired`,
place 1 the stamp of `TestSessionRepository.Update`, whose error is dropped. -/
def TestSessionService.GetSession (db : DB) (clk : Nat → Time) (sessionToken : String) :
    Except Err TestSession × DB :=
  match TestSessionRepository.GetByToken db sessionToken with
  | none => (.error Err.ErrUserNotFound, db)
  | some session =>
    if session.IsExpired (clk 0) = true ∧ session.Status = SessionStatus.in_progress then
      let updated := TestSessionRepository.Update db (clk 1)
        { session with Status := SessionStatus.expired }
      (.ok updated.1, updated.2)
    else (.ok session, db)

/-- The second half of `SubmitAnswer`, from the comment `// Get question` to
the end: look the question up, check that it belongs to the session's test,
score the submission and overwrite the existing answer row of the (session,
question) pair or insert a new one. `stamp` is the pair of the `answered_at`
that the database gives an inserted row and of the reading of `time.Now()` in
`UserAnswerRepository.Create` on a driver other than `postgres`. -/
def TestSessionService.recordAnswer (lowerRune : Char → Char) (db : DB) (stamp : Time × Time)
    (session : TestSession) (questionID : Int) (answerText : Option String)
    (selectedOptionID : Option Int) : Except Err UserAnswer × DB :=
  match QuestionRepository.GetByID db questionID with
  | none => (.error Err.invalidQuestion, db)
  | some question =>
    if question.TestID ≠ session.TestID then (.error Err.invalidQuestion, db)
    else
      let existingAnswer :=
        UserAnswerRepository.GetBySessionAndQuestion db session.ID questionID
      let score := scoreAnswer lowerRune (QuestionRepository.lookups db) question
        answerText selectedOptionID
      match existingAnswer with
      | some existing =>
        let existing1 : UserAnswer :=
          { existing with AnswerText := answerText, SelectedOptionID := selectedOptionID,
                          IsCorrect := some score.1, MarksAwarded := score.2 }
        (.ok existing1, UserAnswerRepository.Update db existing1)
      | none =>
        let answer : UserAnswer :=
          { ID := 0, SessionID := session.ID, QuestionID := questionID,
            AnswerText := answerText, SelectedOptionID := selectedOptionID,
            IsCorrect := some score.1, MarksAwarded := score.2, AnsweredAt := 0 }
        let created := UserAnswerRepository.Create db stamp.1 stamp.2 answer
        (.ok created.1, created.2)

/-- `TestSessionService.SubmitAnswer`: resolve the session, reject it when it
is not available for answers, start it when it is not started, then record
the answer (`recordAnswer`). Clock: places 0 and 1 belong to `GetSession`,
place 2 is `session.IsExpired`, place 3 the reading `now` for `StartedAt`,
place 4 the stamp of `TestSessionRepository.Update`, place 5 the
`answered_at` that the database gives an inserted row, place 6 the reading of
`time.Now()` in `UserAnswerRepository.Create` on a driver other than
`postgres`. -/
def TestSessionService.SubmitAnswer (lowerRune : Char → Char) (db : DB) (clk : Nat → Time)
    (sessionToken : String) (questionID : Int) (answerText : Option String)
    (selectedOptionID : Option Int) : Except Err UserAnswer × DB :=
  match TestSessionService.GetSession db clk sessionToken with
  | (.error e, db1) => (.error e, db1)
  | (.ok session, db1) =>
    if session.IsExpired (clk 2) = true ∨
        (session.Status ≠ SessionStatus.not_started ∧
          session.Status ≠ SessionStatus.in_progress) then
      (.error Err.sessionNotAvailable, db1)
    else
      let started : TestSession × DB :=
        if session.Status = SessionStatus.not_started then
          TestSessionRepository.Update db1 (clk 4)
            { session with Status := SessionStatus.in_progress, StartedAt := some (clk 3) }
        else (session, db1)
      TestSessionService.recordAnswer lowerRune started.2 (clk 5, clk 6) started.1 questionID
        answerText selectedOptionID

/-- `TestSessionService.SubmitSession`. Clock: places 0 and 1 belong to
`GetSession`, place 2 is the reading `now` for `SubmittedAt`, place 3 the
stamp of `TestSessionRepository.Update`, the places from 4 on belong to
`CalculateResult`, whose error is only logged. -/
def TestSessionService.SubmitSession (db : DB) (clk : Nat → Time) (sessionToken : String) :
    Except Err TestSession × DB :=
  match TestSessionService.GetSession db clk sessionToken with
  | (.error e, db1) => (.error e, db1)
  | (.ok session, db1) =>
    if session.Status = SessionStatus.submitted then (.ok session, db1)
    else
      let updated := TestSessionRepository.Update db1 (clk 3)
        { session with Status := SessionStatus.submitted, SubmittedAt := some (clk 2) }
      let calculated :=
        TestResultService.CalculateResult updated.2 (fun i => clk (i + 4)) updated.1.ID
      (.ok updated.1, calculated.2)

/-- `TestSessionService.UpdateSessionProgress`. Clock: places 0 and 1 belong
to `GetSession`, place 2 is `session.IsActive`, place 3 the stamp of
`TestSessionRepository.Update`. -/
def TestSessionService.UpdateSessionProgress (db : DB) (clk : Nat → Time)
    (sessionToken : String) (currentQuestionIndex : Int) : Except Err Unit × DB :=
  match TestSessionService.GetSession db clk sessionToken with
  | (.error e, db1) => (.error e, db1)
  | (.ok session, db1) =>
    if session.IsActive (clk 2) = false then (.error Err.sessionNotActive, db1)
    else
      let updated := TestSessionRepository.Update db1 (clk 3)
        { session with CurrentQuestionIndex := currentQuestionIndex }
      (.ok (), updated.2)

/-! ## Sequences of calls -/

/-- One call of an operation of the session core, with its clock and its
arguments. -/
inductive Call where
  | StartSession (clk : Nat → Time) (entropy : Except Err (Fin 32 → Fin 256))
      (userID testID : Int)
  | GetSession (clk : Nat → Time) (sessionToken : String)
  | SubmitAnswer (clk : Nat → Time) (sessionToken : String) (questionID : Int)
      (answerText : Option String) (selectedOptionID : Option Int)
  | SubmitSession (clk : Nat → Time) (sessionToken : String)
  | UpdateSessionProgress (clk : Nat → Time) (sessionToken : String)
      (currentQuestionIndex : Int)
  | CalculateResult (clk : Nat → Time) (sessionID : Int)
  | ExpireOldSessions (now : Time)

/-- The store after one call. -/
def Call.exec (lowerRune : Char → Char) (db : DB) : Call → DB
  | .StartSession clk entropy userID testID =>
    (TestSessionService.StartSession db clk entropy userID testID).2
  | .GetSession clk sessionToken => (TestSessionService.GetSession db clk sessionToken).2
  | .SubmitAnswer clk sessionToken questionID answerText selectedOptionID =>
    (TestSessionService.SubmitAnswer lowerRune db clk sessionToken questionID answerText
      selectedOptionID).2
  | .SubmitSession clk sessionToken => (TestSessionService.SubmitSession db clk sessionToken).2
  | .UpdateSessionProgress clk sessionToken currentQuestionIndex =>
    (TestSessionService.UpdateSessionProgress db clk sessionToken currentQuestionIndex).2
  | .CalculateResult clk sessionID => (TestResultService.CalculateResult db clk sessionID).2
  | .ExpireOldSessions now => TestSessionRepository.ExpireOldSessions db now

/-- The store after a sequence of calls, in order. -/
def execAll (lowerRune : Char → Char) (db : DB) (calls : List Call) : DB :=
  calls.foldl (Call.exec lowerRune) db

/-! ## What the specification says of the scoring engine -/

/-- The condition under which the specification calls a short answer correct:
the text is present and not blank, and some registered correct answer equals
the trimmed text, exactly when that correct answer is case-sensitive and after
lower-casing both sides when it is not. -/
def specShortAnswerCorrect (lowerRune : Char → Char) (correctAnswers : List CorrectAnswer)
    (answerText : Option String) : Prop :=
  ∃ text, answerText = some text ∧ TrimSpace text ≠ "" ∧
    ∃ c ∈ correctAnswers,
      (c.IsCaseSensitive = true → TrimSpace text = c.AnswerText) ∧
      (c.IsCaseSensitive = false →
        ToLower lowerRune (TrimSpace text) = ToLower lowerRune c.AnswerText)

/-- The condition under which the specification calls a choice answer
correct: an option id is supplied, the options of the question are fetched,
and one of them has that id and is flagged correct. -/
def specChoiceCorrect (questionRepo : QuestionLookups) (question : Question)
    (selectedOptionID : Option Int) : Prop :=
  ∃ id options, selectedOptionID = some id ∧
    questionRepo.GetOptionsByQuestionID question.ID = .ok options ∧
    ∃ o ∈ options, o.ID = id ∧ o.IsCorrect = true

/-! ## Predicates on the store -/

/-- The session `s` carries the columns of row `r` that no `UPDATE` writes. -/
def SameFixed (s r : TestSession) : Prop :=
  s.ID = r.ID ∧ s.TestID = r.TestID ∧ s.UserID = r.UserID ∧
  s.SessionToken = r.SessionToken ∧ s.ExpiresAt = r.ExpiresAt ∧ s.CreatedAt = r.CreatedAt

/-- Number of result rows of a session. -/
def resultCount (db : DB) (sessionID : Int) : Nat :=
  db.test_results.countP (fun r => decide (r.SessionID = sessionID))

/-- Number of answer rows of a (session, question) pair. -/
def answerCount (db : DB) (sessionID questionID : Int) : Nat :=
  db.user_answers.countP (fun a =>
    decide (a.SessionID = sessionID) && decide (a.QuestionID = questionID))

/-- At most one answer row per (session, question) pair. -/
def AnswersUnique (db : DB) : Prop :=
  ∀ sessionID questionID, answerCount db sessionID questionID ≤ 1

/-- The session ids are pairwise distinct (`id` is the key of the table). -/
def SessionIDsUnique (db : DB) : Prop :=
  (db.test_sessions.map (fun s => s.ID)).Nodup

/-- The stored status of the session with the given id. -/
def statusOf (db : DB) (id : Int) : Option SessionStatus :=
  (TestSessionRepository.GetByID db id).map (fun s => s.Status)

/-- Every token that resolves in `db` still resolves in `db1`, to a session
with the same expiry time and the same id. -/
def TokenKept (db db1 : DB) : Prop :=
  ∀ tok s, TestSessionRepository.GetByToken db tok = some s →
    ∃ s1, TestSessionRepository.GetByToken db1 tok = some s1 ∧
      s1.ExpiresAt = s.ExpiresAt ∧ s1.ID = s.ID

/-- The store `db1` has the question catalogue of `db`. -/
def SameCatalog (db db1 : DB) : Prop :=
  db1.questions = db.questions ∧ db1.question_options = db.question_options ∧
  db1.correct_answers = db.correct_answers

/-! ## Concrete data used by the evaluations -/

/-- A short-answer question worth five marks. -/
def exQuestionShort : Question :=
  { ID := 2, TestID := 1, QuestionType := QuestionType.short_answer, Marks := 5, OrderIndex := 1 }

/-- A case-insensitive correct answer `"x"`. -/
def exAnswerLoose : CorrectAnswer :=
  { ID := 1, QuestionID := 2, AnswerText := "x", IsCaseSensitive := false }

/-- A case-sensitive correct answer `"Paris"`. -/
def exAnswerParis : CorrectAnswer :=
  { ID := 2, QuestionID := 2, AnswerText := "Paris", IsCaseSensitive := true }

/-- A case-sensitive correct answer `"paris"`. -/
def exAnswerParisLower : CorrectAnswer :=
  { ID := 3, QuestionID := 2, AnswerText := "paris", IsCaseSensitive := true }

/-- Look-ups that answer every question with the given correct answers. -/
def exLookups (correctAnswers : List CorrectAnswer) : QuestionLookups where
  GetOptionsByQuestionID := fun _ => .ok []
  GetCorrectAnswersByQuestionID := fun _ => .ok correctAnswers

/-- An always available test of thirty minutes, ten marks, five to pass. -/
def exTest : Test :=
  { ID := 1, DurationMinutes := 30, TotalMarks := 10, PassingMarks := 5, IsActive := true,
    StartTime := none, EndTime := none }

/-- A multiple-choice question of `exTest` worth five marks. -/
def exQuestionChoice : Question :=
  { ID := 1, TestID := 1, QuestionType := QuestionType.multiple_choice, Marks := 5,
    OrderIndex := 0 }

/-- The database on the driver `postgres` with `exTest`, its two questions,
the options of the first (option 1 correct, option 2 not), the correct answer
`"42"` of the second, and the given session rows; no answers and no results
yet. -/
def exDB (sessions : List TestSession) : DB :=
  { Driver := "postgres",
    tests := [exTest],
    questions := [exQuestionChoice, exQuestionShort],
    question_options :=
      [{ ID := 1, QuestionID := 1, OptionText := "yes", IsCorrect := true, OrderIndex := 0 },
       { ID := 2, QuestionID := 1, OptionText := "no", IsCorrect := false, OrderIndex := 1 }],
    correct_answers :=
      [{ ID := 1, QuestionID := 2, AnswerText := "42", IsCaseSensitive := false }],
    test_sessions := sessions,
    user_answers := [],
    test_results := [],
    test_sessions_seq := sessions.length,
    user_answers_seq := 0,
    test_results_seq := 0 }

/-- A session row of user 7 on `exTest` with token `"tok"`, expiring at 1000. -/
def exSession (id : Int) (status : SessionStatus) : TestSession :=
  { ID := id, TestID := 1, UserID := 7, SessionToken := "tok", Status := status,
    StartedAt := none, SubmittedAt := none, ExpiresAt := 1000, TimeRemaining := some 1800,
    CurrentQuestionIndex := 0, CreatedAt := 0, UpdatedAt := 0 }

/-- A clock whose readings start at `t` and advance by one per place. -/
def exClock (t : Time) : Nat → Time := fun i => t + i

/-- The store with one submitted session of user 7, started at second 100 and
submitted at second 400, with no answers. -/
def exSubmittedDB : DB :=
  exDB [{ exSession 1 SessionStatus.submitted with
          StartedAt := some 100000000000, SubmittedAt := some 400000000000 }]

/-- The result of `exSubmittedDB`'s session, calculated at clock 5000. -/
def exResult : TestResult :=
  { ID := 1, SessionID := 1, TestID := 1, UserID := 7, TotalQuestions := 2,
    AnsweredQuestions := 0, CorrectAnswers := 0, TotalMarks := 10, MarksObtained := 0,
    Percentage := 0, Grade := some "F", IsPassed := false, TimeTaken := some 300,
    CompletedAt := 5000 }

/-- The session with which `SubmitAnswer` goes on after admission, and the
store then: started (`in_progress`, `StartedAt` stamped, row updated) when the
admitted session was `not_started`, unchanged otherwise. -/
def startedSession (db : DB) (clk : Nat → Time) (session : TestSession) : TestSession × DB :=
  if session.Status = SessionStatus.not_started then
    TestSessionRepository.Update db (clk 4)
      { session with Status := SessionStatus.in_progress, StartedAt := some (clk 3) }
  else (session, db)

/-- The store with the expired session 1 (token `"tok"`) and the session 2 in
progress (token `"tok2"`, expiring at 5000). -/
def exTwoDB : DB :=
  exDB [exSession 1 SessionStatus.expired,
        { exSession 2 SessionStatus.in_progress with SessionToken := "tok2", ExpiresAt := 5000 }]

/-- Three calls made after time 1200 on the store `exDB [exSession 1 not_started]`:
a read of the session, a new start by the same user, a progress update. -/
def exLaterCalls : List Call :=
  [Call.GetSession (exClock 1500) "tok",
   Call.StartSession (exClock 1600) (.ok (fun _ => 0)) 7 1,
   Call.UpdateSessionProgress (exClock 1700) "tok" 1]

/-- A first submission at clock 100 on the unexpired session of token
`"tok"`: the wrong option 2 for the choice question 1. -/
def exFirstSubmit : Except Err UserAnswer × DB :=
  TestSessionService.SubmitAnswer asciiLower (exDB [exSession 1 SessionStatus.not_started])
    (exClock 100) "tok" 1 none (some 2)

/-- A second submission at clock 200 for the same session and question: the
correct option 1. -/
def exSecondSubmit : Except Err UserAnswer × DB :=
  TestSessionService.SubmitAnswer asciiLower exFirstSubmit.2 (exClock 200) "tok" 1 none (some 1)

/-- The answer row returned by `exFirstSubmit`. -/
def exFirstAnswer : UserAnswer :=
  { ID := 1, SessionID := 1, QuestionID := 1, AnswerText := none, SelectedOptionID := some 2,
    IsCorrect := some false, MarksAwarded := 0, AnsweredAt := 105 }

/-- The answer row returned by `exSecondSubmit`: the row of the first
submission, overwritten. -/
def exSecondAnswer : UserAnswer :=
  { ID := 1, SessionID := 1, QuestionID := 1, AnswerText := none, SelectedOptionID := some 1,
    IsCorrect := some true, MarksAwarded := 5, AnsweredAt := 105 }

/-- The store with one session in progress whose test (id 99) has no row in
`tests`, so that the result of the session cannot be calculated. -/
def exOrphanDB : DB :=
  exDB [{ exSession 1 SessionStatus.in_progress with TestID := 99 }]

/-- A test of a hundred marks, fifty to pass. -/
def exPassTest : Test :=
  { ID := 1, DurationMinutes := 30, TotalMarks := 100, PassingMarks := 50, IsActive := true,
    StartTime := none, EndTime := none }

/-- The store `exSubmittedDB` with the test `exPassTest` and one correct answer
of the submitted session, awarded the given marks. -/
def exPassDB (marks : Int) : DB :=
  { exSubmittedDB with
    tests := [exPassTest],
    user_answers :=
      [{ ID := 1, SessionID := 1, QuestionID := 1, AnswerText := none,
         SelectedOptionID := some 1, IsCorrect := some true, MarksAwarded := marks,
         AnsweredAt := 150 }],
    user_answers_seq := 1 }

/-- The result of the session of `exPassDB 50`, calculated at clock 5000. -/
def exPassResult : TestResult :=
  { ID := 1, SessionID := 1, TestID := 1, UserID := 7, TotalQuestions := 2,
    AnsweredQuestions := 1, CorrectAnswers := 1, TotalMarks := 100, MarksObtained := 50,
    Percentage := 50, Grade := some "C", IsPassed := true, TimeTaken := some 300,
    CompletedAt := 5000 }

/-- The result of the session of `exPassDB 49`, calculated at clock 5000. -/
def exFailResult : TestResult :=
  { ID := 1, SessionID := 1, TestID := 1, UserID := 7, TotalQuestions := 2,
    AnsweredQuestions := 1, CorrectAnswers := 1, TotalMarks := 100, MarksObtained := 49,
    Percentage := 49, Grade := some "D", IsPassed := false, TimeTaken := some 300,
    CompletedAt := 5000 }

/-- The percentage in the spec's words: the exact rational
`100 × marks-obtained / total-marks`, or 0 if total-marks is 0. -/
def specPercentage (marksObtained totalMarks : Int) : ℚ :=
  if totalMarks = 0 then 0 else 100 * (marksObtained : ℚ) / (totalMarks : ℚ)

/-- The result of the session of `exPassDB 57`, calculated at clock 5000; its
percentage is the float `56.99999999999999`, one unit in the last place below
57. -/
def exRoundResult : TestResult :=
  { ID := 1, SessionID := 1, TestID := 1, UserID := 7, TotalQuestions := 2,
    AnsweredQuestions := 1, CorrectAnswers := 1, TotalMarks := 100, MarksObtained := 57,
    Percentage := 8022036836253695 / 140737488355328, Grade := some "C", IsPassed := true,
    TimeTaken := some 300, CompletedAt := 5000 }

/-- The store `exPassDB 50` with the total-marks of the test set to -100. -/
def exNegDB : DB :=
  { exPassDB 50 with tests := [{ exPassTest with TotalMarks := -100 }] }

/-- The result of the session of `exNegDB`, calculated at clock 5000. -/
def exNegResult : TestResult :=
  { ID := 1, SessionID := 1, TestID := 1, UserID := 7, TotalQuestions := 2,
    AnsweredQuestions := 1, CorrectAnswers := 1, TotalMarks := -100, MarksObtained := 50,
    Percentage := 0, Grade := some "F", IsPassed := true,
    TimeTaken := some 300, CompletedAt := 5000 }

/-- The time-taken in the spec's words: the difference submitted-at minus
started-at in whole seconds when both timestamps are present, null
otherwise. -/
def specTimeTaken (startedAt submittedAt : Option Time) : Option Int :=
  match startedAt, submittedAt with
  | some s, some e => some (Int.tdiv (e - s) 1000000000)
  | _, _ => none

/-- The store with one submitted session of user 7, started at instant 0 and
submitted 16777216.999999999 seconds later, with no answers. -/
def exLongDB : DB :=
  exDB [{ exSession 1 SessionStatus.submitted with
          StartedAt := some 0, SubmittedAt := some 16777216999999999 }]

/-- The result of the session of `exLongDB`, calculated at clock 5000. -/
def exLongResult : TestResult :=
  { ID := 1, SessionID := 1, TestID := 1, UserID := 7, TotalQuestions := 2,
    AnsweredQuestions := 0, CorrectAnswers := 0, TotalMarks := 10, MarksObtained := 0,
    Percentage := 0, Grade := some "F", IsPassed := false, TimeTaken := some 16777217,
    CompletedAt := 5000 }

/-! ## The end-to-end run: start, answer every question, submit -/

/-- One submission of an answer: the clock of the call and its arguments. -/
structure Submission where
  clk : Nat → Time
  questionID : Int
  answerText : Option String
  selectedOptionID : Option Int

/-- The call of `SubmitAnswer` that makes the submission under the token. -/
def Submission.toCall (tok : String) (s : Submission) : Call :=
  Call.SubmitAnswer s.clk tok s.questionID s.answerText s.selectedOptionID

/-- A correct answer in the words of the specification: the correct option for
a choice question; for a short-answer question a text that matches one of the
registered correct answers, that answer being preceded, in the order in which
the store returns the correct answers, by case-sensitive ones only. -/
def specCorrectSubmission (lowerRune : Char → Char) (db : DB) (question : Question)
    (answerText : Option String) (selectedOptionID : Option Int) : Prop :=
  match question.QuestionType with
  | .multiple_choice =>
    specChoiceCorrect (QuestionRepository.lookups db) question selectedOptionID
  | .true_false =>
    specChoiceCorrect (QuestionRepository.lookups db) question selectedOptionID
  | .short_answer =>
    ∃ pre c post,
      QuestionRepository.GetCorrectAnswersByQuestionID db question.ID = pre ++ c :: post ∧
      (∀ p ∈ pre, p.IsCaseSensitive = true) ∧
      specShortAnswerCorrect lowerRune [c] answerText
  | .unrecognised => False

/-- A submission of the end-to-end run for the session `s0`: the two expiry
checks of the call read the clock no later than the expiry of the session, the
question is a question of the session's test, and the answer is correct. -/
def Submission.Valid (lowerRune : Char → Char) (db : DB) (s0 : TestSession)
    (s : Submission) : Prop :=
  s.clk 0 ≤ s0.ExpiresAt ∧ s.clk 2 ≤ s0.ExpiresAt ∧
  ∃ q, QuestionRepository.GetByID db s.questionID = some q ∧ q.TestID = s0.TestID ∧
    specCorrectSubmission lowerRune db q s.answerText s.selectedOptionID

/-- The key constraints of the store on which the run of the session `s0`
relies: ids are distinct within `questions`, `test_sessions` and
`user_answers`, session tokens are distinct, the answer ids handed out so far
do not exceed the id sequence, there is at most one answer per (session,
question) pair, and the answers of `s0` are answers to questions of its
test. -/
structure StoreKeys (db : DB) (s0 : TestSession) : Prop where
  questionIDs : (db.questions.map (fun q => q.ID)).Nodup
  sessionIDs : SessionIDsUnique db
  sessionTokens : (db.test_sessions.map (fun s => s.SessionToken)).Nodup
  answerIDs : (db.user_answers.map (fun a => a.ID)).Nodup
  answerSeq : ∀ a ∈ db.user_answers, a.ID ≤ db.user_answers_seq
  answersUnique : AnswersUnique db
  answersOfTest : ∀ a ∈ db.user_answers, a.SessionID = s0.ID →
    ∃ q, QuestionRepository.GetByID db a.QuestionID = some q ∧ q.TestID = s0.TestID

/-- The state of the run of the session `s0` from the store `db0`, after
correct answers to the questions `done`: catalogue, tests and results are
those of `db0`, the token resolves to the session, still open, and every
answer of the session to a question in `done` is correct with the marks of
its question. -/
structure RunInv (db0 db1 : DB) (s0 : TestSession) (done : List Int) : Prop where
  cat : SameCatalog db0 db1
  tests : db1.tests = db0.tests
  results : db1.test_results = db0.test_results
  sessionIDs : SessionIDsUnique db1
  session : ∃ x, TestSessionRepository.GetByToken db1 s0.SessionToken = some x ∧
    x.ID = s0.ID ∧ x.TestID = s0.TestID ∧ x.ExpiresAt = s0.ExpiresAt ∧
    (x.Status = SessionStatus.not_started ∨ x.Status = SessionStatus.in_progress)
  answerIDs : (db1.user_answers.map (fun a => a.ID)).Nodup
  answerSeq : ∀ a ∈ db1.user_answers, a.ID ≤ db1.user_answers_seq
  answersUnique : AnswersUnique db1
  answersOfTest : ∀ a ∈ db1.user_answers, a.SessionID = s0.ID →
    ∃ q, QuestionRepository.GetByID db0 a.QuestionID = some q ∧ q.TestID = s0.TestID
  answersDone : ∀ a ∈ db1.user_answers, a.SessionID = s0.ID → a.QuestionID ∈ done →
    a.IsCorrect = some true ∧
    ∃ q, QuestionRepository.GetByID db0 a.QuestionID = some q ∧ a.MarksAwarded = q.Marks
  covered : ∀ qid ∈ done, ∃ a ∈ db1.user_answers, a.SessionID = s0.ID ∧ a.QuestionID = qid

/-- The session that `StartSession` creates at clock 10 for user 7 on test 1
in a store without sessions, from 32 zero bytes of entropy. -/
def exRunSession : TestSession :=
  { ID := 1, TestID := 1, UserID := 7, SessionToken := String.mk (List.replicate 64 '0'),
    Status := SessionStatus.not_started, StartedAt := none, SubmittedAt := none,
    ExpiresAt := 1800000000012, TimeRemaining := some 1800, CurrentQuestionIndex := 0,
    CreatedAt := 13, UpdatedAt := 14 }

/-- The two submissions of the end-to-end scenario: option 1 for the choice
question 1 at clock 100, the text `"42"` for the short-answer question 2 at
clock 200. -/
def exRunSubs : List Submission :=
  [{ clk := exClock 100, questionID := 1, answerText := none, selectedOptionID := some 1 },
   { clk := exClock 200, questionID := 2, answerText := some "42", selectedOptionID := none }]

/-- The store `exDB []` in which the short-answer question 2 has two
registered correct answers, in this order: `"x"`, case-insensitive, and
`"Paris"`, case-sensitive. -/
def exSlipDB : DB :=
  { exDB [] with correct_answers := [exAnswerLoose, exAnswerParis] }

/-- Two submissions on `exSlipDB`: option 1 for the choice question 1 at clock
100, the text `"Paris"` for the short-answer question 2 at clock 200. -/
def exSlipSubs : List Submission :=
  [{ clk := exClock 100, questionID := 1, answerText := none, selectedOptionID := some 1 },
   { clk := exClock 200, questionID := 2, answerText := some "Paris",
     selectedOptionID := none }]

/-- The store after user 7 has started a session on `exSlipDB` at clock 10,
made the submissions `exSlipSubs` and submitted the session at clock 300. -/
def exSlipRun : DB :=
  (TestSessionService.SubmitSession
    (execAll asciiLower
      (TestSessionService.StartSession exSlipDB (exClock 10) (.ok (fun _ => 0)) 7 1).2
      (exSlipSubs.map (Submission.toCall exRunSession.SessionToken)))
    (exClock 300) exRunSession.SessionToken).2

/-- The result stored by `exSlipRun`. -/
def exSlipResult : TestResult :=
  { ID := 1, SessionID := 1, TestID := 1, UserID := 7, TotalQuestions := 2,
    AnsweredQuestions := 2, CorrectAnswers := 1, TotalMarks := 10, MarksObtained := 5,
    Percentage := 50, Grade := some "C", IsPassed := true, TimeTaken := some 0,
    CompletedAt := 304 }

/-- The store with one session in progress on `exTest`, whose two questions
are worth `2 ^ 62` marks each. -/
def exHugeDB : DB :=
  { exDB [exSession 1 SessionStatus.in_progress] with
    questions := [{ exQuestionChoice with Marks := 2 ^ 62 },
                  { exQuestionShort with Marks := 2 ^ 62 }] }

/-- The store `exHugeDB` after the correct option 1 has been submitted for
question 1 at clock 100 and the correct text `"42"` for question 2 at clock
200. -/
def exHugeAnswered : DB :=
  (TestSessionService.SubmitAnswer asciiLower
    (TestSessionService.SubmitAnswer asciiLower exHugeDB (exClock 100) "tok" 1 none (some 1)).2
    (exClock 200) "tok" 2 (some "42") none).2

/-- The result of the session of `exHugeAnswered`, calculated at clock 5000. -/
def exHugeResult : TestResult :=
  { ID := 1, SessionID := 1, TestID := 1, UserID := 7, TotalQuestions := 2,
    AnsweredQuestions := 2, CorrectAnswers := 2, TotalMarks := 10,
    MarksObtained := -9223372036854775808, Percentage := -92233720368547758080,
    Grade := some "F", IsPassed := false, TimeTaken := none, CompletedAt := 5000 }

/-! ## Remaining time (`models/session.go`) -/

/-- `TestSession.GetRemainingTime`. Clock: place 0 is the reading of
`s.IsExpired`, place 1 the reading of `time.Until`. -/
def TestSession.GetRemainingTime (s : TestSession) (clk : Nat → Time) : Int :=
  if s.IsExpired (clk 0) = true then 0
  else
    match s.TimeRemaining with
    | some timeRemaining => timeRemaining
    | none =>
      let remaining := f64toInt (durationSeconds (timeSub s.ExpiresAt (clk 1)))
      if remaining < 0 then 0 else remaining

/-- The remaining time in the spec's words: `max(0, expires-at − now)` in whole
seconds. -/
def specRemainingTime (expiresAt now : Time) : Int :=
  max 0 ((expiresAt - now) / 1000000000)

/-- A session in progress without a cached time-remaining that expires
16777216.999999999 seconds after instant 0. -/
def exBareSession : TestSession :=
  { exSession 1 SessionStatus.in_progress with
    TimeRemaining := none, ExpiresAt := 16777216999999999 }

/-- A test whose duration, 153722868 minutes, exceeds the range of a
`time.Duration`. -/
def exOverflowTest : Test :=
  { ID := 1, DurationMinutes := 153722868, TotalMarks := 10, PassingMarks := 5,
    IsActive := true, StartTime := none, EndTime := none }

/-- The session that `StartSession` creates at clock 10 for user 7 on
`exOverflowTest` in a store without sessions, from 32 zero bytes. -/
def exOverflowSession : TestSession :=
  { ID := 1, TestID := 1, UserID := 7, SessionToken := String.mk (List.replicate 64 '0'),
    Status := SessionStatus.not_started, StartedAt := none, SubmittedAt := none,
    ExpiresAt := -9223371993709551604, TimeRemaining := some (-9223371993),
    CurrentQuestionIndex := 0, CreatedAt := 13, UpdatedAt := 14 }

/-- The store `exDB []` with `exOverflowTest` as its test. -/
def exOverflowDB : DB :=
  { exDB [] with tests := [exOverflowTest] }

/-! ## Registration of correct answers (`services/question_service.go`) -/

/-- `QuestionService.AddCorrectAnswer`: a text that is blank after trimming is
refused (`ErrInvalidCredentials`, here `none`); otherwise the row inserted
holds the trimmed text. `id` is the id that the insert assigns. -/
def QuestionService.AddCorrectAnswer (id questionID : Int) (answerText : String)
    (isCaseSensitive : Bool) : Option CorrectAnswer :=
  if TrimSpace answerText = "" then none
  else
    some { ID := id, QuestionID := questionID, AnswerText := TrimSpace answerText,
           IsCaseSensitive := isCaseSensitive }

/-- `QuestionService.UpdateCorrectAnswer`, on the stored row with the given
id: a text that is blank after trimming is refused; otherwise
`UPDATE correct_answers SET answer_text, is_case_sensitive WHERE id = ?`
rewrites the row with the trimmed text. -/
def QuestionService.UpdateCorrectAnswer (row : CorrectAnswer) (answerText : String)
    (isCaseSensitive : Bool) : Option CorrectAnswer :=
  if TrimSpace answerText = "" then none
  else some { row with AnswerText := TrimSpace answerText, IsCaseSensitive := isCaseSensitive }

/-- A registered correct answer: a row written by `AddCorrectAnswer` or by
`UpdateCorrectAnswer`. -/
def CorrectAnswer.Registered (a : CorrectAnswer) : Prop :=
  (∃ id questionID answerText isCaseSensitive,
    QuestionService.AddCorrectAnswer id questionID answerText isCaseSensitive = some a) ∨
  (∃ row answerText isCaseSensitive,
    QuestionService.UpdateCorrectAnswer row answerText isCaseSensitive = some a)

/-- The correct answer `"Paris"` of question 2, registered with the given
case-sensitivity. -/
def exParis (isCaseSensitive : Bool) : CorrectAnswer :=
  { ID := 1, QuestionID := 2, AnswerText := "Paris", IsCaseSensitive := isCaseSensitive }

/-! ## Input validation (`internal/utils/validation.go`)

A Go string is taken to be valid UTF-8 and is modelled by the `String` of its
runes; `len(s)` is the number of bytes of its encoding. The regular
expressions of the package (`^[a-zA-Z0-9_]+$`, `<[^>]*>`) and
`html.EscapeString` belong to the Go library; they are modelled by the
functions below, which follow the documented meaning of the expressions
(leftmost match, no overlap) and of the escaping (five characters). -/

/-- The character class `[a-zA-Z0-9_]`. -/
def isUsernameRune (c : Char) : Bool :=
  (97 ≤ c.toNat && c.toNat ≤ 122) || (65 ≤ c.toNat && c.toNat ≤ 90) ||
  (48 ≤ c.toNat && c.toNat ≤ 57) || c.toNat == 95

/-- `regexp.MustCompile("^[a-zA-Z0-9_]+$").MatchString`: the text is not empty
and each of its runes is in the class. -/
def usernameRegexMatch (s : String) : Bool :=
  !s.data.isEmpty && s.data.all isUsernameRune

/-- `ValidateUsername`. -/
def ValidateUsername (username : String) : Bool :=
  if username.utf8ByteSize < 3 ∨ username.utf8ByteSize > 50 then false
  else usernameRegexMatch username

/-- Whether the runes `substr` occur in the runes `s` as a contiguous block. -/
def containsRunes : List Char → List Char → Bool
  | [], substr => substr.isEmpty
  | c :: cs, substr => substr.isPrefixOf (c :: cs) || containsRunes cs substr

/-- `strings.Contains`. -/
def Contains (s substr : String) : Bool :=
  containsRunes s.data substr.data

/-- The list `sqlPatterns` of `ValidateNoSQLInjection`. -/
def sqlPatterns : List String :=
  [String.mk [Char.ofNat 39], String.mk [Char.ofNat 34], ";", String.mk [Char.ofNat 45, Char.ofNat 45],
   "/*", "*/", "xp_", "sp_",
   "union", "select", "insert", "update", "delete",
   "drop", "create", "alter", "exec", "execute",
   "script", "javascript", "vbscript", "onload",
   "onerror", "onclick", "<script", "</script>"]

/-- The `for ... range sqlPatterns` loop of `ValidateNoSQLInjection`. -/
def noPatternIn (lower : String) : List String → Bool
  | [] => true
  | pattern :: rest => if Contains lower pattern then false else noPatternIn lower rest

/-- `ValidateNoSQLInjection`. -/
def ValidateNoSQLInjection (lowerRune : Char → Char) (input : String) : Bool :=
  let lower := ToLower lowerRune input
  noPatternIn lower sqlPatterns

/-- `htmlTagRegex.ReplaceAllString(input, "")` for the expression `<[^>]*>`,
as a scan of the runes. Outside a tag (`none`) a `<` opens a candidate tag;
inside (`some buf`, the runes read since the `<`, last first) a `>` closes the
tag, which is dropped; a candidate tag that is still open at the end of the
input is no match and is kept as it was read. -/
def stripTags : Option (List Char) → List Char → List Char
  | none, [] => []
  | some buf, [] => buf.reverse
  | none, c :: cs => if c = '<' then stripTags (some [c]) cs else c :: stripTags none cs
  | some buf, c :: cs => if c = '>' then stripTags none cs else stripTags (some (c :: buf)) cs

/-- The replacement that `html.EscapeString` makes for one rune. -/
def escapeRune (c : Char) : List Char :=
  if c = '&' then "&amp;".data
  else if c = Char.ofNat 39 then "&#39;".data
  else if c = '<' then "&lt;".data
  else if c = '>' then "&gt;".data
  else if c = Char.ofNat 34 then "&#34;".data
  else [c]

/-- `html.EscapeString`. -/
def EscapeString (s : String) : String :=
  String.mk (s.data.flatMap escapeRune)

/-- `SanitizeHTML`. -/
def SanitizeHTML (input : String) : String :=
  let cleaned := String.mk (stripTags none input.data)
  EscapeString cleaned

/-- The characters that the spec allows in a user name: ASCII letters, ASCII
digits and the underscore. -/
def specUsernameChar (c : Char) : Prop :=
  ('a' ≤ c ∧ c ≤ 'z') ∨ ('A' ≤ c ∧ c ≤ 'Z') ∨ ('0' ≤ c ∧ c ≤ '9') ∨ c = '_'

/-! # Theorems -/

/-! ## Scoring engine: theorems -/

theorem scoreMultipleChoiceLoop_true (marks selected : Int) (options : List QuestionOption)
    (h : ∃ o ∈ options, o.ID = selected ∧ o.IsCorrect = true) :
    scoreMultipleChoiceLoop marks selected options = (true, marks) := by
  induction options with
  | nil => simp at h
  | cons a rest ih =>
    unfold scoreMultipleChoiceLoop
    by_cases ha : a.ID = selected ∧ a.IsCorrect = true
    · simp [ha]
    · rw [if_neg ha]
      apply ih
      obtain ⟨o, ho, h1, h2⟩ := h
      rcases List.mem_cons.mp ho with rfl | hmem
      · exact absurd ⟨h1, h2⟩ ha
      · exact ⟨o, hmem, h1, h2⟩

theorem scoreMultipleChoiceLoop_false (marks selected : Int) (options : List QuestionOption)
    (h : ¬ ∃ o ∈ options, o.ID = selected ∧ o.IsCorrect = true) :
    scoreMultipleChoiceLoop marks selected options = (false, 0) := by
  induction options with
  | nil => rfl
  | cons a rest ih =>
    unfold scoreMultipleChoiceLoop
    by_cases ha : a.ID = selected ∧ a.IsCorrect = true
    · exact absurd ⟨a, List.mem_cons_self _ _, ha⟩ h
    · rw [if_neg ha]
      apply ih
      rintro ⟨o, ho, h12⟩
      exact h ⟨o, List.mem_cons_of_mem _ ho, h12⟩

theorem scoreMultipleChoiceAnswer_of_correct (questionRepo : QuestionLookups)
    (question : Question) (selectedOptionID : Option Int)
    (h : specChoiceCorrect questionRepo question selectedOptionID) :
    scoreMultipleChoiceAnswer questionRepo question selectedOptionID =
      (true, question.Marks) := by
  obtain ⟨id, options, rfl, hfetch, hex⟩ := h
  simp only [scoreMultipleChoiceAnswer, hfetch]
  exact scoreMultipleChoiceLoop_true _ _ _ hex

theorem scoreMultipleChoiceAnswer_of_not_correct (questionRepo : QuestionLookups)
    (question : Question) (selectedOptionID : Option Int)
    (h : ¬ specChoiceCorrect questionRepo question selectedOptionID) :
    scoreMultipleChoiceAnswer questionRepo question selectedOptionID = (false, 0) := by
  unfold scoreMultipleChoiceAnswer
  cases selectedOptionID with
  | none => rfl
  | some id =>
    cases hfetch : questionRepo.GetOptionsByQuestionID question.ID with
    | error e => rfl
    | ok options =>
      apply scoreMultipleChoiceLoop_false
      intro hex
      exact h ⟨id, options, rfl, hfetch, hex⟩

/-- C1, evaluated on the code: with the registered correct answers `"x"`
(case-insensitive) followed by `"Paris"` (case-sensitive), the submitted text
`"Paris"` satisfies the specification's condition for a correct short answer,
yet `scoreShortAnswer` returns `(false, 0)`; and with `"x"` followed by the
case-sensitive `"paris"`, the text `"PARIS"` does not satisfy the condition,
yet `scoreShortAnswer` returns `(true, 5)`. The lower-cased user answer of the
first iteration is carried into the case-sensitive comparison of the second. -/
theorem scoreShortAnswer_carries_lowercased_answer :
    (specShortAnswerCorrect asciiLower [exAnswerLoose, exAnswerParis] (some "Paris") ∧
      scoreShortAnswer asciiLower (exLookups [exAnswerLoose, exAnswerParis])
        exQuestionShort (some "Paris") = (false, 0)) ∧
    (¬ specShortAnswerCorrect asciiLower [exAnswerLoose, exAnswerParisLower] (some "PARIS") ∧
      scoreShortAnswer asciiLower (exLookups [exAnswerLoose, exAnswerParisLower])
        exQuestionShort (some "PARIS") = (true, 5)) := by
  refine ⟨⟨⟨"Paris", rfl, by decide, exAnswerParis, by simp, fun _ => by decide,
    fun h => absurd h (by decide)⟩, by decide⟩, ⟨?_, by decide⟩⟩
  rintro ⟨text, htext, -, c, hc, hsens, hloose⟩
  obtain rfl : text = "PARIS" := (Option.some.inj htext).symm
  simp only [List.mem_cons, List.mem_singleton, List.not_mem_nil, or_false] at hc
  rcases hc with rfl | rfl
  · exact absurd (hloose rfl) (by decide)
  · exact absurd (hsens rfl) (by decide)

/-- C2, evaluated on the code: the correct-answer lists `["Paris", "x"]` and
`["x", "Paris"]` (the first case-sensitive, the second not) are permutations
of each other, and for the submitted text `"Paris"` `scoreShortAnswer` returns
`(true, 5)` on the first and `(false, 0)` on the second. -/
theorem scoreShortAnswer_depends_on_order :
    List.Perm [exAnswerParis, exAnswerLoose] [exAnswerLoose, exAnswerParis] ∧
    scoreShortAnswer asciiLower (exLookups [exAnswerParis, exAnswerLoose])
      exQuestionShort (some "Paris") = (true, 5) ∧
    scoreShortAnswer asciiLower (exLookups [exAnswerLoose, exAnswerParis])
      exQuestionShort (some "Paris") = (false, 0) := by
  refine ⟨List.Perm.swap _ _ _, by decide, by decide⟩

/-- C3: `scoreMultipleChoiceAnswer` returns `(true, question.Marks)` exactly
when an option id is supplied and the options fetched for the question contain
an option with that id flagged correct, and returns `(false, 0)` exactly in
every other case (no selection, failed fetch, unknown id, option not flagged
correct): marks are all or nothing. -/
theorem scoreMultipleChoiceAnswer_all_or_nothing (questionRepo : QuestionLookups)
    (question : Question) (selectedOptionID : Option Int) :
    (scoreMultipleChoiceAnswer questionRepo question selectedOptionID =
        (true, question.Marks) ↔
      specChoiceCorrect questionRepo question selectedOptionID) ∧
    (scoreMultipleChoiceAnswer questionRepo question selectedOptionID = (false, 0) ↔
      ¬ specChoiceCorrect questionRepo question selectedOptionID) := by
  by_cases h : specChoiceCorrect questionRepo question selectedOptionID
  · have e := scoreMultipleChoiceAnswer_of_correct questionRepo question selectedOptionID h
    rw [e]
    simp [h]
  · have e := scoreMultipleChoiceAnswer_of_not_correct questionRepo question selectedOptionID h
    rw [e]
    simp [h]

/-! ## Store: lemmas -/

/-- The struct that `TestSessionRepository.Create` hands back: the session
with the new id and the timestamps of the row on the driver `postgres`, the
later readings of the clock on another driver. -/
theorem SessionCreate_fst (db : DB) (c u c1 u1 : Time) (x : TestSession) :
    (TestSessionRepository.Create db c u c1 u1 x).1 =
      { x with ID := db.test_sessions_seq + 1,
               CreatedAt := if db.Driver = "postgres" then c else c1,
               UpdatedAt := if db.Driver = "postgres" then u else u1 } := by
  unfold TestSessionRepository.Create
  dsimp only
  split <;> rfl

/-- The row that `TestSessionRepository.Create` appends. -/
theorem SessionCreate_snd (db : DB) (c u c1 u1 : Time) (x : TestSession) :
    (TestSessionRepository.Create db c u c1 u1 x).2 =
      { db with
        test_sessions := db.test_sessions ++
          [{ x with ID := db.test_sessions_seq + 1, StartedAt := none, SubmittedAt := none,
                    CreatedAt := c, UpdatedAt := u }],
        test_sessions_seq := db.test_sessions_seq + 1 } := rfl

/-- The struct that `UserAnswerRepository.Create` hands back. -/
theorem AnswerCreate_fst (db : DB) (t t1 : Time) (x : UserAnswer) :
    (UserAnswerRepository.Create db t t1 x).1 =
      { x with ID := db.user_answers_seq + 1,
               AnsweredAt := if db.Driver = "postgres" then t else t1 } := by
  unfold UserAnswerRepository.Create
  dsimp only
  split <;> rfl

/-- The row that `UserAnswerRepository.Create` appends. -/
theorem AnswerCreate_snd (db : DB) (t t1 : Time) (x : UserAnswer) :
    (UserAnswerRepository.Create db t t1 x).2 =
      { db with
        user_answers := db.user_answers ++ [{ x with ID := db.user_answers_seq + 1,
                                                     AnsweredAt := t }],
        user_answers_seq := db.user_answers_seq + 1 } := rfl

/-- The struct that `TestResultRepository.Create` hands back. -/
theorem ResultCreate_fst (db : DB) (t t1 : Time) (x : TestResult) :
    (TestResultRepository.Create db t t1 x).1 =
      { x with ID := db.test_results_seq + 1,
               CompletedAt := if db.Driver = "postgres" then t else t1 } := by
  unfold TestResultRepository.Create
  dsimp only
  split <;> rfl

/-- The row that `TestResultRepository.Create` appends. -/
theorem ResultCreate_snd (db : DB) (t t1 : Time) (x : TestResult) :
    (TestResultRepository.Create db t t1 x).2 =
      { db with
        test_results := db.test_results ++ [{ x with ID := db.test_results_seq + 1,
                                                     CompletedAt := t }],
        test_results_seq := db.test_results_seq + 1 } := rfl

theorem sameFixed_refl (s : TestSession) : SameFixed s s :=
  ⟨rfl, rfl, rfl, rfl, rfl, rfl⟩

theorem updateRow_of_sameFixed (s r : TestSession) (h : SameFixed s r) :
    TestSessionRepository.updateRow s r = s := by
  obtain ⟨h1, h2, h3, h4, h5, h6⟩ := h
  cases s
  cases r
  simp only [TestSessionRepository.updateRow] at *
  simp [h1, h2, h3, h4, h5, h6]

theorem Update_fst (db : DB) (t : Time) (x : TestSession) :
    (TestSessionRepository.Update db t x).1 = { x with UpdatedAt := t } := rfl

theorem Update_sessions (db : DB) (t : Time) (x : TestSession) :
    (TestSessionRepository.Update db t x).2.test_sessions =
      db.test_sessions.map (fun r =>
        if r.ID = x.ID then TestSessionRepository.updateRow { x with UpdatedAt := t } r
        else r) := rfl

theorem GetByToken_Update (db : DB) (t : Time) (x : TestSession) (tok : String) :
    TestSessionRepository.GetByToken (TestSessionRepository.Update db t x).2 tok =
      (TestSessionRepository.GetByToken db tok).map (fun r =>
        if r.ID = x.ID then TestSessionRepository.updateRow { x with UpdatedAt := t } r
        else r) := by
  unfold TestSessionRepository.GetByToken
  rw [Update_sessions, List.find?_map]
  congr 1
  apply congrArg (fun p => List.find? p db.test_sessions)
  funext r
  simp only [Function.comp]
  split <;> rfl

theorem GetByToken_Update_self (db : DB) (t : Time) (x r : TestSession) (tok : String)
    (h : TestSessionRepository.GetByToken db tok = some r) (hx : SameFixed x r) :
    TestSessionRepository.GetByToken (TestSessionRepository.Update db t x).2 tok =
      some (TestSessionRepository.Update db t x).1 := by
  rw [GetByToken_Update, h, Update_fst]
  have hid : r.ID = x.ID := hx.1.symm
  simp only [Option.map_some', hid, if_true]
  congr 1
  apply updateRow_of_sameFixed
  exact hx

/-! ## Session lifecycle: lemmas -/

theorem GetSession_of_none (db : DB) (clk : Nat → Time) (tok : String)
    (h : TestSessionRepository.GetByToken db tok = none) :
    TestSessionService.GetSession db clk tok = (.error Err.ErrUserNotFound, db) := by
  simp [TestSessionService.GetSession, h]

theorem GetSession_of_kept (db : DB) (clk : Nat → Time) (tok : String) (s : TestSession)
    (h : TestSessionRepository.GetByToken db tok = some s)
    (hn : ¬ (s.IsExpired (clk 0) = true ∧ s.Status = SessionStatus.in_progress)) :
    TestSessionService.GetSession db clk tok = (.ok s, db) := by
  simp only [TestSessionService.GetSession, h, if_neg hn]

theorem GetSession_of_expiry (db : DB) (clk : Nat → Time) (tok : String) (s : TestSession)
    (h : TestSessionRepository.GetByToken db tok = some s)
    (he : s.IsExpired (clk 0) = true ∧ s.Status = SessionStatus.in_progress) :
    TestSessionService.GetSession db clk tok =
      (.ok (TestSessionRepository.Update db (clk 1)
              { s with Status := SessionStatus.expired }).1,
       (TestSessionRepository.Update db (clk 1)
              { s with Status := SessionStatus.expired }).2) := by
  simp only [TestSessionService.GetSession, h, if_pos he]

/-- Whatever `GetSession` returns is the row stored under the token afterwards. -/
theorem GetSession_stored (db : DB) (clk : Nat → Time) (tok : String) (s : TestSession)
    (db1 : DB) (h : TestSessionService.GetSession db clk tok = (.ok s, db1)) :
    TestSessionRepository.GetByToken db1 tok = some s := by
  cases hg : TestSessionRepository.GetByToken db tok with
  | none =>
    rw [GetSession_of_none db clk tok hg] at h
    simp at h
  | some r =>
    by_cases he : r.IsExpired (clk 0) = true ∧ r.Status = SessionStatus.in_progress
    · rw [GetSession_of_expiry db clk tok r hg he] at h
      simp only [Prod.mk.injEq, Except.ok.injEq] at h
      obtain ⟨h1, h2⟩ := h
      rw [← h1, ← h2]
      exact GetByToken_Update_self db (clk 1) _ r tok hg ⟨rfl, rfl, rfl, rfl, rfl, rfl⟩
    · rw [GetSession_of_kept db clk tok r hg he] at h
      simp only [Prod.mk.injEq, Except.ok.injEq] at h
      obtain ⟨h1, h2⟩ := h
      rw [← h1, ← h2]
      exact hg

/-! ## Result aggregation: lemmas -/

theorem CalculateResult_of_existing (db : DB) (clk : Nat → Time) (sessionID : Int)
    (r : TestResult) (h : TestResultRepository.GetBySessionID db sessionID = some r) :
    TestResultService.CalculateResult db clk sessionID = (.ok r, db) := by
  simp only [TestResultService.CalculateResult, h]

/-- `CalculateResult` leaves every table but `test_results` as it was. -/
theorem CalculateResult_frame (db : DB) (clk : Nat → Time) (sessionID : Int) :
    (TestResultService.CalculateResult db clk sessionID).2.test_sessions = db.test_sessions ∧
    (TestResultService.CalculateResult db clk sessionID).2.user_answers = db.user_answers ∧
    (TestResultService.CalculateResult db clk sessionID).2.tests = db.tests ∧
    (TestResultService.CalculateResult db clk sessionID).2.questions = db.questions := by
  unfold TestResultService.CalculateResult
  split
  · exact ⟨rfl, rfl, rfl, rfl⟩
  · split
    · exact ⟨rfl, rfl, rfl, rfl⟩
    · split
      · exact ⟨rfl, rfl, rfl, rfl⟩
      · exact ⟨rfl, rfl, rfl, rfl⟩

/-- A successful `CalculateResult` either returns the stored result and writes
nothing, or finds no result and appends a row: the returned result with the
completion time of the database, which the returned result carries on the
driver `postgres` only. -/
theorem CalculateResult_ok (db : DB) (clk : Nat → Time) (sessionID : Int) (r : TestResult)
    (db1 : DB) (h : TestResultService.CalculateResult db clk sessionID = (.ok r, db1)) :
    (TestResultRepository.GetBySessionID db sessionID = some r ∧ db1 = db) ∨
    (TestResultRepository.GetBySessionID db sessionID = none ∧ r.SessionID = sessionID ∧
      db1.test_results = db.test_results ++ [{ r with CompletedAt := clk 0 }] ∧
      r.CompletedAt = (if db.Driver = "postgres" then clk 0 else clk 1)) := by
  unfold TestResultService.CalculateResult at h
  split at h
  · rename_i existing hex
    simp only [Prod.mk.injEq, Except.ok.injEq] at h
    left
    rw [← h.1, ← h.2]
    exact ⟨hex, rfl⟩
  · rename_i hnone
    right
    split at h
    · simp at h
    · split at h
      · simp at h
      · simp only [Prod.mk.injEq, Except.ok.injEq] at h
        obtain ⟨h1, h2⟩ := h
        rw [ResultCreate_fst] at h1
        rw [ResultCreate_snd] at h2
        refine ⟨hnone, ?_, ?_, ?_⟩
        · rw [← h1]
        · rw [← h1, ← h2]
        · rw [← h1]

theorem find?_append_singleton_of_none {α : Type} (p : α → Bool) (l : List α) (a : α)
    (h : l.find? p = none) (ha : p a = true) : (l ++ [a]).find? p = some a := by
  rw [List.find?_append, h]
  simp [List.find?, ha]

theorem countP_pos_of_find? {α : Type} (p : α → Bool) (l : List α) (a : α)
    (h : l.find? p = some a) : 0 < l.countP p := by
  rw [List.countP_pos_iff]
  exact ⟨a, List.mem_of_find?_eq_some h, List.find?_some h⟩

theorem countP_zero_of_find? {α : Type} (p : α → Bool) (l : List α)
    (h : l.find? p = none) : l.countP p = 0 := by
  rw [List.countP_eq_zero]
  intro a ha
  have := List.find?_eq_none.mp h a ha
  simpa using this

/-! ## Lazy expiry, idempotent submit, idempotent result calculation -/

/-- C5, evaluated on the code: the stored session has status `not_started`
and its expiry time 1000 is earlier than every clock reading of the call
(2000 and later); `GetSession` returns it with status `not_started` and writes
nothing, whereas the sweep `ExpireOldSessions` at the same time marks the same
row `expired`. -/
theorem GetSession_keeps_expired_not_started :
    (exSession 1 SessionStatus.not_started).ExpiresAt < exClock 2000 0 ∧
    TestSessionService.GetSession (exDB [exSession 1 SessionStatus.not_started])
        (exClock 2000) "tok" =
      (.ok (exSession 1 SessionStatus.not_started),
       exDB [exSession 1 SessionStatus.not_started]) ∧
    statusOf (TestSessionRepository.ExpireOldSessions
        (exDB [exSession 1 SessionStatus.not_started]) 2000) 1 =
      some SessionStatus.expired := by
  refine ⟨by decide, by rfl, by decide⟩

theorem SubmitSession_of_submitted (db : DB) (clk : Nat → Time) (tok : String)
    (s : TestSession) (h : TestSessionRepository.GetByToken db tok = some s)
    (hs : s.Status = SessionStatus.submitted) :
    TestSessionService.SubmitSession db clk tok = (.ok s, db) := by
  have hn : ¬ (s.IsExpired (clk 0) = true ∧ s.Status = SessionStatus.in_progress) := by
    rw [hs]
    simp
  simp only [TestSessionService.SubmitSession, GetSession_of_kept db clk tok s h hn, hs,
    if_true]

/-- A successful `SubmitSession` returns a submitted session, which is the row
stored under the token afterwards. -/
theorem SubmitSession_ok (db : DB) (clk : Nat → Time) (tok : String) (s1 : TestSession)
    (db1 : DB) (h : TestSessionService.SubmitSession db clk tok = (.ok s1, db1)) :
    s1.Status = SessionStatus.submitted ∧
    TestSessionRepository.GetByToken db1 tok = some s1 := by
  unfold TestSessionService.SubmitSession at h
  split at h
  · simp at h
  · rename_i session dbg hg
    have hst := GetSession_stored db clk tok session dbg hg
    split at h
    · rename_i hsub
      simp only [Prod.mk.injEq, Except.ok.injEq] at h
      rw [← h.1, ← h.2]
      exact ⟨hsub, hst⟩
    · simp only [Prod.mk.injEq, Except.ok.injEq] at h
      obtain ⟨h1, h2⟩ := h
      refine ⟨by rw [← h1]; rfl, ?_⟩
      have hframe := (CalculateResult_frame
        (TestSessionRepository.Update dbg (clk 3)
          { session with Status := SessionStatus.submitted, SubmittedAt := some (clk 2) }).2
        (fun i => clk (i + 4))
        (TestSessionRepository.Update dbg (clk 3)
          { session with Status := SessionStatus.submitted,
                         SubmittedAt := some (clk 2) }).1.ID).1
      rw [← h1, ← h2]
      unfold TestSessionRepository.GetByToken
      rw [hframe]
      exact GetByToken_Update_self dbg (clk 3) _ session tok hst ⟨rfl, rfl, rfl, rfl, rfl, rfl⟩

/-- C9: `SubmitSession` on a session whose stored status is already
`submitted` returns that stored session and leaves the whole store as it was
(no write, no new `SubmittedAt`, no result calculated); and after any
successful `SubmitSession`, a second `SubmitSession` on the same token, at
any later clock, returns the same submitted session, with the `SubmittedAt`
of the first call, and the same store. -/
theorem SubmitSession_idempotent (db : DB) (clk clk2 : Nat → Time) (tok : String) :
    (∀ s, TestSessionRepository.GetByToken db tok = some s →
      s.Status = SessionStatus.submitted →
      TestSessionService.SubmitSession db clk tok = (.ok s, db)) ∧
    (∀ s1 db1, TestSessionService.SubmitSession db clk tok = (.ok s1, db1) →
      s1.Status = SessionStatus.submitted ∧
      TestSessionService.SubmitSession db1 clk2 tok = (.ok s1, db1)) := by
  refine ⟨fun s h hs => SubmitSession_of_submitted db clk tok s h hs, ?_⟩
  intro s1 db1 h
  obtain ⟨hs, hst⟩ := SubmitSession_ok db clk tok s1 db1 h
  exact ⟨hs, SubmitSession_of_submitted db1 clk2 tok s1 hst hs⟩

/-- C9, at a concrete input: a session in progress is submitted at clock
500 and submitted again at clock 900; the second call returns the session of
the first call, with `SubmittedAt = 502`, and the store of the first call. -/
theorem SubmitSession_idempotent_witness :
    TestSessionService.SubmitSession
        (TestSessionService.SubmitSession (exDB [exSession 1 SessionStatus.in_progress])
          (exClock 500) "tok").2 (exClock 900) "tok" =
      (.ok { exSession 1 SessionStatus.in_progress with
              Status := SessionStatus.submitted, SubmittedAt := some 502, UpdatedAt := 503 },
       (TestSessionService.SubmitSession (exDB [exSession 1 SessionStatus.in_progress])
          (exClock 500) "tok").2) :=
  ((SubmitSession_idempotent (exDB [exSession 1 SessionStatus.in_progress])
      (exClock 500) (exClock 900) "tok").2 _ _ (Prod.ext (by rfl) rfl)).2

set_option maxRecDepth 100000 in
/-- C10 as stated fails on a driver other than `postgres`: on the driver
`sqlite` the result of a submitted session without answers is calculated at
clock 5000 and again at clock 9000. The row is stored with the completion
time 5000 of the database, the first call returns the result with the later
reading 5001 of `time.Now()`, and the second call returns the stored row: the
two calls do not return identical results. -/
theorem CalculateResult_twice_differs :
    ∃ r1 db1 r2,
      TestResultService.CalculateResult { exSubmittedDB with Driver := "sqlite" }
        (exClock 5000) 1 = (.ok r1, db1) ∧
      TestResultService.CalculateResult db1 (exClock 9000) 1 = (.ok r2, db1) ∧
      db1.test_results = [r2] ∧
      r1.CompletedAt = 5001 ∧ r2.CompletedAt = 5000 ∧ r1 ≠ r2 := by
  refine ⟨{ exResult with CompletedAt := 5001 },
    (TestResultService.CalculateResult { exSubmittedDB with Driver := "sqlite" }
      (exClock 5000) 1).2, exResult, Prod.ext (by with_unfolding_all rfl) rfl, ?_, ?_, rfl, rfl,
    fun h => absurd (congrArg TestResult.CompletedAt h) (by decide)⟩
  · exact CalculateResult_of_existing _ _ _ _ (by with_unfolding_all rfl)
  · with_unfolding_all rfl

/-- C10: when a result is already stored for the session, `CalculateResult`
returns that stored result and leaves the whole store as it was; and after
any successful `CalculateResult`, a second call for the same session returns
the result stored for the session and the same store, which holds exactly one
result for the session whenever the store held at most one before the first
call. The result of the second call is the result of the first up to the
completion time, and is identical to it on the driver `postgres`. -/
theorem CalculateResult_idempotent (db : DB) (clk clk2 : Nat → Time) (sessionID : Int) :
    (∀ r, TestResultRepository.GetBySessionID db sessionID = some r →
      TestResultService.CalculateResult db clk sessionID = (.ok r, db)) ∧
    (∀ r1 db1, TestResultService.CalculateResult db clk sessionID = (.ok r1, db1) →
      ∃ r2, TestResultService.CalculateResult db1 clk2 sessionID = (.ok r2, db1) ∧
        TestResultRepository.GetBySessionID db1 sessionID = some r2 ∧
        { r1 with CompletedAt := r2.CompletedAt } = r2 ∧
        (db.Driver = "postgres" → r2 = r1) ∧
        (resultCount db sessionID ≤ 1 → resultCount db1 sessionID = 1)) := by
  refine ⟨fun r h => CalculateResult_of_existing db clk sessionID r h, ?_⟩
  intro r1 db1 h
  rcases CalculateResult_ok db clk sessionID r1 db1 h with
    ⟨hex, hdb⟩ | ⟨hnone, hsid, hres, hcomp⟩
  · subst hdb
    refine ⟨r1, CalculateResult_of_existing db1 clk2 sessionID r1 hex, hex, rfl,
      fun _ => rfl, fun hle => ?_⟩
    have hpos := countP_pos_of_find? _ _ _ hex
    unfold resultCount at *
    omega
  · have hfind : TestResultRepository.GetBySessionID db1 sessionID =
        some { r1 with CompletedAt := clk 0 } := by
      unfold TestResultRepository.GetBySessionID
      rw [hres]
      exact find?_append_singleton_of_none _ _ _ hnone (by simp [hsid])
    refine ⟨_, CalculateResult_of_existing db1 clk2 sessionID _ hfind, hfind, rfl,
      fun hp => ?_, fun _ => ?_⟩
    · rw [if_pos hp] at hcomp
      rw [← hcomp]
    · have hzero := countP_zero_of_find? _ _ hnone
      unfold resultCount
      rw [hres, List.countP_append, hzero]
      simp [List.countP_cons, hsid]

set_option maxRecDepth 100000 in
/-- C10, at a concrete input on the driver `postgres`: the result of a
submitted session without answers is calculated at clock 5000 and again at
clock 9000; the second call returns the result of the first (completed at
5000) and the store of the first call, which holds exactly one result for the
session. -/
theorem CalculateResult_idempotent_witness :
    TestResultService.CalculateResult exSubmittedDB (exClock 5000) 1 =
      (.ok exResult, (TestResultService.CalculateResult exSubmittedDB (exClock 5000) 1).2) ∧
    resultCount exSubmittedDB 1 ≤ 1 ∧
    ∃ r2, TestResultService.CalculateResult
          (TestResultService.CalculateResult exSubmittedDB (exClock 5000) 1).2
          (exClock 9000) 1 =
        (.ok r2, (TestResultService.CalculateResult exSubmittedDB (exClock 5000) 1).2) ∧
      TestResultRepository.GetBySessionID
        (TestResultService.CalculateResult exSubmittedDB (exClock 5000) 1).2 1 = some r2 ∧
      { exResult with CompletedAt := r2.CompletedAt } = r2 ∧
      r2 = exResult ∧
      resultCount (TestResultService.CalculateResult exSubmittedDB (exClock 5000) 1).2 1 = 1 :=
  have h0 : TestResultService.CalculateResult exSubmittedDB (exClock 5000) 1 =
      (.ok exResult, (TestResultService.CalculateResult exSubmittedDB (exClock 5000) 1).2) :=
    Prod.ext (by with_unfolding_all rfl) rfl
  have h := (CalculateResult_idempotent exSubmittedDB (exClock 5000) (exClock 9000) 1).2
    exResult _ h0
  ⟨h0, by decide, h.elim fun r2 hr => ⟨r2, hr.1, hr.2.1, hr.2.2.1, hr.2.2.2.1 rfl,
    hr.2.2.2.2 (by decide)⟩⟩

/-! ## Idempotent start -/

/-- When the test is available and the look-up by user and test yields a
session that is not expired and not submitted, `StartSession` returns that
session and leaves the store as it was. -/
theorem StartSession_returns_existing (db : DB) (clk : Nat → Time)
    (entropy : Except Err (Fin 32 → Fin 256)) (userID testID : Int) (test : Test)
    (existing : TestSession) (ht : TestRepository.GetByID db testID = some test)
    (hav : test.IsAvailable (clk 0) = true)
    (he : TestSessionRepository.GetByUserAndTest db userID testID = some existing)
    (hne : existing.IsExpired (clk 1) = false)
    (hns : existing.Status ≠ SessionStatus.submitted) :
    TestSessionService.StartSession db clk entropy userID testID = (.ok existing, db) := by
  simp [TestSessionService.StartSession, ht, hav, he, hne, hns]

/-- C8, evaluated on the code: user 7 has one earlier, submitted session on
the always available test 1. `StartSession` at clock 2000 creates session 2
(token of 64 zeros, status `not_started`, not expired at clock 3001); the
look-up by user and test on the resulting store still yields the submitted
session 1, so `StartSession` at clock 3000, with no submit and no expiry in
between, creates session 3 with another token. -/
theorem StartSession_twice_after_submitted_attempt :
    ∃ s1 db1 s2 db2,
      TestSessionService.StartSession (exDB [exSession 1 SessionStatus.submitted])
        (exClock 2000) (.ok (fun _ => 0)) 7 1 = (.ok s1, db1) ∧
      TestSessionService.StartSession db1 (exClock 3000) (.ok (fun _ => 255)) 7 1 =
        (.ok s2, db2) ∧
      s1.ID = 2 ∧ s1.SessionToken = String.mk (List.replicate 64 '0') ∧
      s1.Status = SessionStatus.not_started ∧ s1.IsExpired (exClock 3000 1) = false ∧
      TestSessionRepository.GetByUserAndTest db1 7 1 =
        some (exSession 1 SessionStatus.submitted) ∧
      s2.ID = 3 ∧ s2.SessionToken = String.mk (List.replicate 64 'f') ∧
      s1.SessionToken ≠ s2.SessionToken ∧
      db2.test_sessions.map (fun s => s.ID) = [1, 2, 3] := by
  refine ⟨_, _, _, _, rfl, rfl, ?_, ?_, ?_, ?_, ?_, ?_, ?_, ?_, ?_⟩
  · rfl
  · decide
  · rfl
  · decide
  · rfl
  · rfl
  · decide
  · decide
  · rfl

/-! ## Status of a stored session across the operations -/

theorem statusOf_congr (db db1 : DB) (i : Int) (h : db1.test_sessions = db.test_sessions) :
    statusOf db1 i = statusOf db i := by
  unfold statusOf TestSessionRepository.GetByID
  rw [h]

theorem GetByID_Update (db : DB) (t : Time) (x : TestSession) (i : Int) :
    TestSessionRepository.GetByID (TestSessionRepository.Update db t x).2 i =
      (TestSessionRepository.GetByID db i).map (fun r =>
        if r.ID = x.ID then TestSessionRepository.updateRow { x with UpdatedAt := t } r
        else r) := by
  unfold TestSessionRepository.GetByID
  rw [Update_sessions, List.find?_map]
  congr 1
  apply congrArg (fun p => List.find? p db.test_sessions)
  funext r
  simp only [Function.comp]
  split <;> rfl

theorem statusOf_Update (db : DB) (t : Time) (x : TestSession) (i : Int) :
    statusOf (TestSessionRepository.Update db t x).2 i =
      if i = x.ID then (statusOf db i).map (fun _ => x.Status) else statusOf db i := by
  unfold statusOf
  rw [GetByID_Update]
  cases hg : TestSessionRepository.GetByID db i with
  | none => simp
  | some r =>
    have hr : r.ID = i := by
      have := List.find?_some hg
      simpa using this
    by_cases hi : i = x.ID
    · have hrx : r.ID = x.ID := by rw [hr, hi]
      simp [hi, hrx, TestSessionRepository.updateRow]
    · have hrx : ¬ r.ID = x.ID := by rw [hr]; exact hi
      simp [hi, hrx]

theorem SessionIDsUnique_Update (db : DB) (t : Time) (x : TestSession)
    (h : SessionIDsUnique db) : SessionIDsUnique (TestSessionRepository.Update db t x).2 := by
  unfold SessionIDsUnique at *
  rw [Update_sessions, List.map_map]
  have : ((fun s : TestSession => s.ID) ∘ fun r =>
      if r.ID = x.ID then TestSessionRepository.updateRow { x with UpdatedAt := t } r
      else r) = fun s => s.ID := by
    funext r
    simp only [Function.comp]
    split <;> rfl
  rw [this]
  exact h

theorem GetByID_of_mem (db : DB) (x : TestSession) (h : SessionIDsUnique db)
    (hx : x ∈ db.test_sessions) : TestSessionRepository.GetByID db x.ID = some x := by
  unfold TestSessionRepository.GetByID
  cases hf : db.test_sessions.find? (fun s => decide (s.ID = x.ID)) with
  | none =>
    have := List.find?_eq_none.mp hf x hx
    simp at this
  | some r =>
    have hr : r.ID = x.ID := by
      have := List.find?_some hf
      simpa using this
    have hmem := List.mem_of_find?_eq_some hf
    rw [List.inj_on_of_nodup_map h hmem hx hr]

theorem statusOf_of_stored (db : DB) (tok : String) (x : TestSession)
    (h : SessionIDsUnique db) (hg : TestSessionRepository.GetByToken db tok = some x) :
    statusOf db x.ID = some x.Status := by
  unfold statusOf
  rw [GetByID_of_mem db x h (List.mem_of_find?_eq_some hg)]
  rfl

/-- What a successful `GetSession` returns, against the row stored under the
token before the call. -/
theorem GetSession_ok (db : DB) (clk : Nat → Time) (tok : String) (s : TestSession)
    (db1 : DB) (h : TestSessionService.GetSession db clk tok = (.ok s, db1)) :
    ∃ x, TestSessionRepository.GetByToken db tok = some x ∧ s.ID = x.ID ∧
      s.ExpiresAt = x.ExpiresAt ∧ s.TestID = x.TestID ∧
      ((s = x ∧ db1 = db ∧
          ¬ (x.IsExpired (clk 0) = true ∧ x.Status = SessionStatus.in_progress)) ∨
       (x.IsExpired (clk 0) = true ∧ x.Status = SessionStatus.in_progress ∧
          s.Status = SessionStatus.expired ∧
          db1 = (TestSessionRepository.Update db (clk 1)
            { x with Status := SessionStatus.expired }).2)) := by
  cases hg : TestSessionRepository.GetByToken db tok with
  | none =>
    rw [GetSession_of_none db clk tok hg] at h
    simp at h
  | some r =>
    refine ⟨r, rfl, ?_⟩
    by_cases he : r.IsExpired (clk 0) = true ∧ r.Status = SessionStatus.in_progress
    · rw [GetSession_of_expiry db clk tok r hg he] at h
      simp only [Prod.mk.injEq, Except.ok.injEq] at h
      obtain ⟨h1, h2⟩ := h
      subst h1
      exact ⟨rfl, rfl, rfl, Or.inr ⟨he.1, he.2, rfl, h2.symm⟩⟩
    · rw [GetSession_of_kept db clk tok r hg he] at h
      simp only [Prod.mk.injEq, Except.ok.injEq] at h
      obtain ⟨h1, h2⟩ := h
      subst h1
      exact ⟨rfl, rfl, rfl, Or.inl ⟨rfl, h2.symm, he⟩⟩

theorem GetSession_error (db : DB) (clk : Nat → Time) (tok : String) (e : Err)
    (db1 : DB) (h : TestSessionService.GetSession db clk tok = (.error e, db1)) :
    TestSessionRepository.GetByToken db tok = none ∧ db1 = db := by
  cases hg : TestSessionRepository.GetByToken db tok with
  | none =>
    rw [GetSession_of_none db clk tok hg] at h
    simp only [Prod.mk.injEq] at h
    exact ⟨rfl, h.2.symm⟩
  | some r =>
    by_cases he : r.IsExpired (clk 0) = true ∧ r.Status = SessionStatus.in_progress
    · rw [GetSession_of_expiry db clk tok r hg he] at h
      simp at h
    · rw [GetSession_of_kept db clk tok r hg he] at h
      simp at h

theorem GetSession_unique (db : DB) (clk : Nat → Time) (tok : String)
    (h : SessionIDsUnique db) :
    SessionIDsUnique (TestSessionService.GetSession db clk tok).2 := by
  unfold TestSessionService.GetSession
  split
  · exact h
  · split
    · exact SessionIDsUnique_Update _ _ _ h
    · exact h

theorem GetSession_status_expired_stays (db : DB) (clk : Nat → Time) (tok : String) (i : Int)
    (h : statusOf db i = some SessionStatus.expired) :
    statusOf (TestSessionService.GetSession db clk tok).2 i = some SessionStatus.expired := by
  unfold TestSessionService.GetSession
  split
  · exact h
  · split
    · simp only [statusOf_Update, h]
      split <;> rfl
    · exact h

theorem recordAnswer_sessions (lowerRune : Char → Char) (db : DB) (stamp : Time × Time)
    (session : TestSession) (qid : Int) (text : Option String) (opt : Option Int) :
    (TestSessionService.recordAnswer lowerRune db stamp session qid text opt).2.test_sessions =
      db.test_sessions := by
  unfold TestSessionService.recordAnswer
  split
  · rfl
  · split
    · rfl
    · dsimp only
      split <;> rfl

theorem SubmitAnswer_of_error (lowerRune : Char → Char) (db : DB) (clk : Nat → Time)
    (tok : String) (qid : Int) (text : Option String) (opt : Option Int) (e : Err) (dbg : DB)
    (hG : TestSessionService.GetSession db clk tok = (.error e, dbg)) :
    TestSessionService.SubmitAnswer lowerRune db clk tok qid text opt = (.error e, dbg) := by
  simp only [TestSessionService.SubmitAnswer, hG]

theorem SubmitAnswer_of_rejected (lowerRune : Char → Char) (db : DB) (clk : Nat → Time)
    (tok : String) (qid : Int) (text : Option String) (opt : Option Int) (sg : TestSession)
    (dbg : DB) (hG : TestSessionService.GetSession db clk tok = (.ok sg, dbg))
    (hrej : sg.IsExpired (clk 2) = true ∨
      (sg.Status ≠ SessionStatus.not_started ∧ sg.Status ≠ SessionStatus.in_progress)) :
    TestSessionService.SubmitAnswer lowerRune db clk tok qid text opt =
      (.error Err.sessionNotAvailable, dbg) := by
  simp only [TestSessionService.SubmitAnswer, hG, if_pos hrej]

theorem SubmitAnswer_of_admitted (lowerRune : Char → Char) (db : DB) (clk : Nat → Time)
    (tok : String) (qid : Int) (text : Option String) (opt : Option Int) (sg : TestSession)
    (dbg : DB) (hG : TestSessionService.GetSession db clk tok = (.ok sg, dbg))
    (hadm : ¬ (sg.IsExpired (clk 2) = true ∨
      (sg.Status ≠ SessionStatus.not_started ∧ sg.Status ≠ SessionStatus.in_progress))) :
    TestSessionService.SubmitAnswer lowerRune db clk tok qid text opt =
      TestSessionService.recordAnswer lowerRune (startedSession dbg clk sg).2 (clk 5, clk 6)
        (startedSession dbg clk sg).1 qid text opt := by
  simp only [TestSessionService.SubmitAnswer, hG, if_neg hadm, startedSession]

theorem SubmitSession_of_error (db : DB) (clk : Nat → Time) (tok : String) (e : Err)
    (dbg : DB) (hG : TestSessionService.GetSession db clk tok = (.error e, dbg)) :
    TestSessionService.SubmitSession db clk tok = (.error e, dbg) := by
  simp only [TestSessionService.SubmitSession, hG]

theorem SubmitSession_of_open (db : DB) (clk : Nat → Time) (tok : String) (sg : TestSession)
    (dbg : DB) (hG : TestSessionService.GetSession db clk tok = (.ok sg, dbg))
    (hs : sg.Status ≠ SessionStatus.submitted) :
    TestSessionService.SubmitSession db clk tok =
      (.ok (TestSessionRepository.Update dbg (clk 3)
          { sg with Status := SessionStatus.submitted, SubmittedAt := some (clk 2) }).1,
       (TestResultService.CalculateResult
          (TestSessionRepository.Update dbg (clk 3)
            { sg with Status := SessionStatus.submitted, SubmittedAt := some (clk 2) }).2
          (fun i => clk (i + 4))
          (TestSessionRepository.Update dbg (clk 3)
            { sg with Status := SessionStatus.submitted,
                      SubmittedAt := some (clk 2) }).1.ID).2) := by
  simp only [TestSessionService.SubmitSession, hG, if_neg hs]

theorem SubmitSession_of_closed (db : DB) (clk : Nat → Time) (tok : String) (sg : TestSession)
    (dbg : DB) (hG : TestSessionService.GetSession db clk tok = (.ok sg, dbg))
    (hs : sg.Status = SessionStatus.submitted) :
    TestSessionService.SubmitSession db clk tok = (.ok sg, dbg) := by
  simp only [TestSessionService.SubmitSession, hG, if_pos hs]

theorem UpdateSessionProgress_sessions_of_inactive (db : DB) (clk : Nat → Time) (tok : String)
    (idx : Int) (sg : TestSession) (dbg : DB)
    (hG : TestSessionService.GetSession db clk tok = (.ok sg, dbg))
    (hs : sg.IsActive (clk 2) = false) :
    TestSessionService.UpdateSessionProgress db clk tok idx =
      (.error Err.sessionNotActive, dbg) := by
  simp only [TestSessionService.UpdateSessionProgress, hG, if_pos hs]

theorem UpdateSessionProgress_of_active (db : DB) (clk : Nat → Time) (tok : String)
    (idx : Int) (sg : TestSession) (dbg : DB)
    (hG : TestSessionService.GetSession db clk tok = (.ok sg, dbg))
    (hs : ¬ sg.IsActive (clk 2) = false) :
    TestSessionService.UpdateSessionProgress db clk tok idx =
      (.ok (), (TestSessionRepository.Update dbg (clk 3)
        { sg with CurrentQuestionIndex := idx }).2) := by
  simp only [TestSessionService.UpdateSessionProgress, hG, if_neg hs]

theorem UpdateSessionProgress_of_error (db : DB) (clk : Nat → Time) (tok : String)
    (idx : Int) (e : Err) (dbg : DB)
    (hG : TestSessionService.GetSession db clk tok = (.error e, dbg)) :
    TestSessionService.UpdateSessionProgress db clk tok idx = (.error e, dbg) := by
  simp only [TestSessionService.UpdateSessionProgress, hG]

theorem startedSession_status_other (db : DB) (clk : Nat → Time) (sg : TestSession) (i : Int)
    (h : i ≠ sg.ID) : statusOf (startedSession db clk sg).2 i = statusOf db i := by
  unfold startedSession
  split
  · rw [statusOf_Update]
    exact if_neg h
  · rfl

/-- C4, the counterexample: the stored session 1 has status `expired`;
`SubmitSession` on its token changes the stored status to `submitted`. -/
theorem SubmitSession_leaves_expired :
    statusOf (exDB [exSession 1 SessionStatus.expired]) 1 = some SessionStatus.expired ∧
    statusOf (TestSessionService.SubmitSession (exDB [exSession 1 SessionStatus.expired])
      (exClock 2000) "tok").2 1 = some SessionStatus.submitted := by
  refine ⟨by rfl, by rfl⟩

/-- C4, amended: in a store with pairwise distinct session ids, a session
whose stored status is `expired` still has the stored status `expired` after
`GetSession`, `SubmitAnswer` and `UpdateSessionProgress`, whatever token they
are called on; after `SubmitSession` its stored status is `submitted` when it
is the session resolved by the token, and `expired` otherwise. -/
theorem expired_status_left_only_by_SubmitSession (lowerRune : Char → Char) (db : DB)
    (clk : Nat → Time) (tok : String) (qid : Int) (text : Option String) (opt : Option Int)
    (idx : Int) (i : Int) (hU : SessionIDsUnique db)
    (hi : statusOf db i = some SessionStatus.expired) :
    statusOf (TestSessionService.GetSession db clk tok).2 i = some SessionStatus.expired ∧
    statusOf (TestSessionService.SubmitAnswer lowerRune db clk tok qid text opt).2 i =
      some SessionStatus.expired ∧
    statusOf (TestSessionService.UpdateSessionProgress db clk tok idx).2 i =
      some SessionStatus.expired ∧
    statusOf (TestSessionService.SubmitSession db clk tok).2 i =
      some (if (TestSessionRepository.GetByToken db tok).map (fun s => s.ID) = some i
        then SessionStatus.submitted else SessionStatus.expired) := by
  have hG := GetSession_status_expired_stays db clk tok i hi
  have hUg := GetSession_unique db clk tok hU
  cases hg : TestSessionService.GetSession db clk tok with
  | mk res dbg =>
    rw [hg] at hG hUg
    simp only at hG hUg
    cases res with
    | error e =>
      have hnone := (GetSession_error db clk tok e dbg hg).1
      rw [SubmitAnswer_of_error lowerRune db clk tok qid text opt e dbg hg,
        UpdateSessionProgress_of_error db clk tok idx e dbg hg,
        SubmitSession_of_error db clk tok e dbg hg, hnone]
      exact ⟨hG, hG, hG, by simpa using hG⟩
    | ok sg =>
      have hst := GetSession_stored db clk tok sg dbg hg
      have hsg := statusOf_of_stored dbg tok sg hUg hst
      obtain ⟨x, hx, hid, -, -, -⟩ := GetSession_ok db clk tok sg dbg hg
      have hkey : i = sg.ID → sg.Status = SessionStatus.expired := by
        intro h
        rw [h, hsg] at hG
        exact Option.some.inj hG
      refine ⟨hG, ?_, ?_, ?_⟩
      · by_cases hrej : sg.IsExpired (clk 2) = true ∨
            (sg.Status ≠ SessionStatus.not_started ∧ sg.Status ≠ SessionStatus.in_progress)
        · rw [SubmitAnswer_of_rejected lowerRune db clk tok qid text opt sg dbg hg hrej]
          exact hG
        · rw [SubmitAnswer_of_admitted lowerRune db clk tok qid text opt sg dbg hg hrej]
          have hne : i ≠ sg.ID := by
            intro h
            apply hrej
            right
            rw [hkey h]
            exact ⟨by decide, by decide⟩
          rw [statusOf_congr _ _ i (recordAnswer_sessions _ _ _ _ _ _ _),
            startedSession_status_other dbg clk sg i hne]
          exact hG
      · by_cases hact : sg.IsActive (clk 2) = false
        · rw [UpdateSessionProgress_sessions_of_inactive db clk tok idx sg dbg hg hact]
          exact hG
        · rw [UpdateSessionProgress_of_active db clk tok idx sg dbg hg hact]
          have hne : i ≠ sg.ID := by
            intro h
            apply hact
            simp [TestSession.IsActive, hkey h]
          simp only [statusOf_Update, if_neg hne]
          exact hG
      · rw [hx]
        simp only [Option.map_some', Option.some.injEq]
        by_cases hs : sg.Status = SessionStatus.submitted
        · rw [SubmitSession_of_closed db clk tok sg dbg hg hs]
          have hne : ¬ x.ID = i := by
            intro h
            have := hkey (by rw [hid, h])
            rw [hs] at this
            exact absurd this (by decide)
          simp only [if_neg hne]
          exact hG
        · rw [SubmitSession_of_open db clk tok sg dbg hg hs]
          rw [statusOf_congr _ _ i (CalculateResult_frame _ _ _).1, statusOf_Update]
          by_cases hxi : x.ID = i
          · have hisg : i = sg.ID := by rw [hid, hxi]
            simp only [Update_fst, hxi, hisg, if_true]
            rw [← hisg, hG]
            rfl
          · have hisg : ¬ i = sg.ID := by
              intro h
              exact hxi (by rw [← hid, h])
            simp only [hxi, hisg, if_false]
            exact hG

/-- C4 amended, at a concrete input: session 1 is stored `expired`; the four
operations are called at clock 2000 on the token of session 2, which is in
progress and not expired; session 1 is still `expired` after each of them. -/
theorem expired_status_left_only_by_SubmitSession_witness :
    statusOf (TestSessionService.GetSession exTwoDB (exClock 2000) "tok2").2 1 =
      some SessionStatus.expired ∧
    statusOf (TestSessionService.SubmitAnswer asciiLower exTwoDB (exClock 2000) "tok2" 1
      none (some 1)).2 1 = some SessionStatus.expired ∧
    statusOf (TestSessionService.UpdateSessionProgress exTwoDB (exClock 2000) "tok2" 1).2 1 =
      some SessionStatus.expired ∧
    statusOf (TestSessionService.SubmitSession exTwoDB (exClock 2000) "tok2").2 1 =
      some (if (TestSessionRepository.GetByToken exTwoDB "tok2").map (fun s => s.ID) = some 1
        then SessionStatus.submitted else SessionStatus.expired) :=
  expired_status_left_only_by_SubmitSession asciiLower exTwoDB (exClock 2000) "tok2" 1
    none (some 1) 1 1 (show List.Nodup _ by decide) (by rfl)

/-! ## Answers are refused once the session is expired or closed -/

theorem GetSession_answers (db : DB) (clk : Nat → Time) (tok : String) :
    (TestSessionService.GetSession db clk tok).2.user_answers = db.user_answers := by
  unfold TestSessionService.GetSession
  split
  · rfl
  · split <;> rfl

/-- `SubmitAnswer` on a token whose stored session is past its expiry time at
every clock reading of the call, or has a status other than `not_started` and
`in_progress`, fails with "session is not available for answers" and leaves
the answers as they were. -/
theorem SubmitAnswer_refused (lowerRune : Char → Char) (db : DB) (clk : Nat → Time)
    (tok : String) (qid : Int) (text : Option String) (opt : Option Int) (s : TestSession)
    (t : Time) (hg : TestSessionRepository.GetByToken db tok = some s)
    (hclk : ∀ i, t ≤ clk i)
    (h : s.ExpiresAt < t ∨
      (s.Status ≠ SessionStatus.not_started ∧ s.Status ≠ SessionStatus.in_progress)) :
    (TestSessionService.SubmitAnswer lowerRune db clk tok qid text opt).1 =
      .error Err.sessionNotAvailable ∧
    (TestSessionService.SubmitAnswer lowerRune db clk tok qid text opt).2.user_answers =
      db.user_answers := by
  have hans := GetSession_answers db clk tok
  cases hG : TestSessionService.GetSession db clk tok with
  | mk res dbg =>
    rw [hG] at hans
    simp only at hans
    cases res with
    | error e =>
      have := (GetSession_error db clk tok e dbg hG).1
      rw [hg] at this
      simp at this
    | ok sg =>
      obtain ⟨x, hx, -, hexp, -, hcase⟩ := GetSession_ok db clk tok sg dbg hG
      rw [hg] at hx
      obtain rfl : s = x := Option.some.inj hx
      have hrej : sg.IsExpired (clk 2) = true ∨
          (sg.Status ≠ SessionStatus.not_started ∧ sg.Status ≠ SessionStatus.in_progress) := by
        rcases h with hpast | hstatus
        · left
          have := hclk 2
          simp only [TestSession.IsExpired, decide_eq_true_eq, hexp]
          exact lt_of_lt_of_le hpast this
        · rcases hcase with ⟨hsame, -, -⟩ | ⟨-, -, hexpd, -⟩
          · right
            rw [hsame]
            exact hstatus
          · right
            rw [hexpd]
            exact ⟨by decide, by decide⟩
      rw [SubmitAnswer_of_rejected lowerRune db clk tok qid text opt sg dbg hG hrej]
      exact ⟨rfl, hans⟩

theorem tokenKept_refl (db : DB) : TokenKept db db :=
  fun _ s h => ⟨s, h, rfl, rfl⟩

theorem tokenKept_trans {a b c : DB} (h1 : TokenKept a b) (h2 : TokenKept b c) :
    TokenKept a c := by
  intro tok s h
  obtain ⟨s1, hs1, he1, hi1⟩ := h1 tok s h
  obtain ⟨s2, hs2, he2, hi2⟩ := h2 tok s1 hs1
  exact ⟨s2, hs2, he2.trans he1, hi2.trans hi1⟩

theorem TokenKept_of_sessions_eq (db db1 : DB) (h : db1.test_sessions = db.test_sessions) :
    TokenKept db db1 := by
  intro tok s hs
  refine ⟨s, ?_, rfl, rfl⟩
  unfold TestSessionRepository.GetByToken at *
  rw [h]
  exact hs

theorem TokenKept_Update (db : DB) (t : Time) (x : TestSession) :
    TokenKept db (TestSessionRepository.Update db t x).2 := by
  intro tok s hs
  rw [GetByToken_Update, hs]
  refine ⟨_, rfl, ?_⟩
  simp only
  split <;> exact ⟨rfl, rfl⟩

theorem TokenKept_Create (db : DB) (c u c1 u1 : Time) (x : TestSession) :
    TokenKept db (TestSessionRepository.Create db c u c1 u1 x).2 := by
  intro tok s hs
  refine ⟨s, ?_, rfl, rfl⟩
  unfold TestSessionRepository.GetByToken at *
  show List.find? _ (db.test_sessions ++ [_]) = some s
  rw [List.find?_append, hs]
  rfl

theorem TokenKept_ExpireOldSessions (db : DB) (now : Time) :
    TokenKept db (TestSessionRepository.ExpireOldSessions db now) := by
  intro tok s hs
  unfold TestSessionRepository.GetByToken at *
  show ∃ s1, List.find? _ (db.test_sessions.map _) = some s1 ∧ _
  rw [List.find?_map]
  have hp : ((fun s : TestSession => decide (s.SessionToken = tok)) ∘ fun r : TestSession =>
      if r.ExpiresAt < now ∧
          (r.Status = SessionStatus.not_started ∨ r.Status = SessionStatus.in_progress) then
        { r with Status := SessionStatus.expired, UpdatedAt := now }
      else r) = fun s => decide (s.SessionToken = tok) := by
    funext r
    simp only [Function.comp]
    split <;> rfl
  rw [hp, hs]
  refine ⟨_, rfl, ?_⟩
  simp only
  split <;> exact ⟨rfl, rfl⟩

theorem TokenKept_GetSession (db : DB) (clk : Nat → Time) (tok : String) :
    TokenKept db (TestSessionService.GetSession db clk tok).2 := by
  unfold TestSessionService.GetSession
  split
  · exact tokenKept_refl db
  · split
    · exact TokenKept_Update _ _ _
    · exact tokenKept_refl db

theorem TokenKept_CalculateResult (db : DB) (clk : Nat → Time) (sessionID : Int) :
    TokenKept db (TestResultService.CalculateResult db clk sessionID).2 :=
  TokenKept_of_sessions_eq _ _ (CalculateResult_frame db clk sessionID).1

theorem TokenKept_StartSession (db : DB) (clk : Nat → Time)
    (entropy : Except Err (Fin 32 → Fin 256)) (userID testID : Int) :
    TokenKept db (TestSessionService.StartSession db clk entropy userID testID).2 := by
  unfold TestSessionService.StartSession
  split
  · exact tokenKept_refl db
  · split
    · exact tokenKept_refl db
    · dsimp only
      split
      · split
        · exact tokenKept_refl db
        · split
          · exact tokenKept_refl db
          · exact TokenKept_Create _ (clk 3) (clk 4) (clk 5) (clk 6) _
      · split
        · exact tokenKept_refl db
        · exact TokenKept_Create _ (clk 3) (clk 4) (clk 5) (clk 6) _

theorem TokenKept_startedSession (db : DB) (clk : Nat → Time) (sg : TestSession) :
    TokenKept db (startedSession db clk sg).2 := by
  unfold startedSession
  split
  · exact TokenKept_Update _ _ _
  · exact tokenKept_refl db

theorem TokenKept_SubmitAnswer (lowerRune : Char → Char) (db : DB) (clk : Nat → Time)
    (tok : String) (qid : Int) (text : Option String) (opt : Option Int) :
    TokenKept db (TestSessionService.SubmitAnswer lowerRune db clk tok qid text opt).2 := by
  have hG := TokenKept_GetSession db clk tok
  cases hg : TestSessionService.GetSession db clk tok with
  | mk res dbg =>
    rw [hg] at hG
    cases res with
    | error e =>
      rw [SubmitAnswer_of_error lowerRune db clk tok qid text opt e dbg hg]
      exact hG
    | ok sg =>
      by_cases hrej : sg.IsExpired (clk 2) = true ∨
          (sg.Status ≠ SessionStatus.not_started ∧ sg.Status ≠ SessionStatus.in_progress)
      · rw [SubmitAnswer_of_rejected lowerRune db clk tok qid text opt sg dbg hg hrej]
        exact hG
      · rw [SubmitAnswer_of_admitted lowerRune db clk tok qid text opt sg dbg hg hrej]
        exact tokenKept_trans (tokenKept_trans hG (TokenKept_startedSession dbg clk sg))
          (TokenKept_of_sessions_eq _ _ (recordAnswer_sessions _ _ _ _ _ _ _))

theorem TokenKept_SubmitSession (db : DB) (clk : Nat → Time) (tok : String) :
    TokenKept db (TestSessionService.SubmitSession db clk tok).2 := by
  have hG := TokenKept_GetSession db clk tok
  cases hg : TestSessionService.GetSession db clk tok with
  | mk res dbg =>
    rw [hg] at hG
    cases res with
    | error e =>
      rw [SubmitSession_of_error db clk tok e dbg hg]
      exact hG
    | ok sg =>
      by_cases hs : sg.Status = SessionStatus.submitted
      · rw [SubmitSession_of_closed db clk tok sg dbg hg hs]
        exact hG
      · rw [SubmitSession_of_open db clk tok sg dbg hg hs]
        exact tokenKept_trans (tokenKept_trans hG (TokenKept_Update _ _ _))
          (TokenKept_CalculateResult _ _ _)

theorem TokenKept_UpdateSessionProgress (db : DB) (clk : Nat → Time) (tok : String)
    (idx : Int) :
    TokenKept db (TestSessionService.UpdateSessionProgress db clk tok idx).2 := by
  have hG := TokenKept_GetSession db clk tok
  cases hg : TestSessionService.GetSession db clk tok with
  | mk res dbg =>
    rw [hg] at hG
    cases res with
    | error e =>
      rw [UpdateSessionProgress_of_error db clk tok idx e dbg hg]
      exact hG
    | ok sg =>
      by_cases hact : sg.IsActive (clk 2) = false
      · rw [UpdateSessionProgress_sessions_of_inactive db clk tok idx sg dbg hg hact]
        exact hG
      · rw [UpdateSessionProgress_of_active db clk tok idx sg dbg hg hact]
        exact tokenKept_trans hG (TokenKept_Update _ _ _)

theorem TokenKept_exec (lowerRune : Char → Char) (db : DB) (c : Call) :
    TokenKept db (Call.exec lowerRune db c) := by
  cases c with
  | StartSession clk entropy userID testID => exact TokenKept_StartSession _ _ _ _ _
  | GetSession clk tok => exact TokenKept_GetSession _ _ _
  | SubmitAnswer clk tok qid text opt => exact TokenKept_SubmitAnswer _ _ _ _ _ _ _
  | SubmitSession clk tok => exact TokenKept_SubmitSession _ _ _
  | UpdateSessionProgress clk tok idx => exact TokenKept_UpdateSessionProgress _ _ _ _
  | CalculateResult clk sessionID => exact TokenKept_CalculateResult _ _ _
  | ExpireOldSessions now => exact TokenKept_ExpireOldSessions _ _

theorem TokenKept_execAll (lowerRune : Char → Char) (calls : List Call) (db : DB) :
    TokenKept db (execAll lowerRune db calls) := by
  induction calls generalizing db with
  | nil => exact tokenKept_refl db
  | cons c rest ih =>
    exact tokenKept_trans (TokenKept_exec lowerRune db c) (ih (Call.exec lowerRune db c))

theorem exClock_ge (t : Time) (i : Nat) : t ≤ exClock t i := by
  unfold exClock
  exact Int.le_add_of_nonneg_right (Int.ofNat_nonneg i)

/-- C6: let `s` be the session stored under the token and `t` a time. A
`SubmitAnswer` whose clock readings are all at or after `t` fails with
"session is not available for answers", creating and modifying no answer row,
whenever the expiry time of `s` is before `t` or the status of `s` is neither
`not_started` nor `in_progress`. And once the expiry time of `s` is before
`t`, the same holds for a `SubmitAnswer` at or after `t` on the store reached
by any sequence of calls of the session core: every later `SubmitAnswer` on
that session fails. -/
theorem SubmitAnswer_refused_once_unavailable (lowerRune : Char → Char) (db : DB)
    (tok : String) (s : TestSession) (t : Time)
    (hg : TestSessionRepository.GetByToken db tok = some s) :
    (∀ clk qid text opt, (∀ i, t ≤ clk i) →
      (s.ExpiresAt < t ∨
        (s.Status ≠ SessionStatus.not_started ∧ s.Status ≠ SessionStatus.in_progress)) →
      (TestSessionService.SubmitAnswer lowerRune db clk tok qid text opt).1 =
        .error Err.sessionNotAvailable ∧
      (TestSessionService.SubmitAnswer lowerRune db clk tok qid text opt).2.user_answers =
        db.user_answers) ∧
    (∀ calls clk qid text opt, (∀ i, t ≤ clk i) → s.ExpiresAt < t →
      (TestSessionService.SubmitAnswer lowerRune (execAll lowerRune db calls) clk tok qid
        text opt).1 = .error Err.sessionNotAvailable ∧
      (TestSessionService.SubmitAnswer lowerRune (execAll lowerRune db calls) clk tok qid
        text opt).2.user_answers = (execAll lowerRune db calls).user_answers) := by
  constructor
  · intro clk qid text opt hclk h
    exact SubmitAnswer_refused lowerRune db clk tok qid text opt s t hg hclk h
  · intro calls clk qid text opt hclk hpast
    obtain ⟨s1, hs1, he1, -⟩ := TokenKept_execAll lowerRune calls db tok s hg
    exact SubmitAnswer_refused lowerRune _ clk tok qid text opt s1 t hs1 hclk
      (Or.inl (by rw [he1]; exact hpast))

/-- C6, at a concrete input: the stored session is `not_started` and expires
at 1000; a `SubmitAnswer` at clock 1200 is refused and stores nothing, and so
is a `SubmitAnswer` at clock 2000 after three further calls. -/
theorem SubmitAnswer_refused_once_unavailable_witness :
    ((TestSessionService.SubmitAnswer asciiLower (exDB [exSession 1 SessionStatus.not_started])
        (exClock 1200) "tok" 1 none (some 1)).1 = .error Err.sessionNotAvailable ∧
     (TestSessionService.SubmitAnswer asciiLower (exDB [exSession 1 SessionStatus.not_started])
        (exClock 1200) "tok" 1 none (some 1)).2.user_answers = []) ∧
    ((TestSessionService.SubmitAnswer asciiLower
        (execAll asciiLower (exDB [exSession 1 SessionStatus.not_started]) exLaterCalls)
        (exClock 2000) "tok" 1 none (some 1)).1 = .error Err.sessionNotAvailable ∧
     (TestSessionService.SubmitAnswer asciiLower
        (execAll asciiLower (exDB [exSession 1 SessionStatus.not_started]) exLaterCalls)
        (exClock 2000) "tok" 1 none (some 1)).2.user_answers =
      (execAll asciiLower (exDB [exSession 1 SessionStatus.not_started])
        exLaterCalls).user_answers) :=
  have h := SubmitAnswer_refused_once_unavailable asciiLower
    (exDB [exSession 1 SessionStatus.not_started]) "tok"
    (exSession 1 SessionStatus.not_started) 1200 rfl
  ⟨h.1 (exClock 1200) 1 none (some 1) (exClock_ge 1200) (Or.inl (by decide)),
   h.2 exLaterCalls (exClock 2000) 1 none (some 1)
     (fun i => le_trans (by decide) (exClock_ge 2000 i)) (by decide)⟩

/-! ## Answer overwrite -/

theorem eq_of_countP_le_one {α : Type} (p : α → Bool) (l : List α) (a b : α)
    (h : l.countP p ≤ 1) (ha : a ∈ l) (hb : b ∈ l) (hpa : p a = true) (hpb : p b = true) :
    a = b := by
  induction l with
  | nil => simp at ha
  | cons c rest ih =>
    rw [List.countP_cons] at h
    rcases List.mem_cons.mp ha with rfl | ha1
    · rcases List.mem_cons.mp hb with rfl | hb1
      · rfl
      · have hpos : 0 < rest.countP p := List.countP_pos_iff.mpr ⟨b, hb1, hpb⟩
        simp only [hpa, if_true] at h
        omega
    · rcases List.mem_cons.mp hb with rfl | hb1
      · have hpos : 0 < rest.countP p := List.countP_pos_iff.mpr ⟨a, ha1, hpa⟩
        simp only [hpb, if_true] at h
        omega
      · exact ih (by omega) ha1 hb1

/-- A successful `recordAnswer` returns an answer of the session and the
question carrying the submitted text and option and the score of the
submission; it has overwritten the row found for the pair, or, none being
found, appended a row: the returned answer with the answer time of the
database. -/
theorem recordAnswer_ok (lowerRune : Char → Char) (db : DB) (stamp : Time × Time)
    (session : TestSession) (qid : Int) (text : Option String) (opt : Option Int)
    (a : UserAnswer) (db1 : DB)
    (h : TestSessionService.recordAnswer lowerRune db stamp session qid text opt =
      (.ok a, db1)) :
    ∃ question, QuestionRepository.GetByID db qid = some question ∧
      a.SessionID = session.ID ∧ a.QuestionID = qid ∧
      a.AnswerText = text ∧ a.SelectedOptionID = opt ∧
      a.IsCorrect =
        some (scoreAnswer lowerRune (QuestionRepository.lookups db) question text opt).1 ∧
      a.MarksAwarded =
        (scoreAnswer lowerRune (QuestionRepository.lookups db) question text opt).2 ∧
      ((∃ existing,
          UserAnswerRepository.GetBySessionAndQuestion db session.ID qid = some existing ∧
          a.ID = existing.ID ∧ UserAnswerRepository.updateRow a existing = a ∧
          db1.user_answers = db.user_answers.map (fun r =>
            if r.ID = a.ID then UserAnswerRepository.updateRow a r else r)) ∨
       (UserAnswerRepository.GetBySessionAndQuestion db session.ID qid = none ∧
          db1.user_answers = db.user_answers ++ [{ a with AnsweredAt := stamp.1 }])) := by
  unfold TestSessionService.recordAnswer at h
  split at h
  · simp at h
  · rename_i question hq
    refine ⟨question, hq, ?_⟩
    split at h
    · simp at h
    · dsimp only at h
      split at h
      · rename_i existing hex
        simp only [Prod.mk.injEq, Except.ok.injEq] at h
        obtain ⟨h1, h2⟩ := h
        have hkey := List.find?_some hex
        simp only [Bool.and_eq_true, decide_eq_true_eq] at hkey
        subst h1
        subst h2
        exact ⟨hkey.1, hkey.2, rfl, rfl, rfl, rfl,
          Or.inl ⟨existing, hex, rfl, rfl, rfl⟩⟩
      · rename_i hnone
        simp only [Prod.mk.injEq, Except.ok.injEq] at h
        obtain ⟨h1, h2⟩ := h
        rw [AnswerCreate_fst] at h1
        rw [AnswerCreate_snd] at h2
        subst h1
        subst h2
        exact ⟨rfl, rfl, rfl, rfl, rfl, rfl, Or.inr ⟨hnone, rfl⟩⟩

theorem answerCount_congr (db db1 : DB) (h : db1.user_answers = db.user_answers)
    (sid qid : Int) : answerCount db1 sid qid = answerCount db sid qid := by
  unfold answerCount
  rw [h]

theorem answerCount_of_update (db db1 : DB) (a : UserAnswer)
    (h : db1.user_answers = db.user_answers.map (fun r =>
      if r.ID = a.ID then UserAnswerRepository.updateRow a r else r))
    (sid qid : Int) : answerCount db1 sid qid = answerCount db sid qid := by
  unfold answerCount
  rw [h, List.countP_map]
  apply congrArg (fun p => List.countP p db.user_answers)
  funext r
  simp only [Function.comp]
  split <;> rfl

/-- An answer that differs from another in the answer time at most has its
id, session, question, correctness and marks. -/
theorem restamp_fields (r a : UserAnswer) (t : Time) (h : { r with AnsweredAt := t } = a) :
    r.ID = a.ID ∧ r.SessionID = a.SessionID ∧ r.QuestionID = a.QuestionID ∧
    r.IsCorrect = a.IsCorrect ∧ r.MarksAwarded = a.MarksAwarded := by
  subst h
  exact ⟨rfl, rfl, rfl, rfl, rfl⟩

theorem answerCount_of_append (db db1 : DB) (a : UserAnswer)
    (h : db1.user_answers = db.user_answers ++ [a]) (sid qid : Int) :
    answerCount db1 sid qid =
      answerCount db sid qid + if a.SessionID = sid ∧ a.QuestionID = qid then 1 else 0 := by
  unfold answerCount
  rw [h, List.countP_append]
  congr 1
  by_cases hc : a.SessionID = sid ∧ a.QuestionID = qid
  · simp [List.countP_cons, hc.1, hc.2]
  · rw [if_neg hc]
    simp only [List.countP_cons, List.countP_nil, Bool.and_eq_true, decide_eq_true_eq, hc,
      if_false]

theorem recordAnswer_rows (lowerRune : Char → Char) (db : DB) (stamp : Time × Time)
    (session : TestSession) (qid : Int) (text : Option String) (opt : Option Int)
    (a : UserAnswer) (db1 : DB) (hU : AnswersUnique db)
    (h : TestSessionService.recordAnswer lowerRune db stamp session qid text opt =
      (.ok a, db1)) :
    AnswersUnique db1 ∧ answerCount db1 session.ID qid = 1 ∧
    (∀ r ∈ db1.user_answers, r.SessionID = session.ID → r.QuestionID = qid →
      { r with AnsweredAt := a.AnsweredAt } = a) ∧
    (0 < answerCount db session.ID qid →
      db1.user_answers.length = db.user_answers.length ∧
      (∀ r ∈ db1.user_answers, r.SessionID = session.ID → r.QuestionID = qid → r = a) ∧
      ∃ r0 ∈ db.user_answers, r0.SessionID = session.ID ∧ r0.QuestionID = qid ∧
        a.ID = r0.ID) := by
  obtain ⟨question, -, hsid, hqid, -, -, -, -, hcase⟩ :=
    recordAnswer_ok lowerRune db stamp session qid text opt a db1 h
  rcases hcase with ⟨existing, hex, hid, hupd, hdb⟩ | ⟨hnone, hdb⟩
  · have hcount := answerCount_of_update db db1 a hdb
    have hkey := List.find?_some hex
    simp only [Bool.and_eq_true, decide_eq_true_eq] at hkey
    have hmem := List.mem_of_find?_eq_some hex
    have hpos : 0 < answerCount db session.ID qid := countP_pos_of_find? _ _ _ hex
    have hall : ∀ r ∈ db1.user_answers, r.SessionID = session.ID → r.QuestionID = qid →
        r = a := ?_
    refine ⟨fun s q => by rw [hcount]; exact hU s q, ?_, ?_, ?_⟩
    · rw [hcount]
      have := hU session.ID qid
      omega
    · intro r hr hrs hrq
      rw [hall r hr hrs hrq]
    · intro _
      refine ⟨by rw [hdb, List.length_map], hall, existing, hmem, hkey.1, hkey.2, hid⟩
    · intro r hr hrs hrq
      rw [hdb, List.mem_map] at hr
      obtain ⟨r0, hr0, hfr⟩ := hr
      have hr0key : r0.SessionID = session.ID ∧ r0.QuestionID = qid := by
        rw [← hfr] at hrs hrq
        by_cases hrid : r0.ID = a.ID
        · simp only [hrid, if_true] at hrs hrq
          exact ⟨hrs, hrq⟩
        · simp only [hrid, if_false] at hrs hrq
          exact ⟨hrs, hrq⟩
      have heq : r0 = existing :=
        eq_of_countP_le_one _ db.user_answers r0 existing (hU session.ID qid) hr0 hmem
          (by simp [hr0key.1, hr0key.2]) (by simp [hkey.1, hkey.2])
      rw [← hfr, heq, if_pos hid.symm]
      exact hupd
  · have hcount : ∀ s q, answerCount db1 s q =
        answerCount db s q + if a.SessionID = s ∧ a.QuestionID = q then 1 else 0 :=
      answerCount_of_append db db1 { a with AnsweredAt := stamp.1 } hdb
    have hzero : answerCount db session.ID qid = 0 := countP_zero_of_find? _ _ hnone
    refine ⟨fun s q => ?_, ?_, ?_, ?_⟩
    · rw [hcount]
      by_cases hc : a.SessionID = s ∧ a.QuestionID = q
      · rw [if_pos hc]
        have : answerCount db s q = 0 := by
          rw [← hc.1, ← hc.2, hsid, hqid]
          exact hzero
        omega
      · rw [if_neg hc]
        have := hU s q
        omega
    · rw [hcount, hzero, if_pos ⟨hsid, hqid⟩]
    · intro r hr hrs hrq
      rw [hdb, List.mem_append] at hr
      rcases hr with hr | hr
      · have := List.find?_eq_none.mp hnone r hr
        simp [hrs, hrq] at this
      · rw [List.mem_singleton.mp hr]
    · intro hpos
      omega

theorem sameCatalog_refl (db : DB) : SameCatalog db db := ⟨rfl, rfl, rfl⟩

theorem sameCatalog_trans {a b c : DB} (h1 : SameCatalog a b) (h2 : SameCatalog b c) :
    SameCatalog a c :=
  ⟨h2.1.trans h1.1, h2.2.1.trans h1.2.1, h2.2.2.trans h1.2.2⟩

theorem SameCatalog_GetSession (db : DB) (clk : Nat → Time) (tok : String) :
    SameCatalog db (TestSessionService.GetSession db clk tok).2 := by
  unfold TestSessionService.GetSession
  split
  · exact sameCatalog_refl db
  · split
    · exact ⟨rfl, rfl, rfl⟩
    · exact sameCatalog_refl db

theorem SameCatalog_startedSession (db : DB) (clk : Nat → Time) (sg : TestSession) :
    SameCatalog db (startedSession db clk sg).2 ∧
    (startedSession db clk sg).2.user_answers = db.user_answers ∧
    (startedSession db clk sg).1.ID = sg.ID := by
  unfold startedSession
  split
  · exact ⟨⟨rfl, rfl, rfl⟩, rfl, rfl⟩
  · exact ⟨sameCatalog_refl db, rfl, rfl⟩

theorem SameCatalog_recordAnswer (lowerRune : Char → Char) (db : DB) (stamp : Time × Time)
    (session : TestSession) (qid : Int) (text : Option String) (opt : Option Int) :
    SameCatalog db
      (TestSessionService.recordAnswer lowerRune db stamp session qid text opt).2 := by
  unfold TestSessionService.recordAnswer
  split
  · exact sameCatalog_refl db
  · split
    · exact sameCatalog_refl db
    · dsimp only
      split <;> exact ⟨rfl, rfl, rfl⟩

theorem lookups_congr (db db1 : DB) (h : SameCatalog db db1) :
    QuestionRepository.lookups db1 = QuestionRepository.lookups db ∧
    ∀ qid, QuestionRepository.GetByID db1 qid = QuestionRepository.GetByID db qid := by
  obtain ⟨h1, h2, h3⟩ := h
  constructor
  · unfold QuestionRepository.lookups QuestionRepository.GetOptionsByQuestionID
      QuestionRepository.GetCorrectAnswersByQuestionID
    rw [h2, h3]
  · intro qid
    unfold QuestionRepository.GetByID
    rw [h1]

/-- A successful `SubmitAnswer` is a successful `recordAnswer` for the session
stored under the token, on a store with the answers and the catalogue of the
store before the call. -/
theorem SubmitAnswer_ok (lowerRune : Char → Char) (db : DB) (clk : Nat → Time)
    (tok : String) (qid : Int) (text : Option String) (opt : Option Int) (a : UserAnswer)
    (db1 : DB)
    (h : TestSessionService.SubmitAnswer lowerRune db clk tok qid text opt = (.ok a, db1)) :
    ∃ x dbm sm, TestSessionRepository.GetByToken db tok = some x ∧ sm.ID = x.ID ∧
      dbm.user_answers = db.user_answers ∧ SameCatalog db dbm ∧
      TestSessionService.recordAnswer lowerRune dbm (clk 5, clk 6) sm qid text opt =
        (.ok a, db1) := by
  have hans := GetSession_answers db clk tok
  have hcat := SameCatalog_GetSession db clk tok
  cases hG : TestSessionService.GetSession db clk tok with
  | mk res dbg =>
    rw [hG] at hans hcat
    simp only at hans hcat
    cases res with
    | error e =>
      rw [SubmitAnswer_of_error lowerRune db clk tok qid text opt e dbg hG] at h
      simp at h
    | ok sg =>
      by_cases hrej : sg.IsExpired (clk 2) = true ∨
          (sg.Status ≠ SessionStatus.not_started ∧ sg.Status ≠ SessionStatus.in_progress)
      · rw [SubmitAnswer_of_rejected lowerRune db clk tok qid text opt sg dbg hG hrej] at h
        simp at h
      · rw [SubmitAnswer_of_admitted lowerRune db clk tok qid text opt sg dbg hG hrej] at h
        obtain ⟨x, hx, hid, -, -, -⟩ := GetSession_ok db clk tok sg dbg hG
        obtain ⟨hc, hu, hi⟩ := SameCatalog_startedSession dbg clk sg
        exact ⟨x, _, _, hx, hi.trans hid, hu.trans hans, sameCatalog_trans hcat hc, h⟩

/-- C7: starting from a store with at most one answer row per (session,
question) pair, a successful `SubmitAnswer` leaves at most one row per pair,
and so does a second successful `SubmitAnswer` on the same token and question;
the second creates no row (the table keeps its length), the pair has exactly
one row, that row is the answer returned by the second call, it has the id of
the answer of the first call, and it holds the text, the selected option, the
correctness and the marks of the second submission. -/
theorem SubmitAnswer_overwrites_in_place (lowerRune : Char → Char) (db : DB)
    (clk1 clk2 : Nat → Time) (tok : String) (qid : Int) (text1 text2 : Option String)
    (opt1 opt2 : Option Int) (a1 a2 : UserAnswer) (db1 db2 : DB) (hU : AnswersUnique db)
    (h1 : TestSessionService.SubmitAnswer lowerRune db clk1 tok qid text1 opt1 = (.ok a1, db1))
    (h2 : TestSessionService.SubmitAnswer lowerRune db1 clk2 tok qid text2 opt2 =
      (.ok a2, db2)) :
    AnswersUnique db1 ∧ AnswersUnique db2 ∧
    db2.user_answers.length = db1.user_answers.length ∧
    answerCount db2 a1.SessionID qid = 1 ∧
    a2.ID = a1.ID ∧ a2.SessionID = a1.SessionID ∧ a2.QuestionID = qid ∧
    (∀ r ∈ db2.user_answers, r.SessionID = a1.SessionID → r.QuestionID = qid → r = a2) ∧
    ∃ question, QuestionRepository.GetByID db qid = some question ∧
      a2.AnswerText = text2 ∧ a2.SelectedOptionID = opt2 ∧
      a2.IsCorrect =
        some (scoreAnswer lowerRune (QuestionRepository.lookups db) question text2 opt2).1 ∧
      a2.MarksAwarded =
        (scoreAnswer lowerRune (QuestionRepository.lookups db) question text2 opt2).2 := by
  obtain ⟨x, dbm, sm, hx, hsm, hua, hcat, hrec⟩ :=
    SubmitAnswer_ok lowerRune db clk1 tok qid text1 opt1 a1 db1 h1
  have hUm : AnswersUnique dbm := fun s q => by
    rw [answerCount_congr db dbm hua]
    exact hU s q
  obtain ⟨hU1, hc1, hall1, -⟩ :=
    recordAnswer_rows lowerRune dbm (clk1 5, clk1 6) sm qid text1 opt1 a1 db1 hUm hrec
  obtain ⟨-, -, hs1, -, -, -, -, -, -⟩ :=
    recordAnswer_ok lowerRune dbm (clk1 5, clk1 6) sm qid text1 opt1 a1 db1 hrec
  have hk := TokenKept_SubmitAnswer lowerRune db clk1 tok qid text1 opt1
  rw [h1] at hk
  obtain ⟨x1, hx1, -, hid1⟩ := hk tok x hx
  obtain ⟨x2, dbm2, sm2, hx2, hsm2, hua2, hcat2, hrec2⟩ :=
    SubmitAnswer_ok lowerRune db1 clk2 tok qid text2 opt2 a2 db2 h2
  simp only at hx1
  rw [hx1] at hx2
  obtain rfl : x1 = x2 := Option.some.inj hx2
  have hsid : sm2.ID = sm.ID := by rw [hsm2, hid1, hsm]
  have hUm2 : AnswersUnique dbm2 := fun s q => by
    rw [answerCount_congr db1 dbm2 hua2]
    exact hU1 s q
  obtain ⟨hU2, hc2, -, hlen2⟩ :=
    recordAnswer_rows lowerRune dbm2 (clk2 5, clk2 6) sm2 qid text2 opt2 a2 db2 hUm2 hrec2
  obtain ⟨question, hq, hs2, hq2, ht2, ho2, hcor2, hmk2, -⟩ :=
    recordAnswer_ok lowerRune dbm2 (clk2 5, clk2 6) sm2 qid text2 opt2 a2 db2 hrec2
  have hpos : 0 < answerCount dbm2 sm2.ID qid := by
    rw [answerCount_congr db1 dbm2 hua2, hsid, hc1]
    exact Nat.one_pos
  obtain ⟨hlen, hall2, r0, hr0, hr0s, hr0q, hida⟩ := hlen2 hpos
  have hr0a : r0.ID = a1.ID := by
    rw [hua2] at hr0
    exact (restamp_fields r0 a1 _ (hall1 r0 hr0 (hr0s.trans hsid) hr0q)).1
  have hcat1 : SameCatalog dbm db1 := by
    have := SameCatalog_recordAnswer lowerRune dbm (clk1 5, clk1 6) sm qid text1 opt1
    rw [hrec] at this
    exact this
  obtain ⟨hlk, hgq⟩ := lookups_congr db dbm2
    (sameCatalog_trans (sameCatalog_trans hcat hcat1) hcat2)
  rw [hlk] at hcor2 hmk2
  rw [hgq] at hq
  refine ⟨hU1, hU2, ?_, ?_, ?_, ?_, hq2, ?_, question, hq, ht2, ho2, hcor2, hmk2⟩
  · rw [hlen, hua2]
  · rw [hs1, ← hsid]
    exact hc2
  · rw [hida, hr0a]
  · rw [hs2, hs1, hsid]
  · intro r hr hrs hrq
    exact hall2 r hr (by rw [hrs, hs1, hsid]) hrq

/-- C7, at a concrete input: on an unexpired session the wrong option is
submitted at clock 100 and the correct option at clock 200 for the same
question; both stores have at most one row per pair, no row is added by the
second call, and the pair's single row is the second answer, with `IsCorrect`
true and five marks, under the id of the first. -/
theorem SubmitAnswer_overwrites_in_place_witness :
    AnswersUnique exFirstSubmit.2 ∧ AnswersUnique exSecondSubmit.2 ∧
    exSecondSubmit.2.user_answers.length = exFirstSubmit.2.user_answers.length ∧
    answerCount exSecondSubmit.2 exFirstAnswer.SessionID 1 = 1 ∧
    exSecondAnswer.ID = exFirstAnswer.ID ∧
    (∀ r ∈ exSecondSubmit.2.user_answers,
      r.SessionID = exFirstAnswer.SessionID → r.QuestionID = 1 → r = exSecondAnswer) :=
  have h := SubmitAnswer_overwrites_in_place asciiLower
    (exDB [exSession 1 SessionStatus.not_started]) (exClock 100) (exClock 200) "tok" 1
    none none (some 2) (some 1) exFirstAnswer exSecondAnswer exFirstSubmit.2 exSecondSubmit.2
    (fun s q => by simp [answerCount, exDB])
    (Prod.ext (by rfl) rfl) (Prod.ext (by rfl) rfl)
  ⟨h.1, h.2.1, h.2.2.1, h.2.2.2.1, h.2.2.2.2.1, h.2.2.2.2.2.2.2.1⟩

/-! ## Submission survives a failed result calculation -/

/-- A token that resolves makes `GetSession` succeed; the session returned has
the id, the test and the expiry time of the stored one, and a status other
than `submitted` when the stored one has. -/
theorem GetSession_of_some (db : DB) (clk : Nat → Time) (tok : String) (x : TestSession)
    (hx : TestSessionRepository.GetByToken db tok = some x) :
    ∃ sg dbg, TestSessionService.GetSession db clk tok = (.ok sg, dbg) ∧ sg.ID = x.ID ∧
      sg.TestID = x.TestID ∧ sg.ExpiresAt = x.ExpiresAt ∧
      (x.Status ≠ SessionStatus.submitted → sg.Status ≠ SessionStatus.submitted) := by
  by_cases he : x.IsExpired (clk 0) = true ∧ x.Status = SessionStatus.in_progress
  · exact ⟨_, _, GetSession_of_expiry db clk tok x hx he, rfl, rfl, rfl,
      fun _ => by simp [Update_fst]⟩
  · exact ⟨_, _, GetSession_of_kept db clk tok x hx he, rfl, rfl, rfl, fun h => h⟩

/-- C11: when the token resolves to a stored session that is not submitted,
`SubmitSession` returns a session and no error, whatever the automatic
`CalculateResult` returns (its outcome does not enter the returned value):
the returned session has the id of the stored one, status `submitted` and
`SubmittedAt` set to the reading `now` of the call, and it is the row stored
under the token afterwards. -/
theorem SubmitSession_commits_whatever_the_result (db : DB) (clk : Nat → Time)
    (tok : String) (x : TestSession)
    (hx : TestSessionRepository.GetByToken db tok = some x)
    (hns : x.Status ≠ SessionStatus.submitted) :
    ∃ s1, (TestSessionService.SubmitSession db clk tok).1 = .ok s1 ∧ s1.ID = x.ID ∧
      s1.Status = SessionStatus.submitted ∧ s1.SubmittedAt = some (clk 2) ∧
      TestSessionRepository.GetByToken (TestSessionService.SubmitSession db clk tok).2 tok =
        some s1 := by
  obtain ⟨sg, dbg, hG, hid, -, -, hsg⟩ := GetSession_of_some db clk tok x hx
  have hopen := SubmitSession_of_open db clk tok sg dbg hG (hsg hns)
  obtain ⟨-, hstored⟩ := SubmitSession_ok db clk tok _ _ hopen
  rw [hopen]
  exact ⟨_, rfl, hid, rfl, rfl, hstored⟩

/-- C11, at a concrete input: the test of the session in progress has been
removed, so the automatic `CalculateResult` fails with `ErrUserNotFound` and
stores no result; `SubmitSession` at clock 500 still returns the session as
submitted at 502, and that is the row stored under the token. -/
theorem SubmitSession_commits_whatever_the_result_witness :
    (TestResultService.CalculateResult
        (TestSessionService.SubmitSession exOrphanDB (exClock 500) "tok").2
        (exClock 504) 1).1 = .error Err.ErrUserNotFound ∧
    (TestSessionService.SubmitSession exOrphanDB (exClock 500) "tok").2.test_results = [] ∧
    ∃ s1, (TestSessionService.SubmitSession exOrphanDB (exClock 500) "tok").1 = .ok s1 ∧
      s1.ID = 1 ∧ s1.Status = SessionStatus.submitted ∧ s1.SubmittedAt = some 502 ∧
      TestSessionRepository.GetByToken
        (TestSessionService.SubmitSession exOrphanDB (exClock 500) "tok").2 "tok" = some s1 :=
  ⟨by rfl, by rfl,
   SubmitSession_commits_whatever_the_result exOrphanDB (exClock 500) "tok"
     { exSession 1 SessionStatus.in_progress with TestID := 99 } rfl (by decide)⟩

/-! ## First answer starts the clock -/

theorem not_isExpired_of_le (x : TestSession) (t : Time) (h : t ≤ x.ExpiresAt) :
    ¬ x.IsExpired t = true := by
  simp only [TestSession.IsExpired, decide_eq_true_eq]
  exact not_lt.mpr h

/-- `SubmitAnswer` on a stored session that is `not_started` or `in_progress`
and not expired at the two expiry checks of the call (places 0 and 2) goes on
to `recordAnswer`, with the stored session started. -/
theorem SubmitAnswer_of_open (lowerRune : Char → Char) (db : DB) (clk : Nat → Time)
    (tok : String) (qid : Int) (text : Option String) (opt : Option Int) (x : TestSession)
    (hx : TestSessionRepository.GetByToken db tok = some x)
    (hexp0 : clk 0 ≤ x.ExpiresAt) (hexp2 : clk 2 ≤ x.ExpiresAt)
    (hst : x.Status = SessionStatus.not_started ∨ x.Status = SessionStatus.in_progress) :
    TestSessionService.SubmitAnswer lowerRune db clk tok qid text opt =
      TestSessionService.recordAnswer lowerRune (startedSession db clk x).2 (clk 5, clk 6)
        (startedSession db clk x).1 qid text opt := by
  have hG : TestSessionService.GetSession db clk tok = (.ok x, db) :=
    GetSession_of_kept db clk tok x hx (fun h => not_isExpired_of_le x _ hexp0 h.1)
  apply SubmitAnswer_of_admitted lowerRune db clk tok qid text opt x db hG
  rintro (h | ⟨h1, h2⟩)
  · exact not_isExpired_of_le x _ hexp2 h
  · rcases hst with h | h
    · exact h1 h
    · exact h2 h

/-- C18: let the token resolve to a stored session that is not expired at
the two expiry checks of the call (clock places 0 and 2). When its status is
`not_started`, after `SubmitAnswer` the row stored under the token is that
session with status `in_progress`, `StartedAt` set to the reading `now` of the
call and the update stamp, nothing else changed; when its status is
`in_progress`, `SubmitAnswer` leaves the whole session table, hence status and
`StartedAt`, as it was. -/
theorem SubmitAnswer_starts_the_clock (lowerRune : Char → Char) (db : DB)
    (clk : Nat → Time) (tok : String) (qid : Int) (text : Option String) (opt : Option Int)
    (x : TestSession) (hx : TestSessionRepository.GetByToken db tok = some x)
    (hexp0 : clk 0 ≤ x.ExpiresAt) (hexp2 : clk 2 ≤ x.ExpiresAt) :
    (x.Status = SessionStatus.not_started →
      TestSessionRepository.GetByToken
          (TestSessionService.SubmitAnswer lowerRune db clk tok qid text opt).2 tok =
        some { x with Status := SessionStatus.in_progress, StartedAt := some (clk 3),
                      UpdatedAt := clk 4 }) ∧
    (x.Status = SessionStatus.in_progress →
      (TestSessionService.SubmitAnswer lowerRune db clk tok qid text opt).2.test_sessions =
        db.test_sessions) := by
  constructor
  · intro hns
    rw [SubmitAnswer_of_open lowerRune db clk tok qid text opt x hx hexp0 hexp2 (Or.inl hns)]
    unfold TestSessionRepository.GetByToken
    rw [recordAnswer_sessions]
    simp only [startedSession, hns, if_true]
    exact GetByToken_Update_self db (clk 4) _ x tok hx ⟨rfl, rfl, rfl, rfl, rfl, rfl⟩
  · intro hip
    rw [SubmitAnswer_of_open lowerRune db clk tok qid text opt x hx hexp0 hexp2 (Or.inr hip),
      recordAnswer_sessions]
    have hne : ¬ x.Status = SessionStatus.not_started := by rw [hip]; decide
    simp only [startedSession, hne, if_false]

/-- C18, at a concrete input: a `not_started` session expiring at 1000
receives its first answer at clock 100 and is stored `in_progress` with
`StartedAt = 103`; a second answer at clock 200 leaves the session table as
the first left it. -/
theorem SubmitAnswer_starts_the_clock_witness :
    TestSessionRepository.GetByToken exFirstSubmit.2 "tok" =
      some { exSession 1 SessionStatus.not_started with
              Status := SessionStatus.in_progress, StartedAt := some 103, UpdatedAt := 104 } ∧
    exSecondSubmit.2.test_sessions = exFirstSubmit.2.test_sessions :=
  ⟨(SubmitAnswer_starts_the_clock asciiLower (exDB [exSession 1 SessionStatus.not_started])
      (exClock 100) "tok" 1 none (some 2) (exSession 1 SessionStatus.not_started) rfl
      (by decide) (by decide)).1 rfl,
   (SubmitAnswer_starts_the_clock asciiLower exFirstSubmit.2 (exClock 200) "tok" 1 none
      (some 1)
      { exSession 1 SessionStatus.not_started with
          Status := SessionStatus.in_progress, StartedAt := some 103, UpdatedAt := 104 }
      (by rfl) (by decide) (by decide)).2 rfl⟩

/-! ## Questions of another test are refused -/

theorem recordAnswer_refused (lowerRune : Char → Char) (db : DB) (stamp : Time × Time)
    (session : TestSession) (qid : Int) (text : Option String) (opt : Option Int)
    (h : QuestionRepository.GetByID db qid = none ∨
      ∃ q, QuestionRepository.GetByID db qid = some q ∧ q.TestID ≠ session.TestID) :
    TestSessionService.recordAnswer lowerRune db stamp session qid text opt =
      (.error Err.invalidQuestion, db) := by
  unfold TestSessionService.recordAnswer
  rcases h with h | ⟨q, hq, hne⟩
  · simp only [h]
  · simp only [hq, if_pos hne]

theorem startedSession_testID (db : DB) (clk : Nat → Time) (sg : TestSession) :
    (startedSession db clk sg).1.TestID = sg.TestID := by
  unfold startedSession
  split <;> rfl

/-- C19: when the question id resolves to no question, or to a question whose
test differs from the test of the session stored under the token,
`SubmitAnswer` returns an error and leaves the answers as they were. -/
theorem SubmitAnswer_refuses_foreign_question (lowerRune : Char → Char) (db : DB)
    (clk : Nat → Time) (tok : String) (qid : Int) (text : Option String) (opt : Option Int)
    (h : QuestionRepository.GetByID db qid = none ∨
      ∃ q x, QuestionRepository.GetByID db qid = some q ∧
        TestSessionRepository.GetByToken db tok = some x ∧ q.TestID ≠ x.TestID) :
    (∃ e, (TestSessionService.SubmitAnswer lowerRune db clk tok qid text opt).1 = .error e) ∧
    (TestSessionService.SubmitAnswer lowerRune db clk tok qid text opt).2.user_answers =
      db.user_answers := by
  have hans := GetSession_answers db clk tok
  have hcat := SameCatalog_GetSession db clk tok
  cases hG : TestSessionService.GetSession db clk tok with
  | mk res dbg =>
    rw [hG] at hans hcat
    simp only at hans hcat
    cases res with
    | error e =>
      rw [SubmitAnswer_of_error lowerRune db clk tok qid text opt e dbg hG]
      exact ⟨⟨e, rfl⟩, hans⟩
    | ok sg =>
      by_cases hrej : sg.IsExpired (clk 2) = true ∨
          (sg.Status ≠ SessionStatus.not_started ∧ sg.Status ≠ SessionStatus.in_progress)
      · rw [SubmitAnswer_of_rejected lowerRune db clk tok qid text opt sg dbg hG hrej]
        exact ⟨⟨_, rfl⟩, hans⟩
      · rw [SubmitAnswer_of_admitted lowerRune db clk tok qid text opt sg dbg hG hrej]
        obtain ⟨x, hx, -, -, htid, -⟩ := GetSession_ok db clk tok sg dbg hG
        obtain ⟨hc, hu, -⟩ := SameCatalog_startedSession dbg clk sg
        have hgq := (lookups_congr db _ (sameCatalog_trans hcat hc)).2 qid
        rw [recordAnswer_refused]
        · exact ⟨⟨_, rfl⟩, hu.trans hans⟩
        · rw [hgq, startedSession_testID]
          rcases h with h | ⟨q, x1, hq, hx1, hne⟩
          · exact Or.inl h
          · rw [hx] at hx1
            obtain rfl : x = x1 := Option.some.inj hx1
            exact Or.inr ⟨q, hq, by rw [htid]; exact hne⟩

/-- C19, at a concrete input: on the unexpired session of test 1, an answer
for the unknown question 9 is refused with "invalid question for this test"
and no answer row is stored. -/
theorem SubmitAnswer_refuses_foreign_question_witness :
    (∃ e, (TestSessionService.SubmitAnswer asciiLower
        (exDB [exSession 1 SessionStatus.not_started]) (exClock 100) "tok" 9 none
        (some 1)).1 = .error e) ∧
    (TestSessionService.SubmitAnswer asciiLower
        (exDB [exSession 1 SessionStatus.not_started]) (exClock 100) "tok" 9 none
        (some 1)).2.user_answers = [] :=
  SubmitAnswer_refuses_foreign_question asciiLower
    (exDB [exSession 1 SessionStatus.not_started]) (exClock 100) "tok" 9 none (some 1)
    (Or.inl (by rfl))

/-! ## Progress updates touch the bookmark only -/

theorem eq_of_mem_of_same_id (db : DB) (r x : TestSession) (hU : SessionIDsUnique db)
    (hr : r ∈ db.test_sessions) (hx : x ∈ db.test_sessions) (h : r.ID = x.ID) : r = x :=
  List.inj_on_of_nodup_map hU hr hx h

theorem GetSession_index_frame (db : DB) (clk : Nat → Time) (tok : String)
    (hU : SessionIDsUnique db) :
    (TestSessionService.GetSession db clk tok).2.test_sessions.map
        (fun s => s.CurrentQuestionIndex) =
      db.test_sessions.map (fun s => s.CurrentQuestionIndex) := by
  unfold TestSessionService.GetSession
  split
  · rfl
  · rename_i x hx
    split
    · rw [Update_sessions, List.map_map]
      apply List.map_congr_left
      intro r hr
      simp only [Function.comp]
      by_cases hid : r.ID = x.ID
      · have hrx := eq_of_mem_of_same_id db r x hU hr (List.mem_of_find?_eq_some hx) hid
        rw [if_pos hid, hrx]
        rfl
      · rw [if_neg hid]
    · rfl

theorem UpdateSessionProgress_answers (db : DB) (clk : Nat → Time) (tok : String)
    (idx : Int) :
    (TestSessionService.UpdateSessionProgress db clk tok idx).2.user_answers =
      db.user_answers := by
  have hans := GetSession_answers db clk tok
  cases hG : TestSessionService.GetSession db clk tok with
  | mk res dbg =>
    rw [hG] at hans
    cases res with
    | error e =>
      rw [UpdateSessionProgress_of_error db clk tok idx e dbg hG]
      exact hans
    | ok sg =>
      by_cases hact : sg.IsActive (clk 2) = false
      · rw [UpdateSessionProgress_sessions_of_inactive db clk tok idx sg dbg hG hact]
        exact hans
      · rw [UpdateSessionProgress_of_active db clk tok idx sg dbg hG hact]
        exact hans

/-- C20: in a store with pairwise distinct session ids,
`UpdateSessionProgress` succeeds exactly when `GetSession` resolves the token
to a session that is active (`in_progress` and not expired) at the check of
the call; when it fails, no stored current-question-index has changed; when
it succeeds, the stored session is `in_progress` and the session table is the
old one with, in the row of that session, the new current-question-index and
the update stamp and nothing else changed (status, started-at, submitted-at,
expires-at are as before); in every case the stored answers, with their
marks, are as before. -/
theorem UpdateSessionProgress_changes_bookmark_only (db : DB) (clk : Nat → Time)
    (tok : String) (idx : Int) (hU : SessionIDsUnique db) :
    ((TestSessionService.UpdateSessionProgress db clk tok idx).1 = .ok () ↔
      ∃ sg dbg, TestSessionService.GetSession db clk tok = (.ok sg, dbg) ∧
        sg.IsActive (clk 2) = true) ∧
    ((∃ e, (TestSessionService.UpdateSessionProgress db clk tok idx).1 = .error e) →
      (TestSessionService.UpdateSessionProgress db clk tok idx).2.test_sessions.map
          (fun s => s.CurrentQuestionIndex) =
        db.test_sessions.map (fun s => s.CurrentQuestionIndex)) ∧
    ((TestSessionService.UpdateSessionProgress db clk tok idx).1 = .ok () →
      ∃ x, TestSessionRepository.GetByToken db tok = some x ∧
        x.Status = SessionStatus.in_progress ∧
        (TestSessionService.UpdateSessionProgress db clk tok idx).2.test_sessions =
          db.test_sessions.map (fun r =>
            if r.ID = x.ID then { r with CurrentQuestionIndex := idx, UpdatedAt := clk 3 }
            else r)) ∧
    (TestSessionService.UpdateSessionProgress db clk tok idx).2.user_answers =
      db.user_answers := by
  refine ⟨?_, ?_, ?_, UpdateSessionProgress_answers db clk tok idx⟩
  all_goals
    have hidx := GetSession_index_frame db clk tok hU
    cases hG : TestSessionService.GetSession db clk tok with
    | mk res dbg =>
      rw [hG] at hidx
      simp only at hidx
      cases res with
      | error e =>
        rw [UpdateSessionProgress_of_error db clk tok idx e dbg hG]
        first
          | exact ⟨fun h => by simp at h, fun ⟨_, _, h, _⟩ => by simp at h⟩
          | exact fun _ => hidx
          | exact fun h => by simp at h
      | ok sg =>
        by_cases hact : sg.IsActive (clk 2) = false
        · rw [UpdateSessionProgress_sessions_of_inactive db clk tok idx sg dbg hG hact]
          first
            | exact ⟨fun h => by simp at h, fun ⟨sg1, _, h, h1⟩ => by
                simp only [Prod.mk.injEq, Except.ok.injEq] at h
                rw [← h.1, hact] at h1
                exact absurd h1 (by decide)⟩
            | exact fun _ => hidx
            | exact fun h => by simp at h
        · rw [UpdateSessionProgress_of_active db clk tok idx sg dbg hG hact]
          have hactive : sg.IsActive (clk 2) = true := by simpa using hact
          first
            | exact ⟨fun _ => ⟨sg, dbg, rfl, hactive⟩, fun _ => rfl⟩
            | exact fun ⟨e, h⟩ => by simp at h
            | (intro _
               obtain ⟨x, hx, -, -, -, hcase⟩ := GetSession_ok db clk tok sg dbg hG
               have hip : sg.Status = SessionStatus.in_progress := by
                 simp only [TestSession.IsActive, Bool.and_eq_true, decide_eq_true_eq]
                   at hactive
                 exact hactive.1
               rcases hcase with ⟨hsame, hdb, -⟩ | ⟨-, -, hexpd, -⟩
               · subst hsame
                 subst hdb
                 refine ⟨sg, hx, hip, ?_⟩
                 rw [Update_sessions]
                 apply List.map_congr_left
                 intro r hr
                 by_cases hid : r.ID = sg.ID
                 · have hrx := eq_of_mem_of_same_id dbg r sg hU hr
                     (List.mem_of_find?_eq_some hx) hid
                   simp only [hid, if_true]
                   rw [hrx]
                   rfl
                 · simp only [hid, if_false]
               · rw [hip] at hexpd
                 exact absurd hexpd (by decide))

/-- C20, at a concrete input: session 2 is in progress and expires at 5000;
`UpdateSessionProgress` at clock 2000 with index 1 succeeds, rewrites the
index and the update stamp of that row only, and leaves the answers. -/
theorem UpdateSessionProgress_changes_bookmark_only_witness :
    (TestSessionService.UpdateSessionProgress exTwoDB (exClock 2000) "tok2" 1).1 = .ok () ∧
    (∃ x, TestSessionRepository.GetByToken exTwoDB "tok2" = some x ∧
      x.Status = SessionStatus.in_progress ∧
      (TestSessionService.UpdateSessionProgress exTwoDB (exClock 2000) "tok2" 1).2.test_sessions =
        exTwoDB.test_sessions.map (fun r =>
          if r.ID = x.ID then { r with CurrentQuestionIndex := 1, UpdatedAt := exClock 2000 3 }
          else r)) ∧
    (TestSessionService.UpdateSessionProgress exTwoDB (exClock 2000) "tok2" 1).2.user_answers =
      exTwoDB.user_answers :=
  have h := UpdateSessionProgress_changes_bookmark_only exTwoDB (exClock 2000) "tok2" 1
    (show List.Nodup _ by decide)
  ⟨h.1.mpr ⟨_, _, rfl, rfl⟩, h.2.2.1 (h.1.mpr ⟨_, _, rfl, rfl⟩), h.2.2.2⟩

/-! ## The result created by `CalculateResult` -/

/-- The fields of a result that `CalculateResult` creates for a session
without a stored result, in terms of the session, its test, the questions of
the test and the answers of the session. -/
theorem CalculateResult_created (db : DB) (clk : Nat → Time) (sessionID : Int)
    (r : TestResult) (db1 : DB)
    (hnone : TestResultRepository.GetBySessionID db sessionID = none)
    (h : TestResultService.CalculateResult db clk sessionID = (.ok r, db1)) :
    ∃ session test, TestSessionRepository.GetByID db sessionID = some session ∧
      TestRepository.GetByID db session.TestID = some test ∧
      r.TotalQuestions = (QuestionRepository.GetByTestID db session.TestID).length ∧
      r.AnsweredQuestions = (UserAnswerRepository.GetBySession db sessionID).length ∧
      r.CorrectAnswers =
        (tallyAnswers (0, 0) (UserAnswerRepository.GetBySession db sessionID)).1 ∧
      r.MarksObtained =
        (tallyAnswers (0, 0) (UserAnswerRepository.GetBySession db sessionID)).2 ∧
      r.TotalMarks = test.TotalMarks ∧
      r.Percentage =
        (if test.TotalMarks > 0 then
          f64mul (f64div (f64ofInt r.MarksObtained) (f64ofInt test.TotalMarks)) 100
        else 0) ∧
      r.IsPassed = decide (r.MarksObtained ≥ test.PassingMarks) ∧
      r.TimeTaken =
        (match session.StartedAt, session.SubmittedAt with
          | some startedAt, some submittedAt =>
            some (f64toInt (durationSeconds (timeSub submittedAt startedAt)))
          | _, _ => none) ∧
      r.Grade = some r.CalculateGrade ∧
      db1.test_results = db.test_results ++ [{ r with CompletedAt := clk 0 }] := by
  unfold TestResultService.CalculateResult at h
  rw [hnone] at h
  simp only at h
  split at h
  · simp at h
  · rename_i session hs
    split at h
    · simp at h
    · rename_i test ht
      simp only [Prod.mk.injEq, Except.ok.injEq] at h
      obtain ⟨h1, h2⟩ := h
      rw [ResultCreate_fst] at h1
      rw [ResultCreate_snd] at h2
      subst h1
      subst h2
      exact ⟨session, test, hs, ht, rfl, rfl, rfl, rfl, rfl, rfl, rfl, rfl, rfl, rfl⟩

theorem wrapInt64_of_range (x : Int) (h1 : -(2 ^ 63) ≤ x) (h2 : x < 2 ^ 63) :
    wrapInt64 x = x := by
  unfold wrapInt64
  omega

theorem wrapInt64_range (x : Int) : -(2 ^ 63) ≤ wrapInt64 x ∧ wrapInt64 x < 2 ^ 63 := by
  unfold wrapInt64
  omega

theorem wrapInt64_idem (x : Int) : wrapInt64 (wrapInt64 x) = wrapInt64 x := by
  unfold wrapInt64
  omega

theorem wrapInt64_wrap_add (a b : Int) : wrapInt64 (wrapInt64 a + b) = wrapInt64 (a + b) := by
  unfold wrapInt64
  omega

/-- The loop of `CalculateResult` from a running pair whose marks are a 64-bit
integer: the count of the correct answers is added to the first component, the
second is the sum of the marks wrapped to 64 bits. -/
theorem tallyAnswers_eq (answers : List UserAnswer) (acc : Int × Int)
    (hacc : wrapInt64 acc.2 = acc.2) :
    tallyAnswers acc answers =
      (acc.1 + (answers.countP (fun a => decide (a.IsCorrect = some true)) : Nat),
       wrapInt64 (acc.2 + (answers.map (fun a => a.MarksAwarded)).sum)) := by
  induction answers generalizing acc with
  | nil => simp [tallyAnswers, hacc]
  | cons a rest ih =>
    unfold tallyAnswers
    dsimp only
    rw [ih]
    · simp only [List.countP_cons, List.map_cons, List.sum_cons, wrapInt64_wrap_add]
      by_cases hc : a.IsCorrect = some true
      · simp only [hc, if_true, decide_True]
        refine Prod.ext ?_ ?_
        · simp only
          push_cast
          ring
        · simp only
          rw [add_assoc]
      · simp only [hc, if_false, decide_False]
        refine Prod.ext ?_ ?_
        · simp
        · simp only
          rw [add_assoc]
    · exact wrapInt64_idem _

/-- The loop of `CalculateResult` from `(0, 0)`. -/
theorem tallyAnswers_zero (answers : List UserAnswer) :
    tallyAnswers (0, 0) answers =
      (((answers.countP (fun a => decide (a.IsCorrect = some true)) : Nat) : Int),
       wrapInt64 ((answers.map (fun a => a.MarksAwarded)).sum)) := by
  rw [tallyAnswers_eq answers (0, 0) (by unfold wrapInt64; norm_num)]
  simp

theorem GetBySession_counts (db : DB) (sessionID : Int) :
    (UserAnswerRepository.GetBySession db sessionID).length =
      (db.user_answers.filter (fun a => decide (a.SessionID = sessionID))).length ∧
    (UserAnswerRepository.GetBySession db sessionID).countP
        (fun a => decide (a.IsCorrect = some true)) =
      (db.user_answers.filter (fun a => decide (a.SessionID = sessionID))).countP
        (fun a => decide (a.IsCorrect = some true)) ∧
    ((UserAnswerRepository.GetBySession db sessionID).map (fun a => a.MarksAwarded)).sum =
      ((db.user_answers.filter (fun a => decide (a.SessionID = sessionID))).map
        (fun a => a.MarksAwarded)).sum := by
  unfold UserAnswerRepository.GetBySession
  have hperm := List.perm_insertionSort (fun a b : UserAnswer => a.AnsweredAt ≤ b.AnsweredAt)
    (db.user_answers.filter (fun a => decide (a.SessionID = sessionID)))
  exact ⟨hperm.length_eq, hperm.countP_eq _, (hperm.map _).sum_eq⟩

set_option maxRecDepth 100000 in
/-- C12 as stated fails for marks-obtained: the two questions of the test are
worth `2 ^ 62` marks each and the session has answered both correctly, so that
its two answers carry `2 ^ 62` marks-awarded each. The sum of the
marks-awarded is `2 ^ 63`; the result that `CalculateResult` creates has
marks-obtained `-2 ^ 63`, the sum wrapped around in 64 bits. -/
theorem CalculateResult_marks_wrap :
    exHugeAnswered.user_answers.map (fun a => (a.SessionID, a.IsCorrect, a.MarksAwarded)) =
      [(1, some true, 2 ^ 62), (1, some true, 2 ^ 62)] ∧
    TestResultRepository.GetBySessionID exHugeAnswered 1 = none ∧
    TestResultService.CalculateResult exHugeAnswered (exClock 5000) 1 =
      (.ok exHugeResult,
       (TestResultService.CalculateResult exHugeAnswered (exClock 5000) 1).2) ∧
    ((exHugeAnswered.user_answers.filter (fun a => decide (a.SessionID = 1))).map
      (fun a => a.MarksAwarded)).sum = 2 ^ 63 ∧
    exHugeResult.MarksObtained = -(2 ^ 63) ∧
    exHugeResult.MarksObtained ≠
      ((exHugeAnswered.user_answers.filter (fun a => decide (a.SessionID = 1))).map
        (fun a => a.MarksAwarded)).sum := by
  have hsum : ((exHugeAnswered.user_answers.filter (fun a => decide (a.SessionID = 1))).map
      (fun a => a.MarksAwarded)).sum = 2 ^ 63 := by decide
  refine ⟨by decide, by decide, Prod.ext (by with_unfolding_all rfl) rfl, hsum, by decide, ?_⟩
  rw [hsum]
  decide

/-- C12: the result that `CalculateResult` creates for a session without a
stored result has total-questions equal to the number of question rows of the
session's test, answered-questions equal to the number of answer rows of the
session, correct-answers equal to the number of those rows whose is-correct
is true, and marks-obtained equal to the sum of their marks-awarded wrapped
around to a 64-bit integer, which is the sum itself whenever the sum is a
64-bit integer. -/
theorem CalculateResult_counts (db : DB) (clk : Nat → Time) (sessionID : Int)
    (r : TestResult) (db1 : DB)
    (hnone : TestResultRepository.GetBySessionID db sessionID = none)
    (h : TestResultService.CalculateResult db clk sessionID = (.ok r, db1)) :
    ∃ session, TestSessionRepository.GetByID db sessionID = some session ∧
      r.TotalQuestions =
        (db.questions.filter (fun q => decide (q.TestID = session.TestID))).length ∧
      r.AnsweredQuestions =
        (db.user_answers.filter (fun a => decide (a.SessionID = sessionID))).length ∧
      r.CorrectAnswers =
        (db.user_answers.filter (fun a => decide (a.SessionID = sessionID))).countP
          (fun a => decide (a.IsCorrect = some true)) ∧
      r.MarksObtained =
        wrapInt64 ((db.user_answers.filter (fun a => decide (a.SessionID = sessionID))).map
          (fun a => a.MarksAwarded)).sum ∧
      (-(2 ^ 63) ≤ ((db.user_answers.filter (fun a => decide (a.SessionID = sessionID))).map
          (fun a => a.MarksAwarded)).sum →
        ((db.user_answers.filter (fun a => decide (a.SessionID = sessionID))).map
          (fun a => a.MarksAwarded)).sum < 2 ^ 63 →
        r.MarksObtained =
          ((db.user_answers.filter (fun a => decide (a.SessionID = sessionID))).map
            (fun a => a.MarksAwarded)).sum) := by
  obtain ⟨session, test, hs, -, hq, ha, hc, hm, -⟩ :=
    CalculateResult_created db clk sessionID r db1 hnone h
  obtain ⟨hlen, hcount, hsum⟩ := GetBySession_counts db sessionID
  have hmarks : r.MarksObtained =
      wrapInt64 ((db.user_answers.filter (fun a => decide (a.SessionID = sessionID))).map
        (fun a => a.MarksAwarded)).sum := by
    rw [hm, tallyAnswers_zero, hsum]
  refine ⟨session, hs, ?_, ?_, ?_, hmarks, fun h1 h2 => ?_⟩
  · rw [hq]
    unfold QuestionRepository.GetByTestID
    rw [List.length_insertionSort]
  · rw [ha, hlen]
  · rw [hc, tallyAnswers_zero, hcount]
  · rw [hmarks]
    exact wrapInt64_of_range _ h1 h2

set_option maxRecDepth 100000 in
/-- C12, at a concrete input: the test has two questions and the submitted
session one answer, correct, with fifty marks; the result created counts two
questions, one answer, one correct answer and fifty marks. -/
theorem CalculateResult_counts_witness :
    ∃ session, TestSessionRepository.GetByID (exPassDB 50) 1 = some session ∧
      exPassResult.TotalQuestions =
        ((exPassDB 50).questions.filter (fun q => decide (q.TestID = session.TestID))).length ∧
      exPassResult.AnsweredQuestions =
        ((exPassDB 50).user_answers.filter (fun a => decide (a.SessionID = 1))).length ∧
      exPassResult.CorrectAnswers =
        ((exPassDB 50).user_answers.filter (fun a => decide (a.SessionID = 1))).countP
          (fun a => decide (a.IsCorrect = some true)) ∧
      exPassResult.MarksObtained =
        (((exPassDB 50).user_answers.filter (fun a => decide (a.SessionID = 1))).map
          (fun a => a.MarksAwarded)).sum :=
  have h := CalculateResult_counts (exPassDB 50) (exClock 5000) 1 exPassResult
    (TestResultService.CalculateResult (exPassDB 50) (exClock 5000) 1).2 rfl
    (Prod.ext (by with_unfolding_all rfl) rfl)
  h.elim fun session hs =>
    ⟨session, hs.1, hs.2.1, hs.2.2.1, hs.2.2.2.1,
      hs.2.2.2.2.2 (by decide) (by decide)⟩

/-- C14: the result that `CalculateResult` creates for a session without a
stored result is flagged passed exactly when its marks-obtained are greater
than or equal to the passing-marks of the session's test; the percentage does
not enter. -/
theorem CalculateResult_passed_iff (db : DB) (clk : Nat → Time) (sessionID : Int)
    (r : TestResult) (db1 : DB)
    (hnone : TestResultRepository.GetBySessionID db sessionID = none)
    (h : TestResultService.CalculateResult db clk sessionID = (.ok r, db1)) :
    ∃ session test, TestSessionRepository.GetByID db sessionID = some session ∧
      TestRepository.GetByID db session.TestID = some test ∧
      (r.IsPassed = true ↔ r.MarksObtained ≥ test.PassingMarks) := by
  obtain ⟨session, test, hs, ht, -, -, -, -, -, -, hp, -⟩ :=
    CalculateResult_created db clk sessionID r db1 hnone h
  refine ⟨session, test, hs, ht, ?_⟩
  rw [hp]
  simp

set_option maxRecDepth 100000 in
/-- C14, at a concrete input: with total-marks 100 and passing-marks 50, the
result created for fifty marks is flagged passed, the one for forty-nine is
not. -/
theorem CalculateResult_passed_iff_witness :
    (∃ session test, TestSessionRepository.GetByID (exPassDB 50) 1 = some session ∧
      TestRepository.GetByID (exPassDB 50) session.TestID = some test ∧
      (exPassResult.IsPassed = true ↔ exPassResult.MarksObtained ≥ test.PassingMarks)) ∧
    (∃ session test, TestSessionRepository.GetByID (exPassDB 49) 1 = some session ∧
      TestRepository.GetByID (exPassDB 49) session.TestID = some test ∧
      (exFailResult.IsPassed = true ↔ exFailResult.MarksObtained ≥ test.PassingMarks)) ∧
    exPassResult.IsPassed = true ∧ exFailResult.IsPassed = false :=
  ⟨CalculateResult_passed_iff (exPassDB 50) (exClock 5000) 1 exPassResult
      (TestResultService.CalculateResult (exPassDB 50) (exClock 5000) 1).2 rfl
      (Prod.ext (by with_unfolding_all rfl) rfl),
   CalculateResult_passed_iff (exPassDB 49) (exClock 5000) 1 exFailResult
      (TestResultService.CalculateResult (exPassDB 49) (exClock 5000) 1).2 rfl
      (Prod.ext (by with_unfolding_all rfl) rfl),
   rfl, rfl⟩

/-! ## Grades -/

theorem CalculateGrade_iff (r : TestResult) :
    (r.CalculateGrade = "A+" ↔ 90 ≤ r.Percentage) ∧
    (r.CalculateGrade = "A" ↔ 80 ≤ r.Percentage ∧ r.Percentage < 90) ∧
    (r.CalculateGrade = "B+" ↔ 70 ≤ r.Percentage ∧ r.Percentage < 80) ∧
    (r.CalculateGrade = "B" ↔ 60 ≤ r.Percentage ∧ r.Percentage < 70) ∧
    (r.CalculateGrade = "C" ↔ 50 ≤ r.Percentage ∧ r.Percentage < 60) ∧
    (r.CalculateGrade = "D" ↔ 40 ≤ r.Percentage ∧ r.Percentage < 50) ∧
    (r.CalculateGrade = "F" ↔ r.Percentage < 40) := by
  unfold TestResult.CalculateGrade
  simp only [ge_iff_le]
  split_ifs with h1 h2 h3 h4 h5 h6 <;>
    refine ⟨?_, ?_, ?_, ?_, ?_, ?_, ?_⟩ <;>
    constructor <;> intro h <;>
    first
      | exact absurd h (by decide)
      | rfl
      | linarith
      | exact ⟨by linarith, by linarith⟩

/-- The `float64` nearest to the decimal 89.99. -/
theorem f64round_89_99 : f64round (8999 / 100) = 6332483288547983 / 70368744177664 := by
  with_unfolding_all rfl

/-- The `float64` nearest to the decimal 39.99. -/
theorem f64round_39_99 : f64round (3999 / 100) = 5628092159329567 / 140737488355328 := by
  with_unfolding_all rfl

/-- C15: `CalculateGrade` maps the percentage `p` of a result to a letter by
inclusive lower bounds: `A+` exactly when `p ≥ 90`, `A` exactly when
`80 ≤ p < 90`, `B+` exactly when `70 ≤ p < 80`, `B` exactly when
`60 ≤ p < 70`, `C` exactly when `50 ≤ p < 60`, `D` exactly when `40 ≤ p < 50`
and `F` exactly when `p < 40`; in particular 90 gives `A+`, the `float64` of
89.99 gives `A`, 40 gives `D`, the `float64` of 39.99 gives `F`, 0 gives `F`
and 100 gives `A+`. -/
theorem CalculateGrade_inclusive_lower_bounds (r : TestResult) :
    ((r.CalculateGrade = "A+" ↔ 90 ≤ r.Percentage) ∧
     (r.CalculateGrade = "A" ↔ 80 ≤ r.Percentage ∧ r.Percentage < 90) ∧
     (r.CalculateGrade = "B+" ↔ 70 ≤ r.Percentage ∧ r.Percentage < 80) ∧
     (r.CalculateGrade = "B" ↔ 60 ≤ r.Percentage ∧ r.Percentage < 70) ∧
     (r.CalculateGrade = "C" ↔ 50 ≤ r.Percentage ∧ r.Percentage < 60) ∧
     (r.CalculateGrade = "D" ↔ 40 ≤ r.Percentage ∧ r.Percentage < 50) ∧
     (r.CalculateGrade = "F" ↔ r.Percentage < 40)) ∧
    TestResult.CalculateGrade { r with Percentage := 90 } = "A+" ∧
    TestResult.CalculateGrade { r with Percentage := f64round (8999 / 100) } = "A" ∧
    TestResult.CalculateGrade { r with Percentage := 40 } = "D" ∧
    TestResult.CalculateGrade { r with Percentage := f64round (3999 / 100) } = "F" ∧
    TestResult.CalculateGrade { r with Percentage := 0 } = "F" ∧
    TestResult.CalculateGrade { r with Percentage := 100 } = "A+" := by
  refine ⟨CalculateGrade_iff r, ?_, ?_, ?_, ?_, ?_, ?_⟩
  · exact (CalculateGrade_iff _).1.mpr (by norm_num)
  · exact (CalculateGrade_iff _).2.1.mpr (by
      simp only [f64round_89_99]
      constructor <;> norm_num)
  · exact (CalculateGrade_iff _).2.2.2.2.2.1.mpr (by constructor <;> norm_num)
  · exact (CalculateGrade_iff _).2.2.2.2.2.2.mpr (by
      simp only [f64round_39_99]
      norm_num)
  · exact (CalculateGrade_iff _).2.2.2.2.2.2.mpr (by norm_num)
  · exact (CalculateGrade_iff _).1.mpr (by norm_num)

/-! ## Floating point: lemmas -/

theorem bitLenAux_zero (fuel : Nat) : bitLenAux fuel 0 = 0 := by
  cases fuel <;> simp [bitLenAux]

theorem bitLenAux_spec (fuel : Nat) :
    ∀ n, n ≤ fuel → 0 < n → n < 2 ^ bitLenAux fuel n ∧ 2 ^ bitLenAux fuel n ≤ 2 * n := by
  induction fuel with
  | zero =>
    intro n h1 h2
    omega
  | succ fuel ih =>
    intro n h1 h2
    have hn : n ≠ 0 := by omega
    simp only [bitLenAux, hn, if_false]
    by_cases hm : n / 2 = 0
    · rw [hm, bitLenAux_zero]
      have : n = 1 := by omega
      subst this
      simp
    · obtain ⟨ha, hb⟩ := ih (n / 2) (by omega) (by omega)
      rw [pow_succ]
      generalize 2 ^ bitLenAux fuel (n / 2) = p at ha hb
      omega

theorem bitLen_spec (n : Nat) (h : 0 < n) : n < 2 ^ bitLen n ∧ 2 ^ bitLen n ≤ 2 * n :=
  bitLenAux_spec n n (le_refl n) h

theorem pow2_eq_zpow (e : Int) : pow2 e = (2 : ℚ) ^ e := by
  unfold pow2
  split
  · rename_i h
    have he : e = ((e.toNat : Nat) : Int) := (Int.toNat_of_nonneg h).symm
    conv_rhs => rw [he]
    rw [zpow_natCast]
    push_cast
    rfl
  · rename_i h
    have hneg : 0 ≤ -e := by omega
    have he : e = -(((-e).toNat : Nat) : Int) := by
      rw [Int.toNat_of_nonneg hneg]
      ring
    conv_rhs => rw [he]
    rw [zpow_neg, zpow_natCast]
    push_cast
    rw [one_div]

theorem pow2_pos (e : Int) : 0 < pow2 e := by
  rw [pow2_eq_zpow]
  positivity

theorem pow2_add (a b : Int) : pow2 (a + b) = pow2 a * pow2 b := by
  simp only [pow2_eq_zpow]
  exact zpow_add₀ (by norm_num) a b

theorem pow2_le_iff (a b : Int) : pow2 a ≤ pow2 b ↔ a ≤ b := by
  simp only [pow2_eq_zpow]
  exact zpow_le_zpow_iff_right₀ (by norm_num)

theorem pow2_lt_iff (a b : Int) : pow2 a < pow2 b ↔ a < b := by
  simp only [pow2_eq_zpow]
  exact zpow_lt_zpow_iff_right₀ (by norm_num)

theorem pow2_natCast (n : Nat) : pow2 (n : Int) = (2 : ℚ) ^ n := by
  rw [pow2_eq_zpow, zpow_natCast]

theorem floorLog2_spec (q : ℚ) (hq : 0 < q) :
    pow2 (floorLog2 q) ≤ q ∧ q < pow2 (floorLog2 q + 1) := by
  have hnum : 0 < q.num := Rat.num_pos.mpr hq
  have hn0 : 0 < q.num.natAbs := Int.natAbs_pos.mpr (ne_of_gt hnum)
  obtain ⟨ha1, ha2⟩ := bitLen_spec q.num.natAbs hn0
  obtain ⟨hb1, hb2⟩ := bitLen_spec q.den q.den_pos
  have hcast : ((q.num.natAbs : Nat) : ℚ) = (q.num : ℚ) := by
    rw [Nat.cast_natAbs, abs_of_pos hnum]
  have hqeq : q = ((q.num.natAbs : Nat) : ℚ) / ((q.den : Nat) : ℚ) := by
    rw [hcast]
    exact (Rat.num_div_den q).symm
  have hx : (0 : ℚ) < ((q.num.natAbs : Nat) : ℚ) := by exact_mod_cast hn0
  have hy : (0 : ℚ) < ((q.den : Nat) : ℚ) := by exact_mod_cast q.den_pos
  have hxA : ((q.num.natAbs : Nat) : ℚ) < (2 : ℚ) ^ bitLen q.num.natAbs := by exact_mod_cast ha1
  have hAx : (2 : ℚ) ^ bitLen q.num.natAbs ≤ 2 * ((q.num.natAbs : Nat) : ℚ) := by
    exact_mod_cast ha2
  have hyB : ((q.den : Nat) : ℚ) < (2 : ℚ) ^ bitLen q.den := by exact_mod_cast hb1
  have hBy : (2 : ℚ) ^ bitLen q.den ≤ 2 * ((q.den : Nat) : ℚ) := by exact_mod_cast hb2
  have hB : (0 : ℚ) < (2 : ℚ) ^ bitLen q.den := by positivity
  have hA : (0 : ℚ) < (2 : ℚ) ^ bitLen q.num.natAbs := by positivity
  have hsub : pow2 ((bitLen q.num.natAbs : Int) - (bitLen q.den : Int)) =
      (2 : ℚ) ^ bitLen q.num.natAbs / (2 : ℚ) ^ bitLen q.den := by
    rw [pow2_eq_zpow, zpow_sub₀ (by norm_num), zpow_natCast, zpow_natCast]
  have key1 : ((q.num.natAbs : Nat) : ℚ) / ((q.den : Nat) : ℚ) <
      (2 : ℚ) ^ bitLen q.num.natAbs / (2 : ℚ) ^ bitLen q.den * 2 := by
    rw [div_lt_iff₀ hy]
    calc ((q.num.natAbs : Nat) : ℚ) < (2 : ℚ) ^ bitLen q.num.natAbs := hxA
      _ = (2 : ℚ) ^ bitLen q.num.natAbs / (2 : ℚ) ^ bitLen q.den * (2 : ℚ) ^ bitLen q.den := by
          field_simp
      _ ≤ (2 : ℚ) ^ bitLen q.num.natAbs / (2 : ℚ) ^ bitLen q.den *
            (2 * ((q.den : Nat) : ℚ)) := by
          apply mul_le_mul_of_nonneg_left hBy
          positivity
      _ = (2 : ℚ) ^ bitLen q.num.natAbs / (2 : ℚ) ^ bitLen q.den * 2 *
            ((q.den : Nat) : ℚ) := by ring
  have key2 : (2 : ℚ) ^ bitLen q.num.natAbs / (2 : ℚ) ^ bitLen q.den * (1 / 2) ≤
      ((q.num.natAbs : Nat) : ℚ) / ((q.den : Nat) : ℚ) := by
    rw [le_div_iff₀ hy]
    calc (2 : ℚ) ^ bitLen q.num.natAbs / (2 : ℚ) ^ bitLen q.den * (1 / 2) *
            ((q.den : Nat) : ℚ)
        ≤ (2 : ℚ) ^ bitLen q.num.natAbs / (2 : ℚ) ^ bitLen q.den * (1 / 2) *
            (2 : ℚ) ^ bitLen q.den := by
          apply mul_le_mul_of_nonneg_left (le_of_lt hyB)
          positivity
      _ = (2 : ℚ) ^ bitLen q.num.natAbs / 2 := by
          field_simp
          ring
      _ ≤ ((q.num.natAbs : Nat) : ℚ) := by linarith
  unfold floorLog2
  simp only
  split_ifs with h
  · refine ⟨h, ?_⟩
    have h1 : pow2 1 = 2 := by rw [pow2_eq_zpow]; norm_num
    rw [pow2_add, hsub, h1]
    exact lt_of_eq_of_lt hqeq key1
  · constructor
    · have hsplit : (bitLen q.num.natAbs : Int) - (bitLen q.den : Int) - 1 =
          ((bitLen q.num.natAbs : Int) - (bitLen q.den : Int)) + (-1) := by ring
      have h1 : pow2 (-1) = 1 / 2 := by rw [pow2_eq_zpow]; norm_num
      rw [hsplit, pow2_add, hsub, h1]
      exact le_of_le_of_eq key2 hqeq.symm
    · rw [sub_add_cancel]
      exact lt_of_not_le h

theorem roundHalfEven_err (x : ℚ) : |((roundHalfEven x : Int) : ℚ) - x| ≤ 1 / 2 := by
  have hfl : Rat.floor x = ⌊x⌋ := rfl
  have h1 : ((⌊x⌋ : Int) : ℚ) ≤ x := Int.floor_le x
  have h2 : x < ((⌊x⌋ : Int) : ℚ) + 1 := Int.lt_floor_add_one x
  unfold roundHalfEven
  simp only [hfl]
  rw [abs_le]
  split_ifs with ha hb hc
  · constructor <;> linarith
  · push_cast
    constructor <;> linarith
  · constructor <;> linarith
  · push_cast
    constructor <;> linarith

theorem roundHalfEven_ge_floor (x : ℚ) : ⌊x⌋ ≤ roundHalfEven x := by
  have hfl : Rat.floor x = ⌊x⌋ := rfl
  unfold roundHalfEven
  simp only [hfl]
  split_ifs <;> omega

theorem roundHalfEven_intCast (k : Int) : roundHalfEven (k : ℚ) = k := by
  have hfl : Rat.floor (k : ℚ) = ⌊(k : ℚ)⌋ := rfl
  unfold roundHalfEven
  simp only [hfl, Int.floor_intCast, sub_self]
  norm_num

theorem f64round_zero : f64round 0 = 0 := by
  simp [f64round]

theorem f64round_eq (q : ℚ) (hq : q ≠ 0) :
    f64round q =
      ((roundHalfEven (q / pow2 (floorLog2 |q| - 52)) : Int) : ℚ) *
        pow2 (floorLog2 |q| - 52) := by
  simp only [f64round, hq, if_false]

/-- The rounding error is at most half a unit in the last place. -/
theorem f64round_abs_err (q : ℚ) (hq : q ≠ 0) :
    |f64round q - q| ≤ pow2 (floorLog2 |q| - 53) := by
  rw [f64round_eq q hq]
  have hP := pow2_pos (floorLog2 |q| - 52)
  have herr := roundHalfEven_err (q / pow2 (floorLog2 |q| - 52))
  have hsplit : floorLog2 |q| - 53 = (floorLog2 |q| - 52) + (-1) := by ring
  have h1 : pow2 (-1) = 1 / 2 := by rw [pow2_eq_zpow]; norm_num
  rw [hsplit, pow2_add, h1]
  have hfac : ((roundHalfEven (q / pow2 (floorLog2 |q| - 52)) : Int) : ℚ) *
      pow2 (floorLog2 |q| - 52) - q =
      (((roundHalfEven (q / pow2 (floorLog2 |q| - 52)) : Int) : ℚ) -
        q / pow2 (floorLog2 |q| - 52)) * pow2 (floorLog2 |q| - 52) := by
    field_simp
  rw [hfac, abs_mul, abs_of_pos hP]
  calc |((roundHalfEven (q / pow2 (floorLog2 |q| - 52)) : Int) : ℚ) -
          q / pow2 (floorLog2 |q| - 52)| * pow2 (floorLog2 |q| - 52)
      ≤ 1 / 2 * pow2 (floorLog2 |q| - 52) :=
        mul_le_mul_of_nonneg_right herr (le_of_lt hP)
    _ = pow2 (floorLog2 |q| - 52) * (1 / 2) := by ring

/-- The relative rounding error is at most `2 ^ (-53)`. -/
theorem f64round_rel_err (q : ℚ) : |f64round q - q| ≤ |q| / 2 ^ 53 := by
  by_cases hq : q = 0
  · subst hq
    simp [f64round_zero]
  · have habs : 0 < |q| := abs_pos.mpr hq
    have h1 := f64round_abs_err q hq
    have h2 := (floorLog2_spec |q| habs).1
    have hsplit : floorLog2 |q| - 53 = floorLog2 |q| + (-53) := by ring
    have h53 : pow2 (-53) = 1 / 2 ^ 53 := by rw [pow2_eq_zpow]; norm_num
    rw [hsplit, pow2_add, h53] at h1
    calc |f64round q - q| ≤ pow2 (floorLog2 |q|) * (1 / 2 ^ 53) := h1
      _ ≤ |q| * (1 / 2 ^ 53) := mul_le_mul_of_nonneg_right h2 (by positivity)
      _ = |q| / 2 ^ 53 := by ring

theorem f64round_pos (q : ℚ) (hq : 0 < q) : 0 < f64round q := by
  have h := f64round_rel_err q
  rw [abs_of_pos hq] at h
  have h1 := (abs_le.mp h).1
  have h2 : q / 2 ^ 53 < q := by
    rw [div_lt_iff₀ (by positivity)]
    nlinarith
  linarith

theorem f64round_mul_form (q : ℚ) : ∃ δ : ℚ, |δ| ≤ 1 / 2 ^ 53 ∧ f64round q = q * (1 + δ) := by
  by_cases hq : q = 0
  · subst hq
    exact ⟨0, by simp, by simp [f64round_zero]⟩
  · refine ⟨(f64round q - q) / q, ?_, by field_simp⟩
    rw [abs_div, div_le_iff₀ (abs_pos.mpr hq)]
    have := f64round_rel_err q
    calc |f64round q - q| ≤ |q| / 2 ^ 53 := this
      _ = 1 / 2 ^ 53 * |q| := by ring

theorem floorLog2_lt (q : ℚ) (hq : 0 < q) (n : Int) (h : q < pow2 n) : floorLog2 q < n := by
  have h1 := (floorLog2_spec q hq).1
  exact (pow2_lt_iff _ _).mp (lt_of_le_of_lt h1 h)

/-- Division by a power of two with a non-positive exponent is multiplication
by a natural power of two. -/
theorem div_pow2_of_nonpos (q : ℚ) (e : Int) (he : e ≤ 0) :
    q / pow2 e = q * (2 : ℚ) ^ (-e).toNat := by
  have hm : -e = (((-e).toNat : Nat) : Int) := (Int.toNat_of_nonneg (by omega)).symm
  have h1 : pow2 e * pow2 (-e) = 1 := by
    rw [← pow2_add]
    simp [pow2_eq_zpow]
  have h2 : pow2 (-e) = (2 : ℚ) ^ (-e).toNat := by
    conv_lhs => rw [hm]
    exact pow2_natCast _
  have hP := pow2_pos e
  rw [← h2]
  field_simp
  rw [mul_assoc, mul_comm (pow2 (-e)), h1, mul_one]

/-- A value below `2 ^ 53` rounds to no less than any integer below it. -/
theorem f64round_ge_int (k : Int) (y : ℚ) (hk : (k : ℚ) ≤ y) (hy0 : 0 < y)
    (hy : y < 2 ^ 53) : (k : ℚ) ≤ f64round y := by
  have hne : y ≠ 0 := ne_of_gt hy0
  rw [f64round_eq y hne, abs_of_pos hy0]
  have h53 : pow2 53 = 2 ^ 53 := by rw [pow2_eq_zpow]; norm_num
  have hfl : floorLog2 y < 53 := floorLog2_lt y hy0 53 (by rw [h53]; exact hy)
  have he : floorLog2 y - 52 ≤ 0 := by omega
  have hP := pow2_pos (floorLog2 y - 52)
  have hK : ((k * 2 ^ (-(floorLog2 y - 52)).toNat : Int) : ℚ) ≤ y / pow2 (floorLog2 y - 52) := by
    rw [div_pow2_of_nonpos y _ he]
    push_cast
    exact mul_le_mul_of_nonneg_right hk (by positivity)
  have hfloor : k * 2 ^ (-(floorLog2 y - 52)).toNat ≤ ⌊y / pow2 (floorLog2 y - 52)⌋ :=
    Int.le_floor.mpr hK
  have hr := roundHalfEven_ge_floor (y / pow2 (floorLog2 y - 52))
  have hle : ((k * 2 ^ (-(floorLog2 y - 52)).toNat : Int) : ℚ) ≤
      ((roundHalfEven (y / pow2 (floorLog2 y - 52)) : Int) : ℚ) := by
    exact_mod_cast le_trans hfloor hr
  have hkP : (k : ℚ) = ((k * 2 ^ (-(floorLog2 y - 52)).toNat : Int) : ℚ) *
      pow2 (floorLog2 y - 52) := by
    push_cast
    have := div_pow2_of_nonpos (k : ℚ) _ he
    rw [← this]
    field_simp
  rw [hkP]
  exact mul_le_mul_of_nonneg_right hle (le_of_lt hP)

/-- Integers of magnitude below `2 ^ 53` are `float64` values. -/
theorem f64round_intCast (n : Int) (h : |n| < 2 ^ 53) : f64round (n : ℚ) = n := by
  by_cases hn : n = 0
  · subst hn
    simp [f64round_zero]
  · have hne : (n : ℚ) ≠ 0 := by exact_mod_cast hn
    have habs : (0 : ℚ) < |(n : ℚ)| := abs_pos.mpr hne
    have hlt : |(n : ℚ)| < 2 ^ 53 := by exact_mod_cast h
    have h53 : pow2 53 = 2 ^ 53 := by rw [pow2_eq_zpow]; norm_num
    have hfl : floorLog2 |(n : ℚ)| < 53 :=
      floorLog2_lt _ habs 53 (by rw [h53]; exact hlt)
    have he : floorLog2 |(n : ℚ)| - 52 ≤ 0 := by omega
    rw [f64round_eq _ hne]
    have hint : (n : ℚ) / pow2 (floorLog2 |(n : ℚ)| - 52) =
        ((n * 2 ^ (-(floorLog2 |(n : ℚ)| - 52)).toNat : Int) : ℚ) := by
      rw [div_pow2_of_nonpos _ _ he]
      push_cast
      rfl
    rw [hint, roundHalfEven_intCast, ← hint]
    have hP := pow2_pos (floorLog2 |(n : ℚ)| - 52)
    field_simp

theorem chain_rel_err (d1 d2 d3 d4 : ℚ) (h1 : |d1| ≤ 1 / 2 ^ 53) (h2 : |d2| ≤ 1 / 2 ^ 53)
    (h3 : |d3| ≤ 1 / 2 ^ 53) (h4 : |d4| ≤ 1 / 2 ^ 53) :
    |(1 + d1) / (1 + d2) * (1 + d3) * (1 + d4) - 1| ≤ 1 / 2 ^ 50 := by
  rw [abs_le] at h1 h2 h3 h4
  obtain ⟨a1, b1⟩ := h1
  obtain ⟨a2, b2⟩ := h2
  obtain ⟨a3, b3⟩ := h3
  obtain ⟨a4, b4⟩ := h4
  have hu : (0 : ℚ) ≤ 1 - 1 / 2 ^ 53 := by norm_num
  have hD : (0 : ℚ) < 1 + d2 := by linarith
  have x1 : (0 : ℚ) ≤ 1 + d1 := by linarith
  have x3 : (0 : ℚ) ≤ 1 + d3 := by linarith
  have x4 : (0 : ℚ) ≤ 1 + d4 := by linarith
  have up13 : (1 + d1) * (1 + d3) ≤ (1 + 1 / 2 ^ 53) * (1 + 1 / 2 ^ 53) :=
    mul_le_mul (by linarith) (by linarith) x3 (by norm_num)
  have lo13 : (1 - 1 / 2 ^ 53) * (1 - 1 / 2 ^ 53) ≤ (1 + d1) * (1 + d3) :=
    mul_le_mul (by linarith) (by linarith) hu x1
  have up : (1 + d1) * (1 + d3) * (1 + d4) ≤
      (1 + 1 / 2 ^ 53) * (1 + 1 / 2 ^ 53) * (1 + 1 / 2 ^ 53) :=
    mul_le_mul up13 (by linarith) x4 (by norm_num)
  have lo : (1 - 1 / 2 ^ 53) * (1 - 1 / 2 ^ 53) * (1 - 1 / 2 ^ 53) ≤
      (1 + d1) * (1 + d3) * (1 + d4) :=
    mul_le_mul lo13 (by linarith) hu (mul_nonneg x1 x3)
  have e : (1 + d1) / (1 + d2) * (1 + d3) * (1 + d4) - 1 =
      ((1 + d1) * (1 + d3) * (1 + d4) - (1 + d2)) / (1 + d2) := by
    field_simp
  rw [e, abs_le]
  constructor
  · rw [le_div_iff₀ hD]
    have n1 : (-(1 / 2 ^ 50) : ℚ) * (1 + d2) ≤ -(1 / 2 ^ 50) * (1 - 1 / 2 ^ 53) := by
      have : (0 : ℚ) ≤ 1 / 2 ^ 50 := by norm_num
      nlinarith
    have n2 : (-(1 / 2 ^ 50) : ℚ) * (1 - 1 / 2 ^ 53) ≤
        (1 - 1 / 2 ^ 53) * (1 - 1 / 2 ^ 53) * (1 - 1 / 2 ^ 53) - (1 + 1 / 2 ^ 53) := by
      norm_num
    linarith
  · rw [div_le_iff₀ hD]
    have n1 : (1 / 2 ^ 50 : ℚ) * (1 - 1 / 2 ^ 53) ≤ 1 / 2 ^ 50 * (1 + d2) := by
      have : (0 : ℚ) ≤ 1 / 2 ^ 50 := by norm_num
      nlinarith
    have n2 : (1 + 1 / 2 ^ 53) * (1 + 1 / 2 ^ 53) * (1 + 1 / 2 ^ 53) - (1 - 1 / 2 ^ 53) ≤
        (1 / 2 ^ 50 : ℚ) * (1 - 1 / 2 ^ 53) := by
      norm_num
    linarith

/-- The float percentage `float64(m) / float64(t) * 100`. -/
theorem percentage_rel_err (m t : Int) (ht : t ≠ 0) :
    |f64mul (f64div (f64ofInt m) (f64ofInt t)) 100 - 100 * (m : ℚ) / (t : ℚ)| ≤
      |100 * (m : ℚ) / (t : ℚ)| / 2 ^ 50 := by
  obtain ⟨d1, h1, e1⟩ := f64round_mul_form (m : ℚ)
  obtain ⟨d2, h2, e2⟩ := f64round_mul_form (t : ℚ)
  obtain ⟨d3, h3, e3⟩ := f64round_mul_form (f64ofInt m / f64ofInt t)
  obtain ⟨d4, h4, e4⟩ := f64round_mul_form (f64div (f64ofInt m) (f64ofInt t) * 100)
  have hc := chain_rel_err d1 d2 d3 d4 h1 h2 h3 h4
  have htq : (t : ℚ) ≠ 0 := by exact_mod_cast ht
  have hD : (1 + d2) ≠ 0 := by
    rw [abs_le] at h2
    have : (0 : ℚ) < 1 + d2 := by
      have : (-(1 / 2 ^ 53) : ℚ) > -1 := by norm_num
      linarith [h2.1]
    exact ne_of_gt this
  have hp : f64mul (f64div (f64ofInt m) (f64ofInt t)) 100 =
      100 * (m : ℚ) / (t : ℚ) * ((1 + d1) / (1 + d2) * (1 + d3) * (1 + d4)) := by
    unfold f64mul
    rw [e4]
    unfold f64div
    rw [e3]
    unfold f64ofInt
    rw [e1, e2]
    field_simp
    ring
  rw [hp]
  have : 100 * (m : ℚ) / (t : ℚ) * ((1 + d1) / (1 + d2) * (1 + d3) * (1 + d4)) -
      100 * (m : ℚ) / (t : ℚ) =
      100 * (m : ℚ) / (t : ℚ) * ((1 + d1) / (1 + d2) * (1 + d3) * (1 + d4) - 1) := by ring
  rw [this, abs_mul]
  have hm := mul_le_mul_of_nonneg_left hc (abs_nonneg (100 * (m : ℚ) / (t : ℚ)))
  calc |100 * (m : ℚ) / (t : ℚ)| * |(1 + d1) / (1 + d2) * (1 + d3) * (1 + d4) - 1|
      ≤ |100 * (m : ℚ) / (t : ℚ)| * (1 / 2 ^ 50) := hm
    _ = |100 * (m : ℚ) / (t : ℚ)| / 2 ^ 50 := by ring

theorem f64ofInt_pos (t : Int) (ht : 0 < t) : 0 < f64ofInt t :=
  f64round_pos _ (by exact_mod_cast ht)

theorem percentage_full (t : Int) (ht : 0 < t) :
    f64mul (f64div (f64ofInt t) (f64ofInt t)) 100 = 100 := by
  have hp := f64ofInt_pos t ht
  have h1 : f64round 1 = 1 := by
    have := f64round_intCast 1 (by norm_num)
    simpa using this
  have h100 : f64round 100 = 100 := by
    have := f64round_intCast 100 (by norm_num)
    simpa using this
  unfold f64mul f64div
  rw [div_self (ne_of_gt hp), h1, one_mul, h100]

/-! ## Percentage -/

set_option maxRecDepth 100000 in
/-- C13, counterexample: the percentage is not the exact rational of the
claim. With 57 marks of 100 the result created has percentage
`8022036836253695 / 2 ^ 47` (the float `56.99999999999999`), not 57; and with
total-marks -100, which is not 0, and 50 marks the result has percentage 0,
not -50. -/
theorem CalculateResult_percentage_not_exact :
    TestResultService.CalculateResult (exPassDB 57) (exClock 5000) 1 =
      (.ok exRoundResult, (TestResultService.CalculateResult (exPassDB 57) (exClock 5000) 1).2) ∧
    exRoundResult.Percentage ≠
      specPercentage exRoundResult.MarksObtained exRoundResult.TotalMarks ∧
    specPercentage exRoundResult.MarksObtained exRoundResult.TotalMarks = 57 ∧
    TestResultService.CalculateResult exNegDB (exClock 5000) 1 =
      (.ok exNegResult, (TestResultService.CalculateResult exNegDB (exClock 5000) 1).2) ∧
    exNegResult.TotalMarks ≠ 0 ∧
    exNegResult.Percentage ≠
      specPercentage exNegResult.MarksObtained exNegResult.TotalMarks := by
  refine ⟨Prod.ext (by with_unfolding_all rfl) rfl, ?_, ?_,
    Prod.ext (by with_unfolding_all rfl) rfl, ?_, ?_⟩
  · simp only [exRoundResult, specPercentage]; norm_num
  · simp only [exRoundResult, specPercentage]; norm_num
  · simp only [exNegResult]; norm_num
  · simp only [exNegResult, specPercentage]; norm_num

/-- C13, amended: for the result that `CalculateResult` creates, the percentage
is 0 when the test's total-marks is 0 or negative; when total-marks is
positive the divisor `float64(total-marks)` is positive (no division by zero)
and the percentage is the float `float64(marks) / float64(total) * 100`, which
lies within a relative error of `2 ^ -50` of the exact rational
`100 × marks-obtained / total-marks`, is exactly 100 when marks-obtained equals
total-marks and exactly 0 when marks-obtained is 0. -/
theorem CalculateResult_percentage (db : DB) (clk : Nat → Time) (sessionID : Int)
    (r : TestResult) (db1 : DB)
    (hnone : TestResultRepository.GetBySessionID db sessionID = none)
    (h : TestResultService.CalculateResult db clk sessionID = (.ok r, db1)) :
    ∃ session test, TestSessionRepository.GetByID db sessionID = some session ∧
      TestRepository.GetByID db session.TestID = some test ∧
      (test.TotalMarks ≤ 0 → r.Percentage = 0) ∧
      (0 < test.TotalMarks →
        0 < f64ofInt test.TotalMarks ∧
        r.Percentage =
          f64mul (f64div (f64ofInt r.MarksObtained) (f64ofInt test.TotalMarks)) 100 ∧
        |r.Percentage - specPercentage r.MarksObtained test.TotalMarks| ≤
          |specPercentage r.MarksObtained test.TotalMarks| / 2 ^ 50 ∧
        (r.MarksObtained = test.TotalMarks → r.Percentage = 100) ∧
        (r.MarksObtained = 0 → r.Percentage = 0)) := by
  obtain ⟨session, test, hs, ht, -, -, -, -, -, hp, -⟩ :=
    CalculateResult_created db clk sessionID r db1 hnone h
  refine ⟨session, test, hs, ht, ?_, ?_⟩
  · intro hle
    rw [hp, if_neg (by omega)]
  · intro hpos
    rw [if_pos hpos] at hp
    have hne : test.TotalMarks ≠ 0 := by omega
    refine ⟨f64ofInt_pos _ hpos, hp, ?_, ?_, ?_⟩
    · rw [hp]
      unfold specPercentage
      rw [if_neg hne]
      exact percentage_rel_err _ _ hne
    · intro hm
      rw [hp, hm]
      exact percentage_full _ hpos
    · intro hm
      rw [hp, hm]
      simp [f64mul, f64div, f64ofInt, f64round_zero]

set_option maxRecDepth 100000 in
/-- C13 amended, at a concrete input: 57 marks of 100; the percentage created
is within `57 / 2 ^ 50` of 57. -/
theorem CalculateResult_percentage_witness :
    ∃ session test, TestSessionRepository.GetByID (exPassDB 57) 1 = some session ∧
      TestRepository.GetByID (exPassDB 57) session.TestID = some test ∧
      (test.TotalMarks ≤ 0 → exRoundResult.Percentage = 0) ∧
      (0 < test.TotalMarks →
        0 < f64ofInt test.TotalMarks ∧
        exRoundResult.Percentage =
          f64mul (f64div (f64ofInt exRoundResult.MarksObtained) (f64ofInt test.TotalMarks)) 100 ∧
        |exRoundResult.Percentage - specPercentage exRoundResult.MarksObtained test.TotalMarks| ≤
          |specPercentage exRoundResult.MarksObtained test.TotalMarks| / 2 ^ 50 ∧
        (exRoundResult.MarksObtained = test.TotalMarks → exRoundResult.Percentage = 100) ∧
        (exRoundResult.MarksObtained = 0 → exRoundResult.Percentage = 0)) :=
  CalculateResult_percentage (exPassDB 57) (exClock 5000) 1 exRoundResult
    (TestResultService.CalculateResult (exPassDB 57) (exClock 5000) 1).2 rfl
    (Prod.ext (by with_unfolding_all rfl) rfl)

/-! ## Floating point: durations -/

theorem f64round_nonneg (q : ℚ) (hq : 0 ≤ q) : 0 ≤ f64round q := by
  rcases eq_or_lt_of_le hq with h | h
  · rw [← h, f64round_zero]
  · exact le_of_lt (f64round_pos q h)

theorem f64toInt_of_bounds (x : ℚ) (k : Int) (h0 : (k : ℚ) ≤ x) (h1 : x < (k : ℚ) + 1)
    (hk : 0 ≤ k) : f64toInt x = k := by
  have hx : 0 ≤ x := le_trans (by exact_mod_cast hk) h0
  unfold f64toInt
  rw [if_pos hx]
  have hfl : Rat.floor x = ⌊x⌋ := rfl
  rw [hfl, Int.floor_eq_iff]
  exact ⟨h0, h1⟩

theorem durationSeconds_floor (d : Int) (h0 : 0 ≤ d) (h1 : d < 16777216 * 1000000000) :
    f64toInt (durationSeconds d) = d / 1000000000 := by
  have hsec : Int.tdiv d 1000000000 = d / 1000000000 := Int.tdiv_eq_ediv h0 (by norm_num)
  have hns : Int.tmod d 1000000000 = d % 1000000000 := Int.tmod_eq_emod h0 (by norm_num)
  unfold durationSeconds
  rw [hsec, hns]
  generalize hsd : d / 1000000000 = sec
  generalize hnd : d % 1000000000 = ns
  have hs0 : 0 ≤ sec := by omega
  have hs1 : sec ≤ 16777215 := by omega
  have hn0 : 0 ≤ ns := by omega
  have hn1 : ns ≤ 999999999 := by omega
  have e1 : f64ofInt sec = sec :=
    f64round_intCast sec (by rw [abs_of_nonneg hs0]; omega)
  have e2 : f64ofInt ns = ns :=
    f64round_intCast ns (by rw [abs_of_nonneg hn0]; omega)
  have e3 : f64round 1000000000 = 1000000000 := by
    have := f64round_intCast 1000000000 (by norm_num)
    simpa using this
  rw [e1, e2, e3]
  unfold f64add f64div
  have hs0q : (0 : ℚ) ≤ (sec : ℚ) := by exact_mod_cast hs0
  have hs1q : (sec : ℚ) ≤ 16777215 := by exact_mod_cast hs1
  have hn0q : (0 : ℚ) ≤ (ns : ℚ) := by exact_mod_cast hn0
  have hn1q : (ns : ℚ) ≤ 999999999 := by exact_mod_cast hn1
  generalize hxd : (ns : ℚ) / 1000000000 = x
  have hx0 : 0 ≤ x := by rw [← hxd]; positivity
  have hx1 : x ≤ 999999999 / 1000000000 := by
    rw [← hxd]
    exact div_le_div_of_nonneg_right hn1q (by norm_num)
  have hfr := f64round_rel_err x
  rw [abs_of_nonneg hx0, abs_le] at hfr
  have hf0 : 0 ≤ f64round x := f64round_nonneg x hx0
  generalize hfd : f64round x = frac at hfr hf0
  have hf1 : frac ≤ 999999999 / 1000000000 + 1 / 2 ^ 53 := by
    have : x / 2 ^ 53 ≤ 1 / 2 ^ 53 :=
      div_le_div_of_nonneg_right (by linarith) (by norm_num)
    linarith [hfr.2]
  by_cases hy : (sec : ℚ) + frac = 0
  · have hsz : (sec : ℚ) = 0 := by linarith
    rw [hy, f64round_zero]
    have : sec = 0 := by exact_mod_cast hsz
    rw [this]
    exact f64toInt_of_bounds 0 0 (by norm_num) (by norm_num) (le_refl 0)
  · have hypos : 0 < (sec : ℚ) + frac :=
      lt_of_le_of_ne (by linarith) (Ne.symm hy)
    have hy24 : (sec : ℚ) + frac < pow2 24 := by
      have : pow2 24 = 16777216 := by rw [pow2_eq_zpow]; norm_num
      rw [this]
      have : (999999999 / 1000000000 + 1 / 2 ^ 53 : ℚ) < 1 := by norm_num
      linarith
    have hfl := floorLog2_lt _ hypos 24 hy24
    have herr := f64round_abs_err _ hy
    rw [abs_of_pos hypos] at herr
    have hp : pow2 (floorLog2 ((sec : ℚ) + frac) - 53) ≤ pow2 (-30) :=
      (pow2_le_iff _ _).2 (by omega)
    have hp30 : pow2 (-30) = 1 / 2 ^ 30 := by rw [pow2_eq_zpow]; norm_num
    rw [hp30] at hp
    rw [abs_le] at herr
    have hlow := f64round_ge_int sec _ (by linarith) hypos
      (by
        have : (2 : ℚ) ^ 53 = 9007199254740992 := by norm_num
        rw [this]
        linarith)
    have hup : f64round ((sec : ℚ) + frac) < (sec : ℚ) + 1 := by
      have : (999999999 / 1000000000 + 1 / 2 ^ 53 + 1 / 2 ^ 30 : ℚ) < 1 := by norm_num
      linarith [herr.2]
    exact f64toInt_of_bounds _ sec hlow hup hs0

theorem roundHalfEven_neg (x : ℚ) : roundHalfEven (-x) = -roundHalfEven x := by
  have hfl : ∀ z : ℚ, Rat.floor z = ⌊z⌋ := fun _ => rfl
  by_cases hint : ((⌊x⌋ : Int) : ℚ) = x
  · rw [← hint]
    have : -((⌊x⌋ : Int) : ℚ) = ((-⌊x⌋ : Int) : ℚ) := by push_cast; rfl
    rw [this, roundHalfEven_intCast, roundHalfEven_intCast]
  · have h1 : ((⌊x⌋ : Int) : ℚ) < x := lt_of_le_of_ne (Int.floor_le x) hint
    have h2 := Int.lt_floor_add_one x
    have hneg : ⌊-x⌋ = -⌊x⌋ - 1 := by
      rw [Int.floor_eq_iff]; push_cast; constructor <;> linarith
    unfold roundHalfEven
    simp only [hfl, hneg]
    generalize ⌊x⌋ = f at *
    push_cast
    split_ifs <;> first | omega | (exfalso; linarith)

theorem f64round_neg (q : ℚ) : f64round (-q) = -f64round q := by
  unfold f64round
  by_cases hq : q = 0
  · simp [hq]
  · have hq2 : -q ≠ 0 := neg_ne_zero.mpr hq
    simp only [hq, hq2, if_false, abs_neg, neg_div, roundHalfEven_neg]
    push_cast
    ring

theorem f64toInt_neg (x : ℚ) : f64toInt (-x) = -f64toInt x := by
  unfold f64toInt
  rcases lt_trichotomy x 0 with h | h | h
  · rw [if_pos (by linarith), if_neg (by linarith)]; simp
  · subst h
    have : Rat.floor (0 : ℚ) = 0 := by rfl
    simp [this]
  · rw [if_neg (by linarith), if_pos (by linarith)]; simp

theorem neg_tmod_eq (a b : Int) : (-a).tmod b = -(a.tmod b) := by
  rw [Int.tmod_def, Int.tmod_def, Int.neg_tdiv]
  ring

theorem durationSeconds_neg (d : Int) : durationSeconds (-d) = -durationSeconds d := by
  unfold durationSeconds f64add f64div f64ofInt
  rw [Int.neg_tdiv, neg_tmod_eq]
  push_cast
  rw [f64round_neg, f64round_neg, neg_div, f64round_neg, ← neg_add, f64round_neg]

theorem durationSeconds_trunc (d : Int) (h : |d| < 16777216 * 1000000000) :
    f64toInt (durationSeconds d) = Int.tdiv d 1000000000 := by
  rw [abs_lt] at h
  by_cases h0 : 0 ≤ d
  · rw [durationSeconds_floor d h0 h.2, Int.tdiv_eq_ediv h0 (by norm_num)]
  · have hd : d = -(-d) := by ring
    have h1 : 0 ≤ -d := by omega
    rw [hd, durationSeconds_neg, f64toInt_neg, durationSeconds_floor (-d) h1 (by omega),
      Int.neg_tdiv, Int.tdiv_eq_ediv h1 (by norm_num)]

theorem timeSub_of_small (t u : Int) (h : |t - u| < 16777216 * 1000000000) :
    timeSub t u = t - u := by
  rw [abs_lt] at h
  obtain ⟨ha, hb⟩ := h
  unfold timeSub
  rw [min_eq_right (by omega), max_eq_right (by omega)]

/-! ## Time taken -/

set_option maxRecDepth 100000 in
/-- C16, counterexample: a session started at instant 0 and submitted
16777216.999999999 seconds later gets time-taken 16777217, one more than the
whole seconds of the difference and more than the difference itself:
`Duration.Seconds` returns a float64, which near `2 ^ 24` seconds cannot hold
the nanoseconds and rounds the sum up to the next integer. -/
theorem CalculateResult_time_taken_rounds_up :
    TestResultService.CalculateResult exLongDB (exClock 5000) 1 =
      (.ok exLongResult, (TestResultService.CalculateResult exLongDB (exClock 5000) 1).2) ∧
    (∃ session, TestSessionRepository.GetByID exLongDB 1 = some session ∧
      session.StartedAt = some 0 ∧ session.SubmittedAt = some 16777216999999999 ∧
      specTimeTaken session.StartedAt session.SubmittedAt = some 16777216 ∧
      exLongResult.TimeTaken ≠ specTimeTaken session.StartedAt session.SubmittedAt) ∧
    exLongResult.TimeTaken = some 16777217 ∧
    (16777216999999999 - 0 : Int) < 16777217 * 1000000000 :=
  ⟨Prod.ext (by with_unfolding_all rfl) rfl,
   ⟨_, rfl, rfl, rfl, rfl, by decide⟩, rfl, by decide⟩

/-- C16, amended: the time-taken of the result that `CalculateResult` creates
is null when the session's started-at or submitted-at is missing; when both
are present it is `int(submittedAt.Sub(startedAt).Seconds())`, and this is the
difference in whole seconds, truncated toward zero, whenever the two
timestamps are less than `2 ^ 24` seconds (about 194 days) apart. -/
theorem CalculateResult_time_taken (db : DB) (clk : Nat → Time) (sessionID : Int)
    (r : TestResult) (db1 : DB)
    (hnone : TestResultRepository.GetBySessionID db sessionID = none)
    (h : TestResultService.CalculateResult db clk sessionID = (.ok r, db1)) :
    ∃ session, TestSessionRepository.GetByID db sessionID = some session ∧
      ((session.StartedAt = none ∨ session.SubmittedAt = none) → r.TimeTaken = none) ∧
      (∀ s e, session.StartedAt = some s → session.SubmittedAt = some e →
        r.TimeTaken = some (f64toInt (durationSeconds (timeSub e s))) ∧
        (|e - s| < 16777216 * 1000000000 →
          r.TimeTaken = some (Int.tdiv (e - s) 1000000000))) ∧
      ((∀ s e, session.StartedAt = some s → session.SubmittedAt = some e →
          |e - s| < 16777216 * 1000000000) →
        r.TimeTaken = specTimeTaken session.StartedAt session.SubmittedAt) := by
  obtain ⟨session, test, hs, -, -, -, -, -, -, -, -, htt, -⟩ :=
    CalculateResult_created db clk sessionID r db1 hnone h
  refine ⟨session, hs, ?_, ?_, ?_⟩
  · rintro (h0 | h0)
    · rw [htt, h0]
    · rw [htt, h0]
      cases session.StartedAt <;> rfl
  · intro s e h1 h2
    rw [h1, h2] at htt
    simp only at htt
    refine ⟨htt, fun hr => ?_⟩
    rw [htt, timeSub_of_small e s hr, durationSeconds_trunc _ hr]
  · intro hr
    rw [htt]
    cases h1 : session.StartedAt with
    | none => rfl
    | some s =>
      cases h2 : session.SubmittedAt with
      | none => rfl
      | some e =>
        have hr2 := hr s e h1 h2
        simp only [specTimeTaken]
        rw [timeSub_of_small e s hr2, durationSeconds_trunc _ hr2]

set_option maxRecDepth 100000 in
/-- C16 amended, at a concrete input: the session of `exPassDB 50` was started
at second 100 and submitted at second 400; its result has time-taken 300. -/
theorem CalculateResult_time_taken_witness :
    (∃ session, TestSessionRepository.GetByID (exPassDB 50) 1 = some session ∧
      ((session.StartedAt = none ∨ session.SubmittedAt = none) →
        exPassResult.TimeTaken = none) ∧
      (∀ s e, session.StartedAt = some s → session.SubmittedAt = some e →
        exPassResult.TimeTaken = some (f64toInt (durationSeconds (timeSub e s))) ∧
        (|e - s| < 16777216 * 1000000000 →
          exPassResult.TimeTaken = some (Int.tdiv (e - s) 1000000000))) ∧
      ((∀ s e, session.StartedAt = some s → session.SubmittedAt = some e →
          |e - s| < 16777216 * 1000000000) →
        exPassResult.TimeTaken = specTimeTaken session.StartedAt session.SubmittedAt)) ∧
    exPassResult.TimeTaken = some 300 :=
  ⟨CalculateResult_time_taken (exPassDB 50) (exClock 5000) 1 exPassResult
      (TestResultService.CalculateResult (exPassDB 50) (exClock 5000) 1).2 rfl
      (Prod.ext (by with_unfolding_all rfl) rfl),
   rfl⟩

/-! ## The end-to-end run: lemmas -/

theorem scoreShortAnswerLoop_of_prefix (lowerRune : Char → Char) (marks : Int) (u : String)
    (pre : List CorrectAnswer) (c : CorrectAnswer) (post : List CorrectAnswer)
    (hpre : ∀ p ∈ pre, p.IsCaseSensitive = true)
    (h1 : c.IsCaseSensitive = true → u = c.AnswerText)
    (h2 : c.IsCaseSensitive = false → ToLower lowerRune u = ToLower lowerRune c.AnswerText) :
    scoreShortAnswerLoop lowerRune marks u (pre ++ c :: post) = (true, marks) := by
  induction pre with
  | nil =>
    simp only [List.nil_append, scoreShortAnswerLoop]
    cases hc : c.IsCaseSensitive with
    | true => simp [h1 hc]
    | false => simp [h2 hc]
  | cons p rest ih =>
    have hp : p.IsCaseSensitive = true := hpre p (List.mem_cons_self _ _)
    simp only [List.cons_append, scoreShortAnswerLoop, hp]
    by_cases hu : u = p.AnswerText
    · simp [hu]
    · simp only [Bool.true_eq_false, if_false, hu]
      exact ih (fun q hq => hpre q (List.mem_cons_of_mem _ hq))

theorem scoreAnswer_of_correct (lowerRune : Char → Char) (db : DB) (question : Question)
    (text : Option String) (opt : Option Int)
    (h : specCorrectSubmission lowerRune db question text opt) :
    scoreAnswer lowerRune (QuestionRepository.lookups db) question text opt =
      (true, question.Marks) := by
  unfold specCorrectSubmission at h
  unfold scoreAnswer
  cases hty : question.QuestionType with
  | multiple_choice =>
    rw [hty] at h
    exact scoreMultipleChoiceAnswer_of_correct _ _ _ h
  | true_false =>
    rw [hty] at h
    exact scoreMultipleChoiceAnswer_of_correct _ _ _ h
  | short_answer =>
    rw [hty] at h
    obtain ⟨pre, c, post, hlist, hpre, t, rfl, hne, c1, hc1, hs, hi⟩ := h
    have hc : c1 = c := by simpa using hc1
    subst hc
    simp only [scoreShortAnswer, hne, if_false, QuestionRepository.lookups, hlist]
    exact scoreShortAnswerLoop_of_prefix lowerRune _ _ pre c1 post hpre hs hi
  | unrecognised =>
    rw [hty] at h
    exact absurd h (by simp)

theorem recordAnswer_returns (lowerRune : Char → Char) (db : DB) (stamp : Time × Time)
    (session : TestSession) (qid : Int) (text : Option String) (opt : Option Int)
    (q : Question) (hq : QuestionRepository.GetByID db qid = some q)
    (ht : q.TestID = session.TestID) :
    ∃ a db1, TestSessionService.recordAnswer lowerRune db stamp session qid text opt =
      (.ok a, db1) := by
  unfold TestSessionService.recordAnswer
  rw [hq]
  simp only [ht, ne_eq, not_true, if_false]
  split <;> exact ⟨_, _, rfl⟩

theorem recordAnswer_frame (lowerRune : Char → Char) (db : DB) (stamp : Time × Time)
    (session : TestSession) (qid : Int) (text : Option String) (opt : Option Int) :
    (TestSessionService.recordAnswer lowerRune db stamp session qid text opt).2.tests =
      db.tests ∧
    (TestSessionService.recordAnswer lowerRune db stamp session qid text opt).2.test_results =
      db.test_results := by
  unfold TestSessionService.recordAnswer
  split
  · exact ⟨rfl, rfl⟩
  · split
    · exact ⟨rfl, rfl⟩
    · dsimp only
      split <;> exact ⟨rfl, rfl⟩

theorem recordAnswer_seq (lowerRune : Char → Char) (db : DB) (stamp : Time × Time)
    (session : TestSession) (qid : Int) (text : Option String) (opt : Option Int)
    (a : UserAnswer) (db1 : DB)
    (h : TestSessionService.recordAnswer lowerRune db stamp session qid text opt =
      (.ok a, db1)) :
    ((∃ existing,
        UserAnswerRepository.GetBySessionAndQuestion db session.ID qid = some existing) →
      db1.user_answers_seq = db.user_answers_seq) ∧
    (UserAnswerRepository.GetBySessionAndQuestion db session.ID qid = none →
      db1.user_answers_seq = db.user_answers_seq + 1 ∧ a.ID = db.user_answers_seq + 1) := by
  unfold TestSessionService.recordAnswer at h
  split at h
  · simp at h
  · split at h
    · simp at h
    · dsimp only at h
      split at h
      · rename_i existing hex
        simp only [Prod.mk.injEq, Except.ok.injEq] at h
        obtain ⟨h1, h2⟩ := h
        subst h1
        subst h2
        refine ⟨fun _ => rfl, fun hn => ?_⟩
        rw [hn] at hex
        simp at hex
      · rename_i hnone
        simp only [Prod.mk.injEq, Except.ok.injEq] at h
        obtain ⟨h1, h2⟩ := h
        rw [AnswerCreate_fst] at h1
        rw [AnswerCreate_snd] at h2
        subst h1
        subst h2
        refine ⟨fun hex => ?_, fun _ => ⟨rfl, rfl⟩⟩
        obtain ⟨e, he⟩ := hex
        rw [he] at hnone
        simp at hnone

/-- The rows of `user_answers` after a successful `recordAnswer`, when answer
ids are distinct and bounded by the id sequence and there is at most one
answer per (session, question) pair: the returned answer is stored, up to
the answer time, every other row is a row of before that belongs to another
(session, question) pair, and every such row of before is still there. -/
theorem recordAnswer_effect (lowerRune : Char → Char) (db : DB) (stamp : Time × Time)
    (session : TestSession) (qid : Int) (text : Option String) (opt : Option Int)
    (a : UserAnswer) (db1 : DB) (hU : AnswersUnique db)
    (hID : (db.user_answers.map (fun r => r.ID)).Nodup)
    (hseq : ∀ r ∈ db.user_answers, r.ID ≤ db.user_answers_seq)
    (h : TestSessionService.recordAnswer lowerRune db stamp session qid text opt =
      (.ok a, db1)) :
    (∃ r ∈ db1.user_answers, { r with AnsweredAt := a.AnsweredAt } = a) ∧
    (∀ r ∈ db1.user_answers, { r with AnsweredAt := a.AnsweredAt } = a ∨
      (r ∈ db.user_answers ∧ ¬ (r.SessionID = session.ID ∧ r.QuestionID = qid))) ∧
    (∀ r ∈ db.user_answers, ¬ (r.SessionID = session.ID ∧ r.QuestionID = qid) →
      r ∈ db1.user_answers) ∧
    (db1.user_answers.map (fun r => r.ID)).Nodup ∧
    (∀ r ∈ db1.user_answers, r.ID ≤ db1.user_answers_seq) := by
  obtain ⟨hs1, hs2⟩ := recordAnswer_seq lowerRune db stamp session qid text opt a db1 h
  obtain ⟨question, -, hsid, hqid, -, -, -, -, hcase⟩ :=
    recordAnswer_ok lowerRune db stamp session qid text opt a db1 h
  rcases hcase with ⟨e, hex, hid, hupd, hdb⟩ | ⟨hnone, hdb⟩
  · have hkey := List.find?_some hex
    simp only [Bool.and_eq_true, decide_eq_true_eq] at hkey
    have hmem : e ∈ db.user_answers := List.mem_of_find?_eq_some hex
    have hseq1 := hs1 ⟨e, hex⟩
    have hfe : (if e.ID = a.ID then UserAnswerRepository.updateRow a e else e) = a := by
      rw [if_pos hid.symm, hupd]
    refine ⟨?_, ?_, ?_, ?_, ?_⟩
    · refine ⟨a, ?_, rfl⟩
      rw [hdb]
      exact List.mem_map.mpr ⟨e, hmem, hfe⟩
    · intro r hr
      rw [hdb] at hr
      obtain ⟨r0, hr0, rfl⟩ := List.mem_map.mp hr
      by_cases hc : r0.ID = a.ID
      · left
        have : r0 = e := List.inj_on_of_nodup_map hID hr0 hmem (hc.trans hid)
        rw [this, hfe]
      · right
        rw [if_neg hc]
        refine ⟨hr0, fun hm => hc ?_⟩
        have : r0 = e := by
          apply eq_of_countP_le_one _ _ r0 e (hU session.ID qid) hr0 hmem
          · simp [hm.1, hm.2]
          · simp [hkey.1, hkey.2]
        rw [this, hid]
    · intro r hr hm
      rw [hdb]
      refine List.mem_map.mpr ⟨r, hr, ?_⟩
      have hc : ¬ r.ID = a.ID := by
        intro hc
        have : r = e := List.inj_on_of_nodup_map hID hr hmem (hc.trans hid)
        rw [this] at hm
        exact hm hkey
      rw [if_neg hc]
    · rw [hdb, List.map_map]
      have : ((fun r : UserAnswer => r.ID) ∘ fun r =>
          if r.ID = a.ID then UserAnswerRepository.updateRow a r else r) = fun r => r.ID := by
        funext r
        simp only [Function.comp]
        split <;> rfl
      rw [this]
      exact hID
    · intro r hr
      rw [hdb] at hr
      obtain ⟨r0, hr0, rfl⟩ := List.mem_map.mp hr
      rw [hseq1]
      have h0 := hseq r0 hr0
      split
      · exact h0
      · exact h0
  · obtain ⟨hseq1, haid⟩ := hs2 hnone
    have hno : ∀ r ∈ db.user_answers, ¬ (r.SessionID = session.ID ∧ r.QuestionID = qid) := by
      intro r hr hm
      have := List.find?_eq_none.mp hnone r hr
      simp [hm.1, hm.2] at this
    refine ⟨?_, ?_, ?_, ?_, ?_⟩
    · refine ⟨{ a with AnsweredAt := stamp.1 }, ?_, rfl⟩
      rw [hdb]
      exact List.mem_append_right _ (List.mem_singleton.mpr rfl)
    · intro r hr
      rw [hdb] at hr
      rcases List.mem_append.mp hr with hr | hr
      · exact Or.inr ⟨hr, hno r hr⟩
      · left
        rw [List.mem_singleton.mp hr]
    · intro r hr _
      rw [hdb]
      exact List.mem_append_left _ hr
    · rw [hdb, List.map_append, List.nodup_append]
      refine ⟨hID, by simp, ?_⟩
      intro i hi hi2
      obtain ⟨r, hr, rfl⟩ := List.mem_map.mp hi
      have h0 := hseq r hr
      simp only [List.map_cons, List.map_nil, List.mem_singleton] at hi2
      omega
    · intro r hr
      rw [hdb] at hr
      rw [hseq1]
      rcases List.mem_append.mp hr with hr | hr
      · have := hseq r hr
        omega
      · rw [List.mem_singleton.mp hr]
        exact le_of_eq haid

/-- The session with which `SubmitAnswer` goes on, for an open session stored
under the token: it is the row stored under the token afterwards, open, with
the id, the test and the expiry of before; the other tables are untouched. -/
theorem startedSession_run (db : DB) (clk : Nat → Time) (tok : String) (x : TestSession)
    (hx : TestSessionRepository.GetByToken db tok = some x)
    (hU : SessionIDsUnique db)
    (hst : x.Status = SessionStatus.not_started ∨ x.Status = SessionStatus.in_progress) :
    TestSessionRepository.GetByToken (startedSession db clk x).2 tok =
      some (startedSession db clk x).1 ∧
    (startedSession db clk x).1.ID = x.ID ∧
    (startedSession db clk x).1.TestID = x.TestID ∧
    (startedSession db clk x).1.ExpiresAt = x.ExpiresAt ∧
    ((startedSession db clk x).1.Status = SessionStatus.not_started ∨
      (startedSession db clk x).1.Status = SessionStatus.in_progress) ∧
    SessionIDsUnique (startedSession db clk x).2 ∧
    (startedSession db clk x).2.user_answers = db.user_answers ∧
    (startedSession db clk x).2.user_answers_seq = db.user_answers_seq ∧
    (startedSession db clk x).2.tests = db.tests ∧
    (startedSession db clk x).2.test_results = db.test_results ∧
    SameCatalog db (startedSession db clk x).2 := by
  unfold startedSession
  split
  · refine ⟨?_, rfl, rfl, rfl, Or.inr rfl, SessionIDsUnique_Update _ _ _ hU, rfl, rfl, rfl, rfl,
      ⟨rfl, rfl, rfl⟩⟩
    exact GetByToken_Update_self db _ _ x tok hx ⟨rfl, rfl, rfl, rfl, rfl, rfl⟩
  · exact ⟨hx, rfl, rfl, rfl, hst, hU, rfl, rfl, rfl, rfl, sameCatalog_refl db⟩

theorem AnswersUnique_congr (db db1 : DB) (h : db1.user_answers = db.user_answers)
    (hU : AnswersUnique db) : AnswersUnique db1 := by
  intro sid qid
  rw [answerCount_congr db db1 h]
  exact hU sid qid

theorem SessionIDsUnique_congr (db db1 : DB) (h : db1.test_sessions = db.test_sessions)
    (hU : SessionIDsUnique db) : SessionIDsUnique db1 := by
  unfold SessionIDsUnique at *
  rw [h]
  exact hU

/-- One correct answer more: a valid submission keeps the state of the run and
adds its question to the questions answered correctly. -/
theorem RunInv_step (lowerRune : Char → Char) (db0 db1 : DB) (s0 : TestSession)
    (done : List Int) (sub : Submission) (hinv : RunInv db0 db1 s0 done)
    (hv : sub.Valid lowerRune db0 s0) :
    RunInv db0 (Call.exec lowerRune db1 (sub.toCall s0.SessionToken)) s0
      (sub.questionID :: done) := by
  obtain ⟨x, hx, hxid, hxt, hxe, hxs⟩ := hinv.session
  obtain ⟨h0, h2, q, hq, hqt, hcorr⟩ := hv
  have hSA := SubmitAnswer_of_open lowerRune db1 sub.clk s0.SessionToken sub.questionID
    sub.answerText sub.selectedOptionID x hx (by rw [hxe]; exact h0) (by rw [hxe]; exact h2) hxs
  obtain ⟨sTok, sID, sTest, sExp, sSt, sU, sAns, sSeq, sTests, sRes, sCat⟩ :=
    startedSession_run db1 sub.clk s0.SessionToken x hx hinv.sessionIDs hxs
  have hcat := sameCatalog_trans hinv.cat sCat
  have hq1 : QuestionRepository.GetByID (startedSession db1 sub.clk x).2 sub.questionID =
      some q := by
    rw [(lookups_congr _ _ hcat).2]
    exact hq
  obtain ⟨a, db2, hrec⟩ := recordAnswer_returns lowerRune (startedSession db1 sub.clk x).2
    (sub.clk 5, sub.clk 6) (startedSession db1 sub.clk x).1 sub.questionID sub.answerText
    sub.selectedOptionID q hq1 (by rw [sTest, hxt, hqt])
  have hexec : Call.exec lowerRune db1 (sub.toCall s0.SessionToken) = db2 := by
    simp only [Submission.toCall, Call.exec]
    rw [hSA, hrec]
  rw [hexec]
  have hU1 : AnswersUnique (startedSession db1 sub.clk x).2 :=
    AnswersUnique_congr _ _ sAns hinv.answersUnique
  obtain ⟨eMem, eNew, eOld, eIDs, eSeq⟩ :=
    recordAnswer_effect lowerRune _ _ _ _ _ _ a db2 hU1
      (by rw [sAns]; exact hinv.answerIDs)
      (by rw [sAns, sSeq]; exact hinv.answerSeq) hrec
  obtain ⟨question, hqq, aSid, aQid, -, -, aCorrect, aMarks, -⟩ :=
    recordAnswer_ok lowerRune _ _ _ _ _ _ a db2 hrec
  have hqeq : question = q := by
    rw [hq1] at hqq
    exact (Option.some.inj hqq).symm
  subst hqeq
  have hscore := scoreAnswer_of_correct lowerRune db0 question sub.answerText
    sub.selectedOptionID hcorr
  rw [(lookups_congr _ _ hcat).1, hscore] at aCorrect aMarks
  simp only at aCorrect aMarks
  have hrows := recordAnswer_rows lowerRune _ _ _ _ _ _ a db2 hU1 hrec
  have hsess : db2.test_sessions = (startedSession db1 sub.clk x).2.test_sessions := by
    have := recordAnswer_sessions lowerRune (startedSession db1 sub.clk x).2 (sub.clk 5, sub.clk 6)
      (startedSession db1 sub.clk x).1 sub.questionID sub.answerText sub.selectedOptionID
    rw [hrec] at this
    exact this
  have hframe := recordAnswer_frame lowerRune (startedSession db1 sub.clk x).2 (sub.clk 5, sub.clk 6)
    (startedSession db1 sub.clk x).1 sub.questionID sub.answerText sub.selectedOptionID
  have hcat2 := SameCatalog_recordAnswer lowerRune (startedSession db1 sub.clk x).2 (sub.clk 5, sub.clk 6)
    (startedSession db1 sub.clk x).1 sub.questionID sub.answerText sub.selectedOptionID
  rw [hrec] at hframe hcat2
  simp only at hframe hcat2
  have aSid0 : a.SessionID = s0.ID := by rw [aSid, sID, hxid]
  refine
    { cat := sameCatalog_trans hcat hcat2
      tests := by rw [hframe.1, sTests, hinv.tests]
      results := by rw [hframe.2, sRes, hinv.results]
      sessionIDs := SessionIDsUnique_congr _ _ hsess sU
      session := ?_
      answerIDs := eIDs
      answerSeq := eSeq
      answersUnique := hrows.1
      answersOfTest := ?_
      answersDone := ?_
      covered := ?_ }
  · refine ⟨(startedSession db1 sub.clk x).1, ?_, by rw [sID, hxid], by rw [sTest, hxt],
      by rw [sExp, hxe], sSt⟩
    unfold TestSessionRepository.GetByToken at sTok ⊢
    rw [hsess]
    exact sTok
  · intro r hr hrs
    rcases eNew r hr with hra | ⟨hold, -⟩
    · obtain ⟨-, -, hrq, -⟩ := restamp_fields r a _ hra
      exact ⟨question, by rw [hrq, aQid]; exact hq, hqt⟩
    · rw [sAns] at hold
      exact hinv.answersOfTest r hold hrs
  · intro r hr hrs hrd
    rcases eNew r hr with hra | ⟨hold, hnm⟩
    · obtain ⟨-, -, hrq, hrc, hrm⟩ := restamp_fields r a _ hra
      exact ⟨by rw [hrc]; exact aCorrect, question, by rw [hrq, aQid]; exact hq,
        by rw [hrm]; exact aMarks⟩
    · rw [sAns] at hold
      have hne : r.QuestionID ≠ sub.questionID := by
        intro he
        exact hnm ⟨by rw [hrs, sID, hxid], he⟩
      have hd : r.QuestionID ∈ done := by
        rcases List.mem_cons.mp hrd with h | h
        · exact absurd h hne
        · exact h
      exact hinv.answersDone r hold hrs hd
  · obtain ⟨row, hrow, hra⟩ := eMem
    have hrowS : row.SessionID = s0.ID := (restamp_fields row a _ hra).2.1.trans aSid0
    have hrowQ : row.QuestionID = sub.questionID :=
      (restamp_fields row a _ hra).2.2.1.trans aQid
    intro qid hqid
    rcases List.mem_cons.mp hqid with rfl | hd
    · exact ⟨row, hrow, hrowS, hrowQ⟩
    · obtain ⟨r, hr, hrs, hrq⟩ := hinv.covered qid hd
      by_cases hm : r.SessionID = (startedSession db1 sub.clk x).1.ID ∧
          r.QuestionID = sub.questionID
      · exact ⟨row, hrow, hrowS, by rw [hrowQ, ← hm.2, hrq]⟩
      · exact ⟨r, eOld r (by rw [sAns]; exact hr) hm, hrs, hrq⟩

theorem RunInv_execAll (lowerRune : Char → Char) (db0 : DB) (s0 : TestSession)
    (subs : List Submission) :
    ∀ (db1 : DB) (done : List Int), RunInv db0 db1 s0 done →
      (∀ sub ∈ subs, sub.Valid lowerRune db0 s0) →
      RunInv db0 (execAll lowerRune db1 (subs.map (Submission.toCall s0.SessionToken))) s0
        ((subs.map (fun s => s.questionID)).reverse ++ done) := by
  induction subs with
  | nil =>
    intro db1 done hinv _
    simpa [execAll] using hinv
  | cons sub rest ih =>
    intro db1 done hinv hv
    have hstep := RunInv_step lowerRune db0 db1 s0 done sub hinv
      (hv sub (List.mem_cons_self _ _))
    have := ih _ _ hstep (fun s hs => hv s (List.mem_cons_of_mem _ hs))
    simp only [List.map_cons, List.reverse_cons, List.append_assoc, List.singleton_append]
    simpa [execAll] using this

theorem RunInv_init (db0 : DB) (s0 : TestSession) (hK : StoreKeys db0 s0)
    (hmem : ∃ row ∈ db0.test_sessions, row.ID = s0.ID ∧ row.TestID = s0.TestID ∧
      row.SessionToken = s0.SessionToken ∧ row.ExpiresAt = s0.ExpiresAt ∧
      row.Status = s0.Status)
    (hopen : s0.Status = SessionStatus.not_started ∨ s0.Status = SessionStatus.in_progress) :
    RunInv db0 db0 s0 [] := by
  obtain ⟨row, hmem, hrid, hrt, hrtok, hre, hrs⟩ := hmem
  have htok : TestSessionRepository.GetByToken db0 s0.SessionToken = some row := by
    unfold TestSessionRepository.GetByToken
    cases hf : db0.test_sessions.find? (fun s => decide (s.SessionToken = s0.SessionToken)) with
    | none =>
      have := List.find?_eq_none.mp hf row hmem
      simp [hrtok] at this
    | some r =>
      have hr : r.SessionToken = row.SessionToken := by
        have := List.find?_some hf
        rw [hrtok]
        simpa using this
      have hrm := List.mem_of_find?_eq_some hf
      rw [List.inj_on_of_nodup_map hK.sessionTokens hrm hmem hr]
  exact
    { cat := sameCatalog_refl db0
      tests := rfl
      results := rfl
      sessionIDs := hK.sessionIDs
      session := ⟨row, htok, hrid, hrt, hre, by rw [hrs]; exact hopen⟩
      answerIDs := hK.answerIDs
      answerSeq := hK.answerSeq
      answersUnique := hK.answersUnique
      answersOfTest := hK.answersOfTest
      answersDone := fun _ _ _ h => absurd h (List.not_mem_nil _)
      covered := fun _ h => absurd h (List.not_mem_nil _) }

theorem sum_marks_of_cover (R : List UserAnswer) (Qs : List Question)
    (hR : (R.map (fun a => a.QuestionID)).Nodup) (hQ : (Qs.map (fun q => q.ID)).Nodup)
    (hRQ : ∀ a ∈ R, ∃ q ∈ Qs, q.ID = a.QuestionID ∧ a.MarksAwarded = q.Marks)
    (hQR : ∀ q ∈ Qs, ∃ a ∈ R, a.QuestionID = q.ID) :
    R.length = Qs.length ∧
    (R.map (fun a => a.MarksAwarded)).sum = (Qs.map (fun q => q.Marks)).sum := by
  have hperm : (R.map (fun a => a.QuestionID)).Perm (Qs.map (fun q => q.ID)) := by
    rw [List.perm_ext_iff_of_nodup hR hQ]
    intro i
    constructor
    · intro hi
      obtain ⟨a, ha, rfl⟩ := List.mem_map.mp hi
      obtain ⟨q, hq, hqa, -⟩ := hRQ a ha
      exact List.mem_map.mpr ⟨q, hq, hqa⟩
    · intro hi
      obtain ⟨q, hq, rfl⟩ := List.mem_map.mp hi
      obtain ⟨a, ha, haq⟩ := hQR q hq
      exact List.mem_map.mpr ⟨a, ha, haq⟩
  constructor
  · have := hperm.length_eq
    simpa using this
  · let g : Int → Int := fun i =>
      ((Qs.find? (fun q => decide (q.ID = i))).map (fun q => q.Marks)).getD 0
    have hg : ∀ q ∈ Qs, g q.ID = q.Marks := by
      intro q hq
      show ((Qs.find? (fun q1 => decide (q1.ID = q.ID))).map (fun q => q.Marks)).getD 0 = q.Marks
      cases hf : Qs.find? (fun q1 => decide (q1.ID = q.ID)) with
      | none =>
        have := List.find?_eq_none.mp hf q hq
        simp at this
      | some r =>
        have hr : r.ID = q.ID := by
          have := List.find?_some hf
          simpa using this
        have hrm := List.mem_of_find?_eq_some hf
        rw [List.inj_on_of_nodup_map hQ hrm hq hr]
        rfl
    have e1 : R.map (fun a => a.MarksAwarded) = (R.map (fun a => a.QuestionID)).map g := by
      rw [List.map_map]
      apply List.map_congr_left
      intro a ha
      obtain ⟨q, hq, hqa, hm⟩ := hRQ a ha
      simp only [Function.comp]
      rw [hm, ← hqa, hg q hq]
    have e2 : Qs.map (fun q => q.Marks) = (Qs.map (fun q => q.ID)).map g := by
      rw [List.map_map]
      apply List.map_congr_left
      intro q hq
      simp only [Function.comp]
      rw [hg q hq]
    rw [e1, e2]
    exact (hperm.map g).sum_eq

theorem nodup_questionIDs_of_unique (db : DB) (sid : Int) (hU : AnswersUnique db) :
    ((db.user_answers.filter (fun a => decide (a.SessionID = sid))).map
      (fun a => a.QuestionID)).Nodup := by
  rw [List.nodup_iff_count_le_one]
  intro qid
  have h := hU sid qid
  unfold answerCount at h
  rw [List.count_eq_countP, List.countP_map, List.countP_filter]
  refine le_trans (le_of_eq ?_) h
  apply congrArg (fun p => List.countP p db.user_answers)
  funext a
  by_cases h1 : a.SessionID = sid <;> by_cases h2 : a.QuestionID = qid <;>
    simp [h1, h2, Function.comp]

theorem GetByID_Update_some (db : DB) (t : Time) (x r : TestSession) (i : Int)
    (h : TestSessionRepository.GetByID db i = some r) :
    ∃ r1, TestSessionRepository.GetByID (TestSessionRepository.Update db t x).2 i = some r1 ∧
      r1.TestID = r.TestID := by
  rw [GetByID_Update, h]
  refine ⟨_, rfl, ?_⟩
  simp only
  split <;> rfl

theorem CalculateResult_of_fresh (db : DB) (clk : Nat → Time) (sessionID : Int)
    (session : TestSession) (test : Test)
    (hnone : TestResultRepository.GetBySessionID db sessionID = none)
    (hs : TestSessionRepository.GetByID db sessionID = some session)
    (ht : TestRepository.GetByID db session.TestID = some test) :
    ∃ r, TestResultService.CalculateResult db clk sessionID =
      (.ok r, (TestResultService.CalculateResult db clk sessionID).2) := by
  simp only [TestResultService.CalculateResult, hnone, hs, ht]
  exact ⟨_, rfl⟩

/-- What `GetSession` does to an open session stored under the token, whatever
the clock: it returns a session with the same id that is not submitted, and
leaves the tests, the questions, the answers and the results as they were; the
row with that id keeps its test. -/
theorem GetSession_of_open (db : DB) (clk : Nat → Time) (tok : String) (x : TestSession)
    (hx : TestSessionRepository.GetByToken db tok = some x) (hU : SessionIDsUnique db)
    (hst : x.Status = SessionStatus.not_started ∨ x.Status = SessionStatus.in_progress) :
    ∃ sg dbg, TestSessionService.GetSession db clk tok = (.ok sg, dbg) ∧ sg.ID = x.ID ∧
      sg.Status ≠ SessionStatus.submitted ∧ dbg.tests = db.tests ∧
      dbg.questions = db.questions ∧ dbg.user_answers = db.user_answers ∧
      dbg.test_results = db.test_results ∧
      ∃ r, TestSessionRepository.GetByID dbg x.ID = some r ∧ r.TestID = x.TestID := by
  have hid := GetByID_of_mem db x hU (List.mem_of_find?_eq_some hx)
  by_cases he : x.IsExpired (clk 0) = true ∧ x.Status = SessionStatus.in_progress
  · obtain ⟨r1, hr1, hr1t⟩ := GetByID_Update_some db (clk 1)
      { x with Status := SessionStatus.expired } x x.ID hid
    exact ⟨_, _, GetSession_of_expiry db clk tok x hx he, rfl, by simp [Update_fst],
      rfl, rfl, rfl, rfl, r1, hr1, hr1t⟩
  · refine ⟨x, db, GetSession_of_kept db clk tok x hx he, rfl, ?_, rfl, rfl, rfl, rfl,
      x, hid, rfl⟩
    rcases hst with h | h <;> rw [h] <;> decide

/-- The last step of the run: `SubmitSession` after every question of the test
has been answered correctly stores a result with full marks. -/
theorem RunInv_submit (db0 db1 : DB) (s0 : TestSession) (done : List Int)
    (clk : Nat → Time) (test : Test) (hinv : RunInv db0 db1 s0 done)
    (hQ : (db0.questions.map (fun q => q.ID)).Nodup)
    (hcov : ∀ q ∈ db0.questions, q.TestID = s0.TestID → q.ID ∈ done)
    (hR : TestResultRepository.GetBySessionID db0 s0.ID = none)
    (htest : TestRepository.GetByID db0 s0.TestID = some test)
    (hsum : test.TotalMarks =
      ((db0.questions.filter (fun q => decide (q.TestID = s0.TestID))).map
        (fun q => q.Marks)).sum)
    (hpass : test.PassingMarks ≤ test.TotalMarks) (hpos : 0 < test.TotalMarks)
    (hrange : test.TotalMarks < 2 ^ 63) :
    ∃ res, TestResultRepository.GetBySessionID
        (TestSessionService.SubmitSession db1 clk s0.SessionToken).2 s0.ID = some res ∧
      res.TotalQuestions =
        (db0.questions.filter (fun q => decide (q.TestID = s0.TestID))).length ∧
      res.AnsweredQuestions = res.TotalQuestions ∧
      res.CorrectAnswers = res.TotalQuestions ∧
      res.MarksObtained = test.TotalMarks ∧
      res.TotalMarks = test.TotalMarks ∧
      res.Percentage = 100 ∧ res.Grade = some "A+" ∧ res.IsPassed = true := by
  obtain ⟨x, hx, hxid, hxt, -, hxs⟩ := hinv.session
  obtain ⟨sg, dbg, hG, hsgid, hsgst, gT, gQ, gA, gR, r, hr, hrt⟩ :=
    GetSession_of_open db1 clk s0.SessionToken x hx hinv.sessionIDs hxs
  have hSS := SubmitSession_of_open db1 clk s0.SessionToken sg dbg hG hsgst
  have hUid : (TestSessionRepository.Update dbg (clk 3)
      { sg with Status := SessionStatus.submitted, SubmittedAt := some (clk 2) }).1.ID =
      s0.ID := by
    rw [Update_fst]
    exact hsgid.trans hxid
  rw [hUid] at hSS
  rw [hxid] at hr
  obtain ⟨r1, hr1, hr1t⟩ := GetByID_Update_some dbg (clk 3)
    { sg with Status := SessionStatus.submitted, SubmittedAt := some (clk 2) } r s0.ID hr
  generalize hdbU : (TestSessionRepository.Update dbg (clk 3)
    { sg with Status := SessionStatus.submitted, SubmittedAt := some (clk 2) }).2 = dbU
    at hSS hr1
  have uT : dbU.tests = db0.tests := by rw [← hdbU]; exact gT.trans hinv.tests
  have uQ : dbU.questions = db0.questions := by
    rw [← hdbU]; exact gQ.trans hinv.cat.1
  have uA : dbU.user_answers = db1.user_answers := by rw [← hdbU]; exact gA
  have uR : dbU.test_results = db0.test_results := by
    rw [← hdbU]; exact gR.trans hinv.results
  have hnone : TestResultRepository.GetBySessionID dbU s0.ID = none := by
    unfold TestResultRepository.GetBySessionID at hR ⊢
    rw [uR]
    exact hR
  have hr1t0 : r1.TestID = s0.TestID := by rw [hr1t, hrt, hxt]
  have ht1 : TestRepository.GetByID dbU r1.TestID = some test := by
    unfold TestRepository.GetByID at htest ⊢
    rw [uT, hr1t0]
    exact htest
  obtain ⟨res, hres⟩ := CalculateResult_of_fresh dbU (fun i => clk (i + 4)) s0.ID r1 test
    hnone hr1 ht1
  generalize hdb2 : (TestResultService.CalculateResult dbU (fun i => clk (i + 4)) s0.ID).2 = db2
    at hSS hres
  obtain ⟨session, test1, hs, ht, hq, ha, hc, hm, htm, hp, hip, -, hg, hdb⟩ :=
    CalculateResult_created dbU (fun i => clk (i + 4)) s0.ID res db2 hnone hres
  have hsess : session = r1 := by
    rw [hr1] at hs
    exact (Option.some.inj hs).symm
  subst hsess
  have htest1 : test1 = test := by
    rw [ht1] at ht
    exact (Option.some.inj ht).symm
  subst htest1
  have hstore : TestResultRepository.GetBySessionID
      (TestSessionService.SubmitSession db1 clk s0.SessionToken).2 s0.ID =
      some { res with CompletedAt := clk 4 } := by
    rw [hSS]
    simp only
    unfold TestResultRepository.GetBySessionID at hnone ⊢
    rw [hdb]
    apply find?_append_singleton_of_none _ _ _ hnone
    rcases CalculateResult_ok dbU _ s0.ID res db2 hres with ⟨h1, -⟩ | ⟨-, h1, -⟩
    · unfold TestResultRepository.GetBySessionID at h1
      rw [hnone] at h1
      simp at h1
    · simp [h1]
  -- the answers of the session against the questions of the test
  have hcover := sum_marks_of_cover
    (db1.user_answers.filter (fun a => decide (a.SessionID = s0.ID)))
    (db0.questions.filter (fun q => decide (q.TestID = s0.TestID)))
    (nodup_questionIDs_of_unique db1 s0.ID hinv.answersUnique)
    ((List.filter_sublist _).map _ |>.nodup hQ)
    (by
      intro a ha
      have ham := List.mem_filter.mp ha
      have has : a.SessionID = s0.ID := by simpa using ham.2
      obtain ⟨q, hqq, hqt⟩ := hinv.answersOfTest a ham.1 has
      have hqm : q ∈ db0.questions := List.mem_of_find?_eq_some hqq
      have hqid : q.ID = a.QuestionID := by
        have := List.find?_some hqq
        simpa using this
      have hd : a.QuestionID ∈ done := by
        rw [← hqid]
        exact hcov q hqm hqt
      obtain ⟨-, q2, hq2, hmk⟩ := hinv.answersDone a ham.1 has hd
      rw [hqq] at hq2
      have : q2 = q := (Option.some.inj hq2).symm
      subst this
      exact ⟨q2, List.mem_filter.mpr ⟨hqm, by simpa using hqt⟩, hqid, hmk⟩)
    (by
      intro q hq
      have hqm := List.mem_filter.mp hq
      have hqt : q.TestID = s0.TestID := by simpa using hqm.2
      obtain ⟨a, ha, has, haq⟩ := hinv.covered q.ID (hcov q hqm.1 hqt)
      exact ⟨a, List.mem_filter.mpr ⟨ha, by simpa using has⟩, haq⟩)
  have hallc : (db1.user_answers.filter (fun a => decide (a.SessionID = s0.ID))).countP
      (fun a => decide (a.IsCorrect = some true)) =
      (db1.user_answers.filter (fun a => decide (a.SessionID = s0.ID))).length := by
    rw [List.countP_eq_length]
    intro a ha
    have ham := List.mem_filter.mp ha
    have has : a.SessionID = s0.ID := by simpa using ham.2
    obtain ⟨q, hqq, hqt⟩ := hinv.answersOfTest a ham.1 has
    have hqm : q ∈ db0.questions := List.mem_of_find?_eq_some hqq
    have hqid : q.ID = a.QuestionID := by
      have := List.find?_some hqq
      simpa using this
    have hd : a.QuestionID ∈ done := by
      rw [← hqid]
      exact hcov q hqm hqt
    have := (hinv.answersDone a ham.1 has hd).1
    simp [this]
  obtain ⟨hlen, hcount, hsumA⟩ := GetBySession_counts dbU s0.ID
  rw [uA] at hlen hcount hsumA
  have hTQ : res.TotalQuestions =
      (db0.questions.filter (fun q => decide (q.TestID = s0.TestID))).length := by
    rw [hq]
    unfold QuestionRepository.GetByTestID
    rw [List.length_insertionSort, uQ, hr1t0]
  have hAQ : res.AnsweredQuestions = res.TotalQuestions := by
    rw [ha, hlen, hTQ, hcover.1]
  have hCA : res.CorrectAnswers = res.TotalQuestions := by
    rw [hc, tallyAnswers_zero, hcount, hallc, hTQ, hcover.1]
  have hMO : res.MarksObtained = test1.TotalMarks := by
    rw [hm, tallyAnswers_zero, hsumA, hcover.2, ← hsum]
    exact wrapInt64_of_range _ (by omega) hrange
  have hPct : res.Percentage = 100 := by
    rw [hp, if_pos hpos, hMO]
    exact percentage_full _ hpos
  refine ⟨{ res with CompletedAt := clk 4 }, hstore, hTQ, hAQ, hCA, hMO, htm, hPct, ?_, ?_⟩
  · show res.Grade = some "A+"
    rw [hg]
    congr 1
    rw [(CalculateGrade_iff res).1, hPct]
    norm_num
  · show res.IsPassed = true
    rw [hip, hMO]
    simpa using hpass

/-- The session that a successful `StartSession` returns is stored: a row of
`test_sessions` has its id, test, token, expiry time and status; and it is a
session of the test asked for. -/
theorem StartSession_ok_mem (db : DB) (clk : Nat → Time)
    (entropy : Except Err (Fin 32 → Fin 256)) (userID testID : Int) (s0 : TestSession)
    (db0 : DB)
    (h : TestSessionService.StartSession db clk entropy userID testID = (.ok s0, db0)) :
    (∃ row ∈ db0.test_sessions, row.ID = s0.ID ∧ row.TestID = s0.TestID ∧
      row.SessionToken = s0.SessionToken ∧ row.ExpiresAt = s0.ExpiresAt ∧
      row.Status = s0.Status) ∧ s0.TestID = testID := by
  have hcreate : ∀ test : Test,
      (match generateSessionToken entropy with
        | .error e => ((.error e, db) : Except Err TestSession × DB)
        | .ok token =>
          (.ok (TestSessionRepository.Create db (clk 3) (clk 4) (clk 5) (clk 6)
              { ID := 0, TestID := testID, UserID := userID, SessionToken := token,
                Status := SessionStatus.not_started, StartedAt := none, SubmittedAt := none,
                ExpiresAt := clk 2 + test.GetDuration,
                TimeRemaining := some (f64toInt (durationSeconds test.GetDuration)),
                CurrentQuestionIndex := 0, CreatedAt := 0, UpdatedAt := 0 }).1,
           (TestSessionRepository.Create db (clk 3) (clk 4) (clk 5) (clk 6)
              { ID := 0, TestID := testID, UserID := userID, SessionToken := token,
                Status := SessionStatus.not_started, StartedAt := none, SubmittedAt := none,
                ExpiresAt := clk 2 + test.GetDuration,
                TimeRemaining := some (f64toInt (durationSeconds test.GetDuration)),
                CurrentQuestionIndex := 0, CreatedAt := 0, UpdatedAt := 0 }).2)) =
        (.ok s0, db0) →
      (∃ row ∈ db0.test_sessions, row.ID = s0.ID ∧ row.TestID = s0.TestID ∧
        row.SessionToken = s0.SessionToken ∧ row.ExpiresAt = s0.ExpiresAt ∧
        row.Status = s0.Status) ∧ s0.TestID = testID := by
    intro test hc
    split at hc
    · simp at hc
    · simp only [Prod.mk.injEq, Except.ok.injEq] at hc
      obtain ⟨h1, h2⟩ := hc
      rw [SessionCreate_fst] at h1
      rw [SessionCreate_snd] at h2
      subst h1
      subst h2
      exact ⟨⟨_, List.mem_append_right _ (List.mem_singleton.mpr rfl), rfl, rfl, rfl, rfl, rfl⟩,
        rfl⟩
  unfold TestSessionService.StartSession at h
  split at h
  · simp at h
  · rename_i test ht
    split at h
    · simp at h
    · dsimp only at h
      split at h
      · rename_i existing hex
        split at h
        · simp only [Prod.mk.injEq, Except.ok.injEq] at h
          obtain ⟨h1, h2⟩ := h
          subst h1
          subst h2
          have hk := List.find?_some hex
          simp only [Bool.and_eq_true, decide_eq_true_eq] at hk
          exact ⟨⟨_, List.mem_of_find?_eq_some hex, rfl, rfl, rfl, rfl, rfl⟩, hk.2⟩
        · exact hcreate test h
      · exact hcreate test h

/-! ## End-to-end scoring -/

set_option maxRecDepth 100000 in
/-- C17, evaluated on the code: the test has the choice question 1 (5 marks,
option 1 correct) and the short-answer question 2 (5 marks), for which the
correct answers `"x"`, case-insensitive, and `"Paris"`, case-sensitive, are
registered in this order; total-marks is 10, the sum of the marks, and
passing-marks is 5. User 7 starts a session at clock 10, submits option 1 and
the text `"Paris"`, which matches the registered answer `"Paris"`, both before
the expiry, and submits the session at clock 300. The stored result has
two answered questions of two, but one correct answer, 5 marks, percentage 50
and grade C: the answer `"Paris"` has been scored as wrong. -/
theorem full_marks_lost_to_lowercased_answer :
    TestSessionService.StartSession exSlipDB (exClock 10) (.ok (fun _ => 0)) 7 1 =
      (.ok exRunSession,
       (TestSessionService.StartSession exSlipDB (exClock 10) (.ok (fun _ => 0)) 7 1).2) ∧
    exTest.IsAvailable (exClock 10 0) = true ∧
    exTest.TotalMarks = (exSlipDB.questions.map (fun q => q.Marks)).sum ∧
    exTest.PassingMarks ≤ exTest.TotalMarks ∧
    (∀ sub ∈ exSlipSubs, sub.clk 0 ≤ exRunSession.ExpiresAt ∧
      sub.clk 2 ≤ exRunSession.ExpiresAt) ∧
    specChoiceCorrect (QuestionRepository.lookups exSlipDB) exQuestionChoice (some 1) ∧
    specShortAnswerCorrect asciiLower
      (QuestionRepository.GetCorrectAnswersByQuestionID exSlipDB 2) (some "Paris") ∧
    TestResultRepository.GetBySessionID exSlipRun exRunSession.ID = some exSlipResult ∧
    exSlipResult.TotalQuestions = 2 ∧ exSlipResult.AnsweredQuestions = 2 ∧
    exSlipResult.CorrectAnswers = 1 ∧ exSlipResult.MarksObtained = 5 ∧
    exSlipResult.TotalMarks = 10 ∧ exSlipResult.Percentage = 50 ∧
    exSlipResult.Grade = some "C" ∧ exSlipResult.IsPassed = true := by
  refine ⟨Prod.ext (by with_unfolding_all rfl) rfl, rfl, by decide, by decide, ?_, ?_, ?_,
    by with_unfolding_all rfl, rfl, rfl, rfl, rfl, rfl, rfl, rfl, rfl⟩
  · intro sub hsub
    simp only [exSlipSubs, List.mem_cons, List.mem_singleton, List.not_mem_nil, or_false] at hsub
    rcases hsub with rfl | rfl <;> exact ⟨by decide, by decide⟩
  · exact ⟨1, _, rfl, rfl, _, List.mem_cons_self _ _, rfl, rfl⟩
  · exact ⟨"Paris", rfl, by decide, exAnswerParis, by decide, fun _ => by decide,
      fun h => absurd h (by decide)⟩

/-- End-to-end scoring where the defect of `scoreShortAnswer` does not strike:
let `StartSession` return the session `s0`, open, in a store `db0` that
satisfies the key constraints (`StoreKeys`) and holds no result of `s0`; let
the test of the session have a positive total-marks equal to the sum of its
questions' marks and a passing-marks that does not exceed it. If every
question of the test is answered by one of the submissions, each made before
the expiry with a correct answer (`Submission.Valid`: the correct option for a
choice question; for a short-answer question a text matching a correct answer
that only case-sensitive correct answers precede), then after `SubmitSession`
the stored result of the session has answered-questions = correct-answers =
total-questions, marks-obtained = total-marks, percentage 100, grade A+ and
is-passed true. -/
theorem full_marks_for_correct_answers (lowerRune : Char → Char) (db : DB)
    (clkStart : Nat → Time) (entropy : Except Err (Fin 32 → Fin 256)) (userID testID : Int)
    (s0 : TestSession) (db0 : DB) (test : Test) (subs : List Submission)
    (clkSubmit : Nat → Time)
    (hstart : TestSessionService.StartSession db clkStart entropy userID testID =
      (.ok s0, db0))
    (hopen : s0.Status = SessionStatus.not_started ∨ s0.Status = SessionStatus.in_progress)
    (hK : StoreKeys db0 s0)
    (hR : TestResultRepository.GetBySessionID db0 s0.ID = none)
    (htest : TestRepository.GetByID db0 testID = some test)
    (hsum : test.TotalMarks =
      ((db0.questions.filter (fun q => decide (q.TestID = testID))).map
        (fun q => q.Marks)).sum)
    (hpass : test.PassingMarks ≤ test.TotalMarks) (hpos : 0 < test.TotalMarks)
    (hrange : test.TotalMarks < 2 ^ 63)
    (hvalid : ∀ sub ∈ subs, sub.Valid lowerRune db0 s0)
    (hall : ∀ q ∈ db0.questions, q.TestID = testID →
      q.ID ∈ subs.map (fun s => s.questionID)) :
    ∃ res, TestResultRepository.GetBySessionID
        (TestSessionService.SubmitSession
          (execAll lowerRune db0 (subs.map (Submission.toCall s0.SessionToken)))
          clkSubmit s0.SessionToken).2 s0.ID = some res ∧
      res.TotalQuestions =
        (db0.questions.filter (fun q => decide (q.TestID = testID))).length ∧
      res.AnsweredQuestions = res.TotalQuestions ∧
      res.CorrectAnswers = res.TotalQuestions ∧
      res.MarksObtained = test.TotalMarks ∧
      res.TotalMarks = test.TotalMarks ∧
      res.Percentage = 100 ∧ res.Grade = some "A+" ∧ res.IsPassed = true := by
  obtain ⟨hmem, htid⟩ := StartSession_ok_mem db clkStart entropy userID testID s0 db0 hstart
  subst htid
  have hinit := RunInv_init db0 s0 hK hmem hopen
  have hrun := RunInv_execAll lowerRune db0 s0 subs db0 [] hinit hvalid
  apply RunInv_submit db0 _ s0 _ clkSubmit test hrun hK.questionIDs ?_ hR htest hsum hpass hpos
    hrange
  intro q hq hqt
  have := hall q hq hqt
  simpa using this

set_option maxRecDepth 100000 in
/-- The two-question scenario of the specification: the test has
the choice question 1 (5 marks, option 1 correct) and the short-answer
question 2 (5 marks, correct answer `"42"`), total-marks 10; user 7 starts a
session at clock 10, submits option 1 and the text `"42"`, and submits the
session at clock 300. -/
theorem full_marks_for_correct_answers_witness :
    ∃ res, TestResultRepository.GetBySessionID
        (TestSessionService.SubmitSession
          (execAll asciiLower
            (TestSessionService.StartSession (exDB []) (exClock 10) (.ok (fun _ => 0)) 7 1).2
            (exRunSubs.map (Submission.toCall exRunSession.SessionToken)))
          (exClock 300) exRunSession.SessionToken).2 exRunSession.ID = some res ∧
      res.TotalQuestions =
        ((TestSessionService.StartSession (exDB []) (exClock 10)
          (.ok (fun _ => 0)) 7 1).2.questions.filter (fun q => decide (q.TestID = 1))).length ∧
      res.AnsweredQuestions = res.TotalQuestions ∧
      res.CorrectAnswers = res.TotalQuestions ∧
      res.MarksObtained = exTest.TotalMarks ∧
      res.TotalMarks = exTest.TotalMarks ∧
      res.Percentage = 100 ∧ res.Grade = some "A+" ∧ res.IsPassed = true :=
  full_marks_for_correct_answers asciiLower (exDB []) (exClock 10) (.ok (fun _ => 0)) 7 1
    exRunSession
    (TestSessionService.StartSession (exDB []) (exClock 10) (.ok (fun _ => 0)) 7 1).2
    exTest exRunSubs (exClock 300)
    (Prod.ext (by with_unfolding_all rfl) rfl)
    (Or.inl rfl)
    { questionIDs := by decide
      sessionIDs := by show List.Nodup _; decide
      sessionTokens := by decide
      answerIDs := by decide
      answerSeq := by decide
      answersUnique := fun _ _ => Nat.zero_le 1
      answersOfTest := by decide }
    rfl rfl rfl (by decide) (by decide) (by decide)
    (by
      intro sub hsub
      rcases List.mem_cons.mp hsub with rfl | hsub
      · exact ⟨by decide, by decide, exQuestionChoice, rfl, rfl,
          1, _, rfl, rfl, _, List.mem_cons_self _ _, rfl, rfl⟩
      · rcases List.mem_cons.mp hsub with rfl | hsub
        · exact ⟨by decide, by decide, exQuestionShort, rfl, rfl,
            [], _, [], rfl, by simp, "42", rfl, by decide, _, List.mem_cons_self _ _,
            fun h => absurd h (by decide), fun _ => by decide⟩
        · exact absurd hsub (List.not_mem_nil _))
    (by decide)

/-! ## Remaining time -/

theorem durationSeconds_nonneg (d : Int) (h : 0 ≤ d) : 0 ≤ durationSeconds d := by
  unfold durationSeconds f64add f64div f64ofInt
  have h1 : (0 : ℚ) ≤ ((Int.tdiv d 1000000000 : Int) : ℚ) := by
    have : 0 ≤ Int.tdiv d 1000000000 := by
      rw [Int.tdiv_eq_ediv h (by norm_num)]
      omega
    exact_mod_cast this
  have h2 : (0 : ℚ) ≤ ((Int.tmod d 1000000000 : Int) : ℚ) := by
    have : 0 ≤ Int.tmod d 1000000000 := by
      rw [Int.tmod_eq_emod h (by norm_num)]
      omega
    exact_mod_cast this
  have h3 : (0 : ℚ) ≤ f64round 1000000000 := f64round_nonneg _ (by norm_num)
  apply f64round_nonneg
  apply add_nonneg (f64round_nonneg _ h1)
  apply f64round_nonneg
  exact div_nonneg (f64round_nonneg _ h2) h3

theorem f64toInt_nonpos (x : ℚ) (h : x ≤ 0) : f64toInt x ≤ 0 := by
  unfold f64toInt
  have hfl : ∀ z : ℚ, Rat.floor z = ⌊z⌋ := fun _ => rfl
  split
  · have : x = 0 := le_antisymm h (by assumption)
    rw [this, hfl]
    simp
  · rw [hfl]
    have : 0 ≤ ⌊-x⌋ := Int.floor_nonneg.mpr (by linarith)
    omega

theorem timeSub_nonpos (t u : Int) (h : t ≤ u) : timeSub t u ≤ 0 := by
  unfold timeSub
  have h1 : min (2 ^ 63 - 1) (t - u) ≤ 0 := le_trans (min_le_right _ _) (by omega)
  exact max_le (by norm_num) h1

theorem remaining_of_past (e n : Int) (h : e ≤ n) :
    (if f64toInt (durationSeconds (timeSub e n)) < 0 then 0
      else f64toInt (durationSeconds (timeSub e n))) = 0 := by
  have hts := timeSub_nonpos e n h
  have hd : durationSeconds (timeSub e n) ≤ 0 := by
    have hneg := durationSeconds_nonneg (-(timeSub e n)) (by omega)
    rw [durationSeconds_neg] at hneg
    linarith
  have hle := f64toInt_nonpos _ hd
  by_cases hlt : f64toInt (durationSeconds (timeSub e n)) < 0
  · rw [if_pos hlt]
  · rw [if_neg hlt]
    omega

theorem remaining_of_near (e n : Int) (h : e - n < 16777216 * 1000000000) :
    (if f64toInt (durationSeconds (timeSub e n)) < 0 then 0
      else f64toInt (durationSeconds (timeSub e n))) = max 0 ((e - n) / 1000000000) := by
  by_cases hle : e ≤ n
  · rw [remaining_of_past e n hle]
    have : (e - n) / 1000000000 ≤ 0 := by omega
    exact (max_eq_left this).symm
  · have hpos : 0 ≤ e - n := by omega
    have habs : |e - n| < 16777216 * 1000000000 := by
      rw [abs_of_nonneg hpos]
      exact h
    rw [timeSub_of_small _ _ habs, durationSeconds_trunc _ habs,
      Int.tdiv_eq_ediv hpos (by norm_num)]
    have hq : 0 ≤ (e - n) / 1000000000 := by omega
    rw [if_neg (by omega), max_eq_right hq]

/-- The value of `GetRemainingTime` on a session without a cached
time-remaining that is not expired at the first reading: 0 when the expiry is
not after the second reading, and the whole seconds between the second reading
and the expiry when these are fewer than `2 ^ 24`. -/
theorem GetRemainingTime_of_uncached (s : TestSession) (clk : Nat → Time)
    (h0 : clk 0 ≤ s.ExpiresAt) (hn : s.TimeRemaining = none) :
    (s.ExpiresAt ≤ clk 1 → s.GetRemainingTime clk = 0) ∧
    (s.ExpiresAt - clk 1 < 16777216 * 1000000000 →
      s.GetRemainingTime clk = specRemainingTime s.ExpiresAt (clk 1)) := by
  have hne : ¬ s.IsExpired (clk 0) = true := not_isExpired_of_le s _ h0
  have hval : s.GetRemainingTime clk =
      if f64toInt (durationSeconds (timeSub s.ExpiresAt (clk 1))) < 0 then 0
      else f64toInt (durationSeconds (timeSub s.ExpiresAt (clk 1))) := by
    unfold TestSession.GetRemainingTime
    rw [if_neg hne, hn]
  constructor
  · intro hle
    rw [hval]
    exact remaining_of_past _ _ hle
  · intro hlt
    rw [hval]
    exact remaining_of_near _ _ hlt

set_option maxRecDepth 100000 in
/-- C21, counterexample: the session `exBareSession` is in progress, has no
cached time-remaining and expires 16777216.999999999 seconds after instant 0.
At instant 0 it is not expired and `max(0, expires-at − now)` is 16777216 whole
seconds, but `GetRemainingTime` returns 16777217, more than the time that is
left: the float64 returned by `Duration.Seconds` cannot hold the nanoseconds
next to `2 ^ 24` seconds and rounds up. -/
theorem GetRemainingTime_rounds_up :
    exBareSession.IsExpired 0 = false ∧ exBareSession.TimeRemaining = none ∧
    exBareSession.GetRemainingTime (fun _ => 0) = 16777217 ∧
    specRemainingTime exBareSession.ExpiresAt 0 = 16777216 ∧
    exBareSession.ExpiresAt - 0 < 16777217 * 1000000000 := by
  refine ⟨by decide, rfl, ?_, by decide, by decide⟩
  with_unfolding_all rfl

/-- C21, amended: `GetRemainingTime` returns 0 for every session whose
expires-at has passed at its first clock reading; for a session that has not
expired then and has no cached time-remaining it returns 0 when expires-at is
not after the reading `now` of `time.Until`, and `max(0, expires-at − now)` in
whole seconds whenever expires-at is less than `2 ^ 24` seconds after `now`. -/
theorem GetRemainingTime_expired_or_uncached (s : TestSession) (clk : Nat → Time) :
    (s.ExpiresAt < clk 0 → s.GetRemainingTime clk = 0) ∧
    (clk 0 ≤ s.ExpiresAt → s.TimeRemaining = none →
      (s.ExpiresAt ≤ clk 1 → s.GetRemainingTime clk = 0) ∧
      (s.ExpiresAt - clk 1 < 16777216 * 1000000000 →
        s.GetRemainingTime clk = specRemainingTime s.ExpiresAt (clk 1))) := by
  constructor
  · intro h
    unfold TestSession.GetRemainingTime
    rw [if_pos (by simp [TestSession.IsExpired, h])]
  · intro h0 hn
    exact GetRemainingTime_of_uncached s clk h0 hn

set_option maxRecDepth 100000 in
/-- C21 amended, at concrete inputs: a session without cached time-remaining
that expires at second 1000 has 0 seconds left at second 1001 and 899 seconds
left at second 100.5. -/
theorem GetRemainingTime_expired_or_uncached_witness :
    ({ exBareSession with ExpiresAt := 1000000000000 } : TestSession).GetRemainingTime
      (fun _ => 1001000000000) = 0 ∧
    ({ exBareSession with ExpiresAt := 1000000000000 } : TestSession).GetRemainingTime
      (fun _ => 100500000000) =
      specRemainingTime 1000000000000 100500000000 ∧
    specRemainingTime 1000000000000 100500000000 = 899 :=
  ⟨(GetRemainingTime_expired_or_uncached { exBareSession with ExpiresAt := 1000000000000 }
      (fun _ => 1001000000000)).1 (by decide),
   ((GetRemainingTime_expired_or_uncached { exBareSession with ExpiresAt := 1000000000000 }
      (fun _ => 100500000000)).2 (by decide) rfl).2 (by decide),
   by decide⟩

/-! ## The session created by `StartSession` -/

/-- What `StartSession` returns and stores when it adds a row to
`test_sessions`: the row carries the timestamps of the database, the session
returned carries them on the driver `postgres` and later readings of the
clock on another driver. -/
theorem StartSession_created (db : DB) (clk : Nat → Time)
    (entropy : Except Err (Fin 32 → Fin 256)) (userID testID : Int) (s0 : TestSession)
    (db0 : DB)
    (h : TestSessionService.StartSession db clk entropy userID testID = (.ok s0, db0))
    (hnew : db0.test_sessions ≠ db.test_sessions) :
    ∃ test token, TestRepository.GetByID db testID = some test ∧
      test.IsAvailable (clk 0) = true ∧
      generateSessionToken entropy = .ok token ∧
      s0 = { ID := db.test_sessions_seq + 1, TestID := testID, UserID := userID,
             SessionToken := token, Status := SessionStatus.not_started,
             StartedAt := none, SubmittedAt := none,
             ExpiresAt := clk 2 + test.GetDuration,
             TimeRemaining := some (f64toInt (durationSeconds test.GetDuration)),
             CurrentQuestionIndex := 0,
             CreatedAt := if db.Driver = "postgres" then clk 3 else clk 5,
             UpdatedAt := if db.Driver = "postgres" then clk 4 else clk 6 } ∧
      db0.test_sessions = db.test_sessions ++
        [{ ID := db.test_sessions_seq + 1, TestID := testID, UserID := userID,
           SessionToken := token, Status := SessionStatus.not_started,
           StartedAt := none, SubmittedAt := none,
           ExpiresAt := clk 2 + test.GetDuration,
           TimeRemaining := some (f64toInt (durationSeconds test.GetDuration)),
           CurrentQuestionIndex := 0, CreatedAt := clk 3, UpdatedAt := clk 4 }] := by
  have hcreate : ∀ test : Test, TestRepository.GetByID db testID = some test →
      test.IsAvailable (clk 0) = true →
      (match generateSessionToken entropy with
        | .error e => ((.error e, db) : Except Err TestSession × DB)
        | .ok token =>
          (.ok (TestSessionRepository.Create db (clk 3) (clk 4) (clk 5) (clk 6)
              { ID := 0, TestID := testID, UserID := userID, SessionToken := token,
                Status := SessionStatus.not_started, StartedAt := none, SubmittedAt := none,
                ExpiresAt := clk 2 + test.GetDuration,
                TimeRemaining := some (f64toInt (durationSeconds test.GetDuration)),
                CurrentQuestionIndex := 0, CreatedAt := 0, UpdatedAt := 0 }).1,
           (TestSessionRepository.Create db (clk 3) (clk 4) (clk 5) (clk 6)
              { ID := 0, TestID := testID, UserID := userID, SessionToken := token,
                Status := SessionStatus.not_started, StartedAt := none, SubmittedAt := none,
                ExpiresAt := clk 2 + test.GetDuration,
                TimeRemaining := some (f64toInt (durationSeconds test.GetDuration)),
                CurrentQuestionIndex := 0, CreatedAt := 0, UpdatedAt := 0 }).2)) =
        (.ok s0, db0) →
      ∃ test token, TestRepository.GetByID db testID = some test ∧
        test.IsAvailable (clk 0) = true ∧
        generateSessionToken entropy = .ok token ∧
        s0 = { ID := db.test_sessions_seq + 1, TestID := testID, UserID := userID,
               SessionToken := token, Status := SessionStatus.not_started,
               StartedAt := none, SubmittedAt := none,
               ExpiresAt := clk 2 + test.GetDuration,
               TimeRemaining := some (f64toInt (durationSeconds test.GetDuration)),
               CurrentQuestionIndex := 0,
               CreatedAt := if db.Driver = "postgres" then clk 3 else clk 5,
               UpdatedAt := if db.Driver = "postgres" then clk 4 else clk 6 } ∧
        db0.test_sessions = db.test_sessions ++
          [{ ID := db.test_sessions_seq + 1, TestID := testID, UserID := userID,
             SessionToken := token, Status := SessionStatus.not_started,
             StartedAt := none, SubmittedAt := none,
             ExpiresAt := clk 2 + test.GetDuration,
             TimeRemaining := some (f64toInt (durationSeconds test.GetDuration)),
             CurrentQuestionIndex := 0, CreatedAt := clk 3, UpdatedAt := clk 4 }] := by
    intro test ht hav hc
    split at hc
    · simp at hc
    · rename_i token htok
      simp only [Prod.mk.injEq, Except.ok.injEq] at hc
      obtain ⟨h1, h2⟩ := hc
      rw [SessionCreate_fst] at h1
      rw [SessionCreate_snd] at h2
      subst h1
      subst h2
      exact ⟨test, token, ht, hav, htok, rfl, rfl⟩
  unfold TestSessionService.StartSession at h
  split at h
  · simp at h
  · rename_i test ht
    split at h
    · simp at h
    · rename_i hav
      have hav1 : test.IsAvailable (clk 0) = true := by
        cases hb : test.IsAvailable (clk 0) with
        | true => rfl
        | false => exact absurd hb hav
      dsimp only at h
      split at h
      · rename_i existing hex
        split at h
        · simp only [Prod.mk.injEq, Except.ok.injEq] at h
          exact absurd (by rw [← h.2]) hnew
        · exact hcreate test ht hav1 h
      · exact hcreate test ht hav1 h

theorem hexByte_chars (b : Fin 256) :
    (hexByte b).length = 2 ∧ ∀ c ∈ hexByte b, c ∈ "0123456789abcdef".data := by
  have hlen : "0123456789abcdef".data.length = 16 := by decide
  have hd : ∀ i, i < 16 →
      "0123456789abcdef".data.getD i '0' ∈ "0123456789abcdef".data := by
    intro i hi
    rw [List.getD_eq_getElem _ _ (by rw [hlen]; exact hi)]
    exact List.getElem_mem _
  refine ⟨rfl, ?_⟩
  intro c hc
  simp only [hexByte, List.mem_cons, List.mem_singleton, List.not_mem_nil, or_false] at hc
  rcases hc with rfl | rfl
  · exact hd _ (by have := b.isLt; omega)
  · exact hd _ (by omega)

/-- The token that `generateSessionToken` returns: 64 characters, each a
lower-case hexadecimal digit, two for each of the 32 bytes read. -/
theorem generateSessionToken_hex (entropy : Except Err (Fin 32 → Fin 256)) (token : String)
    (h : generateSessionToken entropy = .ok token) :
    ∃ bytes, entropy = .ok bytes ∧
      token.data = (List.ofFn bytes).flatMap hexByte ∧
      token.length = 64 ∧ ∀ c ∈ token.data, c ∈ "0123456789abcdef".data := by
  unfold generateSessionToken at h
  split at h
  · simp at h
  · rename_i bytes
    simp only [Except.ok.injEq] at h
    subst h
    refine ⟨bytes, rfl, rfl, ?_, ?_⟩
    · show ((List.ofFn bytes).flatMap hexByte).length = 64
      rw [List.length_flatMap]
      have : (List.map (List.length ∘ hexByte) (List.ofFn bytes)) =
          List.map (fun _ => 2) (List.ofFn bytes) := by
        apply List.map_congr_left
        intro b _
        exact (hexByte_chars b).1
      rw [this]
      simp
    · intro c hc
      show c ∈ "0123456789abcdef".data
      have hc1 : c ∈ (List.ofFn bytes).flatMap hexByte := hc
      obtain ⟨b, -, hb⟩ := List.mem_flatMap.mp hc1
      exact (hexByte_chars b).2 c hb

theorem f64toInt_intCast (k : Int) : f64toInt (k : ℚ) = k := by
  unfold f64toInt
  have hfl : ∀ z : ℚ, Rat.floor z = ⌊z⌋ := fun _ => rfl
  split
  · rw [hfl, Int.floor_intCast]
  · rw [hfl]
    have : -(k : ℚ) = ((-k : Int) : ℚ) := by push_cast; rfl
    rw [this, Int.floor_intCast]
    omega

/-- `Duration.Seconds` of a whole number of seconds is that number. -/
theorem durationSeconds_whole (k : Int) (h : |k| < 2 ^ 53) :
    f64toInt (durationSeconds (k * 1000000000)) = k := by
  unfold durationSeconds f64add f64div f64ofInt
  have h1 : Int.tdiv (k * 1000000000) 1000000000 = k :=
    Int.mul_tdiv_cancel k (by norm_num)
  have h2 : Int.tmod (k * 1000000000) 1000000000 = 0 := Int.mul_tmod_left k 1000000000
  rw [h1, h2]
  have e1 : f64round ((k : Int) : ℚ) = k := f64round_intCast k h
  have e0 : f64round (((0 : Int) : ℚ)) = 0 := by simp [f64round_zero]
  rw [e1, e0, zero_div, f64round_zero, add_zero, e1]
  exact f64toInt_intCast k

set_option maxRecDepth 100000 in
/-- C22, counterexample: the test `exOverflowTest` is available and lasts
153722868 minutes. `StartSession` at clock 10 creates the session
`exOverflowSession`: its expires-at lies before the reading of the clock, not
153722868 minutes after it, and its time-remaining is -9223371993, not
`60 × 153722868`: `time.Duration(minutes) * time.Minute` wraps around in 64
bits. -/
theorem StartSession_duration_wraps :
    exOverflowTest.IsAvailable (exClock 10 0) = true ∧
    TestSessionService.StartSession exOverflowDB (exClock 10) (.ok (fun _ => 0)) 7 1 =
      (.ok exOverflowSession,
       { exOverflowDB with test_sessions := [exOverflowSession], test_sessions_seq := 1 }) ∧
    exOverflowSession.ExpiresAt ≠
      exClock 10 2 + exOverflowTest.DurationMinutes * 60000000000 ∧
    exOverflowSession.ExpiresAt < exClock 10 2 ∧
    exOverflowSession.TimeRemaining ≠ some (60 * exOverflowTest.DurationMinutes) := by
  refine ⟨rfl, ?_, by decide, by decide, by decide⟩
  with_unfolding_all rfl

/-- C22, amended: when `StartSession` adds a session, the row appended to
`test_sessions` has status `not_started`, current-question-index 0, no
started-at and no submitted-at; its token is the hexadecimal encoding of the
32 bytes read, 64 hexadecimal characters; its expires-at is the clock reading
of the call plus `test.GetDuration()` and its time-remaining is
`int(test.GetDuration().Seconds())`. Provided that
`duration-minutes × 60 × 10⁹` fits in 64 bits, these are the reading plus
duration-minutes minutes and `60 × duration-minutes`. The session returned is
that row up to created-at and updated-at, which on the row are the timestamps
of the database; it is the row itself on the driver `postgres`, and carries
later readings of the clock on another driver. -/
theorem StartSession_new_session (db : DB) (clk : Nat → Time)
    (entropy : Except Err (Fin 32 → Fin 256)) (userID testID : Int) (s0 : TestSession)
    (db0 : DB)
    (h : TestSessionService.StartSession db clk entropy userID testID = (.ok s0, db0))
    (hnew : db0.test_sessions ≠ db.test_sessions) :
    ∃ test row, TestRepository.GetByID db testID = some test ∧
      test.IsAvailable (clk 0) = true ∧
      db0.test_sessions = db.test_sessions ++ [row] ∧
      row.TestID = testID ∧ row.UserID = userID ∧
      row.Status = SessionStatus.not_started ∧ row.CurrentQuestionIndex = 0 ∧
      row.StartedAt = none ∧ row.SubmittedAt = none ∧
      row.ExpiresAt = clk 2 + test.GetDuration ∧
      row.TimeRemaining = some (f64toInt (durationSeconds test.GetDuration)) ∧
      (-(2 ^ 63) ≤ test.DurationMinutes * 60000000000 →
        test.DurationMinutes * 60000000000 < 2 ^ 63 →
        row.ExpiresAt = clk 2 + test.DurationMinutes * 60000000000 ∧
        row.TimeRemaining = some (60 * test.DurationMinutes)) ∧
      (∃ bytes, entropy = .ok bytes ∧
        row.SessionToken.data = (List.ofFn bytes).flatMap hexByte) ∧
      row.SessionToken.length = 64 ∧
      (∀ c ∈ row.SessionToken.data, c ∈ "0123456789abcdef".data) ∧
      row.CreatedAt = clk 3 ∧ row.UpdatedAt = clk 4 ∧
      s0 = { row with CreatedAt := s0.CreatedAt, UpdatedAt := s0.UpdatedAt } ∧
      (db.Driver = "postgres" → s0 = row) ∧
      (db.Driver ≠ "postgres" → s0.CreatedAt = clk 5 ∧ s0.UpdatedAt = clk 6) := by
  obtain ⟨test, token, ht, hav, htok, hs, hdb⟩ :=
    StartSession_created db clk entropy userID testID s0 db0 h hnew
  obtain ⟨bytes, hb, hdata, hlen, hchars⟩ := generateSessionToken_hex entropy token htok
  refine ⟨test, _, ht, hav, hdb, rfl, rfl, rfl, rfl, rfl, rfl, rfl, rfl, ?_, ⟨bytes, hb, hdata⟩,
    hlen, hchars, rfl, rfl, ?_, ?_, ?_⟩
  · intro h1 h2
    have hd : test.GetDuration = test.DurationMinutes * 60000000000 :=
      wrapInt64_of_range _ h1 h2
    refine ⟨by show clk 2 + test.GetDuration = _; rw [hd], ?_⟩
    show some (f64toInt (durationSeconds test.GetDuration)) = _
    have hk : |60 * test.DurationMinutes| < 2 ^ 53 := by
      rw [abs_lt]
      constructor <;> omega
    have : test.DurationMinutes * 60000000000 = 60 * test.DurationMinutes * 1000000000 := by
      ring
    rw [hd, this, durationSeconds_whole _ hk]
  · subst hs
    rfl
  · intro hp
    rw [hs, if_pos hp, if_pos hp]
  · intro hp
    rw [hs, if_neg hp, if_neg hp]
    exact ⟨rfl, rfl⟩

set_option maxRecDepth 100000 in
/-- C22 amended, at a concrete input: `StartSession` at clock 10 for user 7 on
the thirty-minute test of a store without sessions, on the driver `postgres`,
stores and returns `exRunSession`, expiring 1800 seconds after the reading 12,
with time-remaining 1800. -/
theorem StartSession_new_session_witness :
    (∃ test row, TestRepository.GetByID (exDB []) 1 = some test ∧
      test.IsAvailable (exClock 10 0) = true ∧
      (TestSessionService.StartSession (exDB []) (exClock 10)
        (.ok (fun _ => 0)) 7 1).2.test_sessions = (exDB []).test_sessions ++ [row] ∧
      row.TestID = 1 ∧ row.UserID = 7 ∧
      row.Status = SessionStatus.not_started ∧
      row.CurrentQuestionIndex = 0 ∧
      row.StartedAt = none ∧ row.SubmittedAt = none ∧
      row.ExpiresAt = exClock 10 2 + test.GetDuration ∧
      row.TimeRemaining = some (f64toInt (durationSeconds test.GetDuration)) ∧
      (-(2 ^ 63) ≤ test.DurationMinutes * 60000000000 →
        test.DurationMinutes * 60000000000 < 2 ^ 63 →
        row.ExpiresAt = exClock 10 2 + test.DurationMinutes * 60000000000 ∧
        row.TimeRemaining = some (60 * test.DurationMinutes)) ∧
      (∃ bytes, (.ok (fun _ => 0) : Except Err (Fin 32 → Fin 256)) = .ok bytes ∧
        row.SessionToken.data = (List.ofFn bytes).flatMap hexByte) ∧
      row.SessionToken.length = 64 ∧
      (∀ c ∈ row.SessionToken.data, c ∈ "0123456789abcdef".data) ∧
      row.CreatedAt = exClock 10 3 ∧ row.UpdatedAt = exClock 10 4 ∧
      exRunSession =
        { row with CreatedAt := exRunSession.CreatedAt,
                   UpdatedAt := exRunSession.UpdatedAt } ∧
      ((exDB []).Driver = "postgres" → exRunSession = row) ∧
      ((exDB []).Driver ≠ "postgres" →
        exRunSession.CreatedAt = exClock 10 5 ∧ exRunSession.UpdatedAt = exClock 10 6)) ∧
    (TestSessionService.StartSession (exDB []) (exClock 10)
      (.ok (fun _ => 0)) 7 1).2.test_sessions = [exRunSession] ∧
    exRunSession.ExpiresAt = 12 + 1800 * 1000000000 ∧
    exRunSession.TimeRemaining = some 1800 :=
  ⟨StartSession_new_session (exDB []) (exClock 10) (.ok (fun _ => 0)) 7 1 exRunSession
      (TestSessionService.StartSession (exDB []) (exClock 10) (.ok (fun _ => 0)) 7 1).2
      (Prod.ext (by with_unfolding_all rfl) rfl) (by decide),
   by with_unfolding_all rfl, by decide, rfl⟩

/-! ## The cached time-remaining -/

theorem GetRemainingTime_of_cached (s : TestSession) (clk : Nat → Time) (t : Int)
    (h0 : clk 0 ≤ s.ExpiresAt) (ht : s.TimeRemaining = some t) :
    s.GetRemainingTime clk = t := by
  unfold TestSession.GetRemainingTime
  rw [if_neg (not_isExpired_of_le s _ h0), ht]

set_option maxRecDepth 100000 in
/-- C30, evaluated on the code: `StartSession` at clock 10 creates the session
`exRunSession` of the thirty-minute test, which expires at 1800.000000012
seconds. `GetSession` 100 seconds later returns it unchanged and unexpired;
1700 whole seconds are left until expires-at, but `GetRemainingTime` returns
1800, the time-remaining cached at creation, and does so at every reading of
the clock up to the expiry. -/
theorem GetRemainingTime_of_started_session_is_stale :
    (TestSessionService.StartSession (exDB []) (exClock 10) (.ok (fun _ => 0)) 7 1).1 =
      .ok exRunSession ∧
    (TestSessionService.GetSession
      (TestSessionService.StartSession (exDB []) (exClock 10) (.ok (fun _ => 0)) 7 1).2
      (fun _ => 100000000012) exRunSession.SessionToken).1 = .ok exRunSession ∧
    exRunSession.IsExpired 100000000012 = false ∧
    specRemainingTime exRunSession.ExpiresAt 100000000012 = 1700 ∧
    exRunSession.GetRemainingTime (fun _ => 100000000012) = 1800 ∧
    (∀ clk : Nat → Time, clk 0 ≤ exRunSession.ExpiresAt →
      exRunSession.GetRemainingTime clk = 1800) := by
  refine ⟨by with_unfolding_all rfl, by with_unfolding_all rfl, by decide, by decide, ?_, ?_⟩
  · exact GetRemainingTime_of_cached exRunSession _ 1800 (by decide) rfl
  · intro clk h
    exact GetRemainingTime_of_cached exRunSession clk 1800 h rfl

/-! ## Availability of a test -/

theorem IsAvailable_iff (t : Test) (now : Time) :
    t.IsAvailable now = true ↔
      t.IsActive = true ∧
      (t.StartTime = none ∨ ∃ st, t.StartTime = some st ∧ ¬ now < st) ∧
      (t.EndTime = none ∨ ∃ en, t.EndTime = some en ∧ ¬ en < now) := by
  unfold Test.IsAvailable
  cases ha : t.IsActive <;> cases hs : t.StartTime <;> cases he : t.EndTime <;> simp

theorem StartSession_of_missing (db : DB) (clk : Nat → Time)
    (entropy : Except Err (Fin 32 → Fin 256)) (userID testID : Int)
    (h : TestRepository.GetByID db testID = none) :
    TestSessionService.StartSession db clk entropy userID testID =
      (.error Err.testNotAvailable, db) := by
  simp only [TestSessionService.StartSession, h]

theorem StartSession_of_unavailable (db : DB) (clk : Nat → Time)
    (entropy : Except Err (Fin 32 → Fin 256)) (userID testID : Int) (t : Test)
    (h : TestRepository.GetByID db testID = some t) (hav : t.IsAvailable (clk 0) = false) :
    TestSessionService.StartSession db clk entropy userID testID =
      (.error Err.testNotAvailable, db) := by
  simp only [TestSessionService.StartSession, h, hav, if_true]

/-- C23: `Test.IsAvailable` at time `now` is true exactly when the test is
active, has no start time or `now` is not before it, and has no end time or
`now` is not after it; and `StartSession` on a test that is missing, or not
available at the reading of the clock, returns an error and leaves the store,
hence the session table, as it was. -/
theorem IsAvailable_iff_and_StartSession_refuses (t : Test) (now : Time) (db : DB)
    (clk : Nat → Time) (entropy : Except Err (Fin 32 → Fin 256)) (userID testID : Int) :
    (t.IsAvailable now = true ↔
      t.IsActive = true ∧
      (t.StartTime = none ∨ ∃ st, t.StartTime = some st ∧ ¬ now < st) ∧
      (t.EndTime = none ∨ ∃ en, t.EndTime = some en ∧ ¬ en < now)) ∧
    ((TestRepository.GetByID db testID = none ∨
        ∃ t1, TestRepository.GetByID db testID = some t1 ∧ t1.IsAvailable (clk 0) = false) →
      (∃ e, (TestSessionService.StartSession db clk entropy userID testID).1 = .error e) ∧
      (TestSessionService.StartSession db clk entropy userID testID).2 = db) := by
  refine ⟨IsAvailable_iff t now, ?_⟩
  rintro (h | ⟨t1, h, hav⟩)
  · rw [StartSession_of_missing db clk entropy userID testID h]
    exact ⟨⟨_, rfl⟩, rfl⟩
  · rw [StartSession_of_unavailable db clk entropy userID testID t1 h hav]
    exact ⟨⟨_, rfl⟩, rfl⟩

/-- C23, at concrete inputs: the test 1 of `exDB []`, restricted to the window
from 100 to 200, is available at 100 and at 200 and not at 99 or 201; a start
on the missing test 9 and a start on the deactivated test 1 fail and store
nothing. -/
theorem IsAvailable_iff_and_StartSession_refuses_witness :
    ({ exTest with StartTime := some 100, EndTime := some 200 } : Test).IsAvailable 100 = true ∧
    ({ exTest with StartTime := some 100, EndTime := some 200 } : Test).IsAvailable 200 = true ∧
    ({ exTest with StartTime := some 100, EndTime := some 200 } : Test).IsAvailable 99 = false ∧
    ({ exTest with StartTime := some 100, EndTime := some 200 } : Test).IsAvailable 201 = false ∧
    ((∃ e, (TestSessionService.StartSession (exDB []) (exClock 10)
        (.ok (fun _ => 0)) 7 9).1 = .error e) ∧
      (TestSessionService.StartSession (exDB []) (exClock 10) (.ok (fun _ => 0)) 7 9).2 =
        exDB []) ∧
    ((∃ e, (TestSessionService.StartSession
        { exDB [] with tests := [{ exTest with IsActive := false }] } (exClock 10)
        (.ok (fun _ => 0)) 7 1).1 = .error e) ∧
      (TestSessionService.StartSession
        { exDB [] with tests := [{ exTest with IsActive := false }] } (exClock 10)
        (.ok (fun _ => 0)) 7 1).2 =
        { exDB [] with tests := [{ exTest with IsActive := false }] }) :=
  ⟨by decide, by decide, by decide, by decide,
   (IsAvailable_iff_and_StartSession_refuses exTest 0 (exDB []) (exClock 10)
      (.ok (fun _ => 0)) 7 9).2 (Or.inl rfl),
   (IsAvailable_iff_and_StartSession_refuses exTest 0
      { exDB [] with tests := [{ exTest with IsActive := false }] } (exClock 10)
      (.ok (fun _ => 0)) 7 1).2 (Or.inr ⟨_, rfl, rfl⟩)⟩

/-! ## Marks awarded by the scoring engine -/

theorem scoreMultipleChoiceLoop_cases (marks selected : Int) (options : List QuestionOption) :
    scoreMultipleChoiceLoop marks selected options = (true, marks) ∨
    scoreMultipleChoiceLoop marks selected options = (false, 0) := by
  by_cases h : ∃ o ∈ options, o.ID = selected ∧ o.IsCorrect = true
  · exact Or.inl (scoreMultipleChoiceLoop_true _ _ _ h)
  · exact Or.inr (scoreMultipleChoiceLoop_false _ _ _ h)

theorem scoreShortAnswerLoop_cases (lowerRune : Char → Char) (marks : Int)
    (correctAnswers : List CorrectAnswer) :
    ∀ userAnswer, scoreShortAnswerLoop lowerRune marks userAnswer correctAnswers = (true, marks) ∨
      scoreShortAnswerLoop lowerRune marks userAnswer correctAnswers = (false, 0) := by
  induction correctAnswers with
  | nil => intro u; exact Or.inr rfl
  | cons c rest ih =>
    intro u
    unfold scoreShortAnswerLoop
    dsimp only
    by_cases hm : (if c.IsCaseSensitive = false then ToLower lowerRune u else u) =
        (if c.IsCaseSensitive = false then ToLower lowerRune c.AnswerText else c.AnswerText)
    · rw [if_pos hm]
      exact Or.inl rfl
    · rw [if_neg hm]
      exact ih _

/-- C28: for every question, of any type, and every submission, `scoreAnswer`
returns `(true, question.Marks)` or `(false, 0)`; it returns `(false, 0)` for
an unrecognised question type, for a choice question whose options cannot be
fetched and for a short-answer question whose correct answers cannot be
fetched. -/
theorem scoreAnswer_full_marks_or_nothing (lowerRune : Char → Char)
    (questionRepo : QuestionLookups) (question : Question) (answerText : Option String)
    (selectedOptionID : Option Int) :
    (scoreAnswer lowerRune questionRepo question answerText selectedOptionID =
        (true, question.Marks) ∨
      scoreAnswer lowerRune questionRepo question answerText selectedOptionID = (false, 0)) ∧
    (question.QuestionType = QuestionType.unrecognised →
      scoreAnswer lowerRune questionRepo question answerText selectedOptionID = (false, 0)) ∧
    ((question.QuestionType = QuestionType.multiple_choice ∨
        question.QuestionType = QuestionType.true_false) →
      (∃ e, questionRepo.GetOptionsByQuestionID question.ID = .error e) →
      scoreAnswer lowerRune questionRepo question answerText selectedOptionID = (false, 0)) ∧
    (question.QuestionType = QuestionType.short_answer →
      (∃ e, questionRepo.GetCorrectAnswersByQuestionID question.ID = .error e) →
      scoreAnswer lowerRune questionRepo question answerText selectedOptionID = (false, 0)) := by
  have hmc : scoreMultipleChoiceAnswer questionRepo question selectedOptionID =
        (true, question.Marks) ∨
      scoreMultipleChoiceAnswer questionRepo question selectedOptionID = (false, 0) := by
    unfold scoreMultipleChoiceAnswer
    split
    · exact Or.inr rfl
    · split
      · exact Or.inr rfl
      · exact scoreMultipleChoiceLoop_cases _ _ _
  have hmce : (∃ e, questionRepo.GetOptionsByQuestionID question.ID = .error e) →
      scoreMultipleChoiceAnswer questionRepo question selectedOptionID = (false, 0) := by
    rintro ⟨e, he⟩
    unfold scoreMultipleChoiceAnswer
    split
    · rfl
    · rw [he]
  have hsa : scoreShortAnswer lowerRune questionRepo question answerText =
        (true, question.Marks) ∨
      scoreShortAnswer lowerRune questionRepo question answerText = (false, 0) := by
    unfold scoreShortAnswer
    split
    · exact Or.inr rfl
    · split
      · exact Or.inr rfl
      · split
        · exact Or.inr rfl
        · exact scoreShortAnswerLoop_cases _ _ _ _
  have hsae : (∃ e, questionRepo.GetCorrectAnswersByQuestionID question.ID = .error e) →
      scoreShortAnswer lowerRune questionRepo question answerText = (false, 0) := by
    rintro ⟨e, he⟩
    unfold scoreShortAnswer
    split
    · rfl
    · split
      · rfl
      · rw [he]
  unfold scoreAnswer
  refine ⟨?_, ?_, ?_, ?_⟩
  · cases question.QuestionType
    · exact hmc
    · exact hmc
    · exact hsa
    · exact Or.inr rfl
  · intro h
    rw [h]
  · rintro (h | h) he
    · rw [h]; exact hmce he
    · rw [h]; exact hmce he
  · intro h he
    rw [h]
    exact hsae he

/-- C28, at concrete inputs: the correct option earns the five marks of the
choice question, the wrong option earns nothing, and a question of an
unrecognised type earns nothing whatever is submitted. -/
theorem scoreAnswer_full_marks_or_nothing_witness :
    scoreAnswer asciiLower (QuestionRepository.lookups (exDB [])) exQuestionChoice none
      (some 1) = (true, 5) ∧
    scoreAnswer asciiLower (QuestionRepository.lookups (exDB [])) exQuestionChoice none
      (some 2) = (false, 0) ∧
    scoreAnswer asciiLower (QuestionRepository.lookups (exDB []))
      { exQuestionChoice with QuestionType := QuestionType.unrecognised } (some "42")
      (some 1) = (false, 0) :=
  ⟨by decide, by decide,
   (scoreAnswer_full_marks_or_nothing asciiLower (QuestionRepository.lookups (exDB []))
      { exQuestionChoice with QuestionType := QuestionType.unrecognised } (some "42")
      (some 1)).2.1 rfl⟩

/-! ## A refused answer still starts the session -/

/-- C29: on a stored session that is `not_started` and not expired at the two
expiry checks of the call, `SubmitAnswer` with a question id that resolves to
no question, or to a question of another test, returns the error "invalid
question", stores no answer, and leaves under the token the session with
status `in_progress`, started-at stamped with the reading `now` of the call
and the update stamp, nothing else changed. -/
theorem SubmitAnswer_starts_session_then_refuses (lowerRune : Char → Char) (db : DB)
    (clk : Nat → Time) (tok : String) (qid : Int) (text : Option String) (opt : Option Int)
    (x : TestSession)
    (hx : TestSessionRepository.GetByToken db tok = some x)
    (hst : x.Status = SessionStatus.not_started)
    (hexp0 : clk 0 ≤ x.ExpiresAt) (hexp2 : clk 2 ≤ x.ExpiresAt)
    (hq : QuestionRepository.GetByID db qid = none ∨
      ∃ q, QuestionRepository.GetByID db qid = some q ∧ q.TestID ≠ x.TestID) :
    (TestSessionService.SubmitAnswer lowerRune db clk tok qid text opt).1 =
      .error Err.invalidQuestion ∧
    (TestSessionService.SubmitAnswer lowerRune db clk tok qid text opt).2.user_answers =
      db.user_answers ∧
    TestSessionRepository.GetByToken
        (TestSessionService.SubmitAnswer lowerRune db clk tok qid text opt).2 tok =
      some { x with Status := SessionStatus.in_progress, StartedAt := some (clk 3),
                    UpdatedAt := clk 4 } := by
  rw [SubmitAnswer_of_open lowerRune db clk tok qid text opt x hx hexp0 hexp2 (Or.inl hst)]
  have hss : startedSession db clk x =
      TestSessionRepository.Update db (clk 4)
        { x with Status := SessionStatus.in_progress, StartedAt := some (clk 3) } := by
    unfold startedSession
    rw [if_pos hst]
  rw [hss, recordAnswer_refused]
  · refine ⟨rfl, rfl, ?_⟩
    exact GetByToken_Update_self db (clk 4) _ x tok hx ⟨rfl, rfl, rfl, rfl, rfl, rfl⟩
  · rcases hq with h | ⟨q, h, hne⟩
    · exact Or.inl h
    · exact Or.inr ⟨q, h, hne⟩

/-- C29, at a concrete input: on the unexpired `not_started` session of test 1
an answer for the unknown question 9 is refused; no answer is stored, and the
stored session is `in_progress` with started-at 103. -/
theorem SubmitAnswer_starts_session_then_refuses_witness :
    (TestSessionService.SubmitAnswer asciiLower (exDB [exSession 1 SessionStatus.not_started])
      (exClock 100) "tok" 9 none (some 1)).1 = .error Err.invalidQuestion ∧
    (TestSessionService.SubmitAnswer asciiLower (exDB [exSession 1 SessionStatus.not_started])
      (exClock 100) "tok" 9 none (some 1)).2.user_answers =
      (exDB [exSession 1 SessionStatus.not_started]).user_answers ∧
    TestSessionRepository.GetByToken
        (TestSessionService.SubmitAnswer asciiLower
          (exDB [exSession 1 SessionStatus.not_started]) (exClock 100) "tok" 9 none
          (some 1)).2 "tok" =
      some { exSession 1 SessionStatus.not_started with
             Status := SessionStatus.in_progress, StartedAt := some (exClock 100 3),
             UpdatedAt := exClock 100 4 } :=
  SubmitAnswer_starts_session_then_refuses asciiLower
    (exDB [exSession 1 SessionStatus.not_started]) (exClock 100) "tok" 9 none (some 1)
    (exSession 1 SessionStatus.not_started) rfl rfl (by decide) (by decide) (Or.inl rfl)

/-! ## A short answer against a single correct answer -/

theorem Registered_nonblank (a : CorrectAnswer) (h : a.Registered) : a.AnswerText ≠ "" := by
  rcases h with ⟨id, qid, text, cs, h⟩ | ⟨row, text, cs, h⟩
  · unfold QuestionService.AddCorrectAnswer at h
    split at h
    · simp at h
    · rename_i hne
      simp only [Option.some.injEq] at h
      rw [← h]
      exact hne
  · unfold QuestionService.UpdateCorrectAnswer at h
    split at h
    · simp at h
    · rename_i hne
      simp only [Option.some.injEq] at h
      rw [← h]
      exact hne

theorem ToLower_eq_empty (lowerRune : Char → Char) (s : String)
    (h : ToLower lowerRune s = "") : s = "" := by
  unfold ToLower at h
  have hd : s.data.map lowerRune = [] := by
    have := congrArg String.data h
    simpa using this
  have : s.data = [] := List.map_eq_nil_iff.mp hd
  exact String.ext this

/-- What `scoreShortAnswer` does with a text when a single correct answer is
registered for the question: the answer is scored correct exactly when the
text is not blank and matches. -/
theorem scoreShortAnswer_single (lowerRune : Char → Char) (questionRepo : QuestionLookups)
    (question : Question) (a : CorrectAnswer) (text : String)
    (hlook : questionRepo.GetCorrectAnswersByQuestionID question.ID = .ok [a]) :
    ((scoreShortAnswer lowerRune questionRepo question (some text)).1 = true ↔
      TrimSpace text ≠ "" ∧
      (if a.IsCaseSensitive = false then
        ToLower lowerRune (TrimSpace text) = ToLower lowerRune a.AnswerText
      else TrimSpace text = a.AnswerText)) ∧
    (scoreShortAnswer lowerRune questionRepo question (some text) = (true, question.Marks) ∨
      scoreShortAnswer lowerRune questionRepo question (some text) = (false, 0)) := by
  unfold scoreShortAnswer
  simp only [hlook]
  by_cases hb : TrimSpace text = ""
  · simp [hb]
  · simp only [hb, if_false, ne_eq, not_false_eq_true, true_and]
    unfold scoreShortAnswerLoop
    cases hc : a.IsCaseSensitive with
    | false =>
      simp only [if_true]
      by_cases hm : ToLower lowerRune (TrimSpace text) = ToLower lowerRune a.AnswerText
      · simp [hm]
      · simp [hm, scoreShortAnswerLoop]
    | true =>
      simp only [Bool.true_eq_false, if_false]
      by_cases hm : TrimSpace text = a.AnswerText
      · simp [hm]
      · simp [hm, scoreShortAnswerLoop]

/-- C24: for a short-answer question whose single correct answer `a` is a
registered one (a row written by `AddCorrectAnswer` or `UpdateCorrectAnswer`):
when `a` is case-insensitive, a submitted text is scored correct exactly when
its trimmed lower-case form equals the lower-case form of `a`; when `a` is
case-sensitive, exactly when its trimmed form equals `a`; a correct text
earns the marks of the question, any other none. -/
theorem scoreShortAnswer_single_registered_answer (lowerRune : Char → Char)
    (questionRepo : QuestionLookups) (question : Question) (a : CorrectAnswer) (text : String)
    (hreg : a.Registered)
    (hlook : questionRepo.GetCorrectAnswersByQuestionID question.ID = .ok [a]) :
    (a.IsCaseSensitive = false →
      ((scoreShortAnswer lowerRune questionRepo question (some text)).1 = true ↔
        ToLower lowerRune (TrimSpace text) = ToLower lowerRune a.AnswerText)) ∧
    (a.IsCaseSensitive = true →
      ((scoreShortAnswer lowerRune questionRepo question (some text)).1 = true ↔
        TrimSpace text = a.AnswerText)) ∧
    (scoreShortAnswer lowerRune questionRepo question (some text) = (true, question.Marks) ∨
      scoreShortAnswer lowerRune questionRepo question (some text) = (false, 0)) := by
  obtain ⟨hiff, hval⟩ := scoreShortAnswer_single lowerRune questionRepo question a text hlook
  have hne := Registered_nonblank a hreg
  refine ⟨?_, ?_, hval⟩
  · intro hc
    rw [hiff, if_pos hc]
    constructor
    · exact fun h => h.2
    · intro h
      refine ⟨fun hb => hne ?_, h⟩
      rw [hb] at h
      exact ToLower_eq_empty lowerRune a.AnswerText h.symm
  · intro hc
    rw [hiff, if_neg (by rw [hc]; decide)]
    constructor
    · exact fun h => h.2
    · intro h
      refine ⟨fun hb => hne ?_, h⟩
      rw [← h, hb]

/-- C24, at concrete inputs: with the registered answer `"Paris"`
case-insensitive, the texts `"paris"` and `"PARIS"` are scored correct; with
it case-sensitive, `"Paris"` is scored correct and `"paris"` and `"PARIS"`
are not. -/
theorem scoreShortAnswer_single_registered_answer_witness :
    (scoreShortAnswer asciiLower (exLookups [exParis false]) exQuestionShort
      (some "paris")).1 = true ∧
    (scoreShortAnswer asciiLower (exLookups [exParis false]) exQuestionShort
      (some "PARIS")).1 = true ∧
    (scoreShortAnswer asciiLower (exLookups [exParis true]) exQuestionShort
      (some "Paris")).1 = true ∧
    (scoreShortAnswer asciiLower (exLookups [exParis true]) exQuestionShort
      (some "paris")).1 = false ∧
    ¬ (scoreShortAnswer asciiLower (exLookups [exParis true]) exQuestionShort
      (some "PARIS")).1 = true :=
  ⟨((scoreShortAnswer_single_registered_answer asciiLower (exLookups [exParis false])
      exQuestionShort (exParis false) "paris"
      (Or.inl ⟨1, 2, " Paris ", false, by decide⟩) rfl).1 rfl).mpr (by decide),
   ((scoreShortAnswer_single_registered_answer asciiLower (exLookups [exParis false])
      exQuestionShort (exParis false) "PARIS"
      (Or.inl ⟨1, 2, " Paris ", false, by decide⟩) rfl).1 rfl).mpr (by decide),
   ((scoreShortAnswer_single_registered_answer asciiLower (exLookups [exParis true])
      exQuestionShort (exParis true) "Paris"
      (Or.inl ⟨1, 2, "Paris", true, by decide⟩) rfl).2.1 rfl).mpr (by decide),
   by decide,
   fun h => absurd
     (((scoreShortAnswer_single_registered_answer asciiLower (exLookups [exParis true])
        exQuestionShort (exParis true) "PARIS"
        (Or.inl ⟨1, 2, "Paris", true, by decide⟩) rfl).2.1 rfl).mp h) (by decide)⟩

/-! ## Input validation: user names -/

theorem utf8Size_of_ascii (c : Char) (h : c.toNat ≤ 127) : c.utf8Size = 1 := by
  unfold Char.utf8Size
  have : c.val ≤ UInt32.ofNatCore 127 (by decide) := by
    rw [UInt32.le_def]
    exact h
  dsimp only
  rw [if_pos this]

theorem isUsernameRune_ascii (c : Char) (h : isUsernameRune c = true) : c.toNat ≤ 127 := by
  unfold isUsernameRune at h
  simp only [Bool.or_eq_true, Bool.and_eq_true, decide_eq_true_eq, beq_iff_eq] at h
  omega

theorem utf8Len_of_username (l : List Char) (h : l.all isUsernameRune = true) :
    String.utf8Len l = l.length := by
  induction l with
  | nil => rfl
  | cons c cs ih =>
    simp only [List.all_cons, Bool.and_eq_true] at h
    rw [String.utf8Len_cons, ih h.2, utf8Size_of_ascii c (isUsernameRune_ascii c h.1)]
    rfl

theorem isUsernameRune_iff (c : Char) : isUsernameRune c = true ↔ specUsernameChar c := by
  unfold isUsernameRune specUsernameChar
  simp only [Bool.or_eq_true, Bool.and_eq_true, decide_eq_true_eq, beq_iff_eq]
  have hle : ∀ a b : Char, a ≤ b ↔ a.toNat ≤ b.toNat := fun a b => Iff.rfl
  have heq : c = '_' ↔ c.toNat = 95 := by
    constructor
    · intro h; rw [h]; rfl
    · intro h
      apply Char.ext
      apply UInt32.ext
      exact h
  rw [hle, hle, hle, hle, hle, hle, heq]
  have e1 : ('a' : Char).toNat = 97 := rfl
  have e2 : ('z' : Char).toNat = 122 := rfl
  have e3 : ('A' : Char).toNat = 65 := rfl
  have e4 : ('Z' : Char).toNat = 90 := rfl
  have e5 : ('0' : Char).toNat = 48 := rfl
  have e6 : ('9' : Char).toNat = 57 := rfl
  rw [e1, e2, e3, e4, e5, e6]
  tauto

theorem ValidateUsername_eq_true (username : String) :
    ValidateUsername username = true ↔
      3 ≤ username.length ∧ username.length ≤ 50 ∧
      ∀ c ∈ username.data, specUsernameChar c := by
  have hsize : username.utf8ByteSize = String.utf8Len username.data := rfl
  have hlen : username.length = username.data.length := rfl
  unfold ValidateUsername usernameRegexMatch
  rw [hsize, hlen]
  constructor
  · intro h
    split at h
    · simp at h
    · rename_i hb
      simp only [Bool.and_eq_true, Bool.not_eq_true', List.all_eq_true] at h
      have hall : username.data.all isUsernameRune = true := by
        rw [List.all_eq_true]
        exact h.2
      rw [utf8Len_of_username _ hall] at hb
      refine ⟨by omega, by omega, fun c hc => (isUsernameRune_iff c).mp (h.2 c hc)⟩
  · rintro ⟨h1, h2, h3⟩
    have hall : username.data.all isUsernameRune = true := by
      rw [List.all_eq_true]
      exact fun c hc => (isUsernameRune_iff c).mpr (h3 c hc)
    rw [utf8Len_of_username _ hall, if_neg (by omega), hall]
    have : username.data ≠ [] := by
      intro h0
      rw [h0] at h1
      simp at h1
    simp [this]

/-- C27: `ValidateUsername` returns true exactly when the user name is between
3 and 50 characters long, inclusive, and consists only of ASCII letters, ASCII
digits and underscores; so it returns false for the empty string and for a
user name that contains a space, a hyphen, an `@` or any other character. -/
theorem ValidateUsername_iff (username : String) :
    (ValidateUsername username = true ↔
      3 ≤ username.length ∧ username.length ≤ 50 ∧
      ∀ c ∈ username.data, specUsernameChar c) ∧
    ValidateUsername "" = false ∧
    (∀ c ∈ username.data, (c = ' ' ∨ c = '-' ∨ c = '@' ∨ ¬ specUsernameChar c) →
      ValidateUsername username = false) := by
  refine ⟨ValidateUsername_eq_true username, by decide, ?_⟩
  intro c hc hbad
  cases hv : ValidateUsername username with
  | false => rfl
  | true =>
    have hspec := ((ValidateUsername_eq_true username).mp hv).2.2 c hc
    rcases hbad with rfl | rfl | rfl | h
    · exact absurd hspec (by unfold specUsernameChar; decide)
    · exact absurd hspec (by unfold specUsernameChar; decide)
    · exact absurd hspec (by unfold specUsernameChar; decide)
    · exact absurd hspec h

/-- C27, at the inputs of `TestValidateUsername`. -/
theorem ValidateUsername_iff_witness :
    ValidateUsername "validuser" = true ∧ ValidateUsername "user123" = true ∧
    ValidateUsername "user_name" = true ∧ ValidateUsername "ab" = false ∧
    ValidateUsername "" = false ∧ ValidateUsername "user@name" = false ∧
    ValidateUsername "user name" = false ∧ ValidateUsername "user-name" = false :=
  ⟨by decide, by decide, by decide, by decide, (ValidateUsername_iff "").2.1,
   (ValidateUsername_iff "user@name").2.2 '@' (by decide) (Or.inr (Or.inr (Or.inl rfl))),
   (ValidateUsername_iff "user name").2.2 ' ' (by decide) (Or.inl rfl),
   (ValidateUsername_iff "user-name").2.2 '-' (by decide) (Or.inr (Or.inl rfl))⟩

/-! ## Input validation: SQL patterns -/

theorem containsRunes_iff (substr : List Char) :
    ∀ s : List Char, containsRunes s substr = true ↔ substr <:+: s := by
  intro s
  induction s with
  | nil =>
    unfold containsRunes
    rw [List.infix_nil, List.isEmpty_iff]
  | cons c cs ih =>
    unfold containsRunes
    rw [Bool.or_eq_true, ih, List.isPrefixOf_iff_prefix, List.infix_cons_iff]

theorem Contains_iff (s substr : String) :
    Contains s substr = true ↔ substr.data <:+: s.data :=
  containsRunes_iff substr.data s.data

theorem noPatternIn_eq_false (lower : String) (patterns : List String) :
    noPatternIn lower patterns = false ↔ ∃ p ∈ patterns, p.data <:+: lower.data := by
  induction patterns with
  | nil => simp [noPatternIn]
  | cons p rest ih =>
    unfold noPatternIn
    by_cases hc : Contains lower p = true
    · rw [if_pos hc]
      simp only [true_iff]
      exact ⟨p, List.mem_cons_self _ _, (Contains_iff lower p).mp hc⟩
    · rw [if_neg hc, ih]
      constructor
      · rintro ⟨q, hq, hin⟩
        exact ⟨q, List.mem_cons_of_mem _ hq, hin⟩
      · rintro ⟨q, hq, hin⟩
        rcases List.mem_cons.mp hq with rfl | hq
        · exact absurd ((Contains_iff lower q).mpr hin) hc
        · exact ⟨q, hq, hin⟩

/-- C25: `ValidateNoSQLInjection` returns false exactly for the inputs whose
lower-cased form contains one of the patterns of `sqlPatterns`, and true for
every other input; the verdict depends on the lower-cased form only, so it is
the same for two inputs that differ in the case of their letters. -/
theorem ValidateNoSQLInjection_iff (lowerRune : Char → Char) (input : String) :
    (ValidateNoSQLInjection lowerRune input = false ↔
      ∃ p ∈ sqlPatterns, p.data <:+: (ToLower lowerRune input).data) ∧
    (ValidateNoSQLInjection lowerRune input = true ↔
      ∀ p ∈ sqlPatterns, ¬ p.data <:+: (ToLower lowerRune input).data) ∧
    (∀ input2 : String, ToLower lowerRune input2 = ToLower lowerRune input →
      ValidateNoSQLInjection lowerRune input2 = ValidateNoSQLInjection lowerRune input) := by
  have h1 : ValidateNoSQLInjection lowerRune input = false ↔
      ∃ p ∈ sqlPatterns, p.data <:+: (ToLower lowerRune input).data :=
    noPatternIn_eq_false _ _
  refine ⟨h1, ?_, ?_⟩
  · rw [← Bool.not_eq_false, h1]
    constructor
    · intro h p hp hin
      exact h ⟨p, hp, hin⟩
    · rintro h ⟨p, hp, hin⟩
      exact h p hp hin
  · intro input2 h
    unfold ValidateNoSQLInjection
    rw [h]

/-- C25, at the inputs of `TestValidateNoSQLInjection`, with the lower-casing
of ASCII letters; and the listed patterns, each refused in lower and in upper
case. -/
theorem ValidateNoSQLInjection_iff_witness :
    ValidateNoSQLInjection asciiLower "normal text" = true ∧
    ValidateNoSQLInjection asciiLower "user123" = true ∧
    ValidateNoSQLInjection asciiLower "SELECT * FROM users" = false ∧
    ValidateNoSQLInjection asciiLower (String.mk
      ("<script>alert(".data ++ Char.ofNat 39 :: "xss".data ++ Char.ofNat 39 ::
        ")</script>".data)) = false ∧
    ValidateNoSQLInjection asciiLower "javascript:alert(1)" = false ∧
    ValidateNoSQLInjection asciiLower "onload=alert(1)" = false ∧
    ValidateNoSQLInjection asciiLower "UNION SELECT" = false ∧
    ValidateNoSQLInjection asciiLower "/*comment*/" = false ∧
    ValidateNoSQLInjection asciiLower (String.mk
      (Char.ofNat 39 :: "; DROP TABLE users; ".data ++ [Char.ofNat 45, Char.ofNat 45])) =
      false ∧
    (∀ p ∈ sqlPatterns, ValidateNoSQLInjection asciiLower p = false ∧
      ValidateNoSQLInjection asciiLower (String.mk (p.data.map Char.toUpper)) = false) ∧
    ValidateNoSQLInjection asciiLower "Select" = ValidateNoSQLInjection asciiLower "sELECT" :=
  ⟨by decide, by decide, by decide, by decide, by decide, by decide, by decide, by decide,
   by decide, by decide,
   (ValidateNoSQLInjection_iff asciiLower "sELECT").2.2 "Select" (by decide)⟩

/-! ## Input validation: HTML -/

theorem stripTags_inside_closed (mid post : List Char) (hmid : '>' ∉ mid) :
    ∀ buf, stripTags (some buf) (mid ++ '>' :: post) = stripTags none post := by
  induction mid with
  | nil =>
    intro buf
    simp [stripTags]
  | cons c cs ih =>
    intro buf
    have hc : c ≠ '>' := fun h => hmid (by rw [h]; exact List.mem_cons_self _ _)
    have hcs : '>' ∉ cs := fun h => hmid (List.mem_cons_of_mem _ h)
    simp only [List.cons_append, stripTags, hc, if_false]
    exact ih hcs _

theorem stripTags_inside_open (rest : List Char) (hrest : '>' ∉ rest) :
    ∀ buf, stripTags (some buf) rest = buf.reverse ++ rest := by
  induction rest with
  | nil =>
    intro buf
    simp [stripTags]
  | cons c cs ih =>
    intro buf
    have hc : c ≠ '>' := fun h => hrest (by rw [h]; exact List.mem_cons_self _ _)
    have hcs : '>' ∉ cs := fun h => hrest (List.mem_cons_of_mem _ h)
    simp only [stripTags, hc, if_false]
    rw [ih hcs]
    simp

theorem stripTags_outside (pre rest : List Char) (hpre : '<' ∉ pre) :
    stripTags none (pre ++ rest) = pre ++ stripTags none rest := by
  induction pre with
  | nil => rfl
  | cons c cs ih =>
    have hc : c ≠ '<' := fun h => hpre (by rw [h]; exact List.mem_cons_self _ _)
    have hcs : '<' ∉ cs := fun h => hpre (List.mem_cons_of_mem _ h)
    simp only [List.cons_append, stripTags, hc, if_false]
    exact congrArg (List.cons c) (ih hcs)

/-- The three cases of the tag removal: a text without `<` is kept; the
leftmost `<` that is followed by a `>` is removed together with everything up
to the next `>`, and the removal goes on after it; a `<` that no `>` follows
ends the removal, the rest is kept. -/
theorem stripTags_spec :
    (∀ s : List Char, '<' ∉ s → stripTags none s = s) ∧
    (∀ pre mid post : List Char, '<' ∉ pre → '>' ∉ mid →
      stripTags none (pre ++ '<' :: (mid ++ '>' :: post)) = pre ++ stripTags none post) ∧
    (∀ pre rest : List Char, '<' ∉ pre → '>' ∉ rest →
      stripTags none (pre ++ '<' :: rest) = pre ++ '<' :: rest) := by
  refine ⟨?_, ?_, ?_⟩
  · intro s hs
    have := stripTags_outside s [] hs
    simpa [stripTags] using this
  · intro pre mid post hpre hmid
    rw [stripTags_outside pre _ hpre]
    simp only [stripTags, if_true]
    rw [stripTags_inside_closed mid post hmid]
  · intro pre rest hpre hrest
    rw [stripTags_outside pre _ hpre]
    simp only [stripTags, if_true]
    rw [stripTags_inside_open rest hrest]
    simp

theorem escapeRune_no_angle (c : Char) : '<' ∉ escapeRune c ∧ '>' ∉ escapeRune c := by
  unfold escapeRune
  split
  · decide
  · split
    · decide
    · split
      · decide
      · split
        · decide
        · split
          · decide
          · rename_i h1 h2 h3
            constructor
            · simp only [List.mem_singleton]
              exact fun h => h1 h.symm
            · simp only [List.mem_singleton]
              exact fun h => h2 h.symm

theorem EscapeString_no_angle (s : String) :
    '<' ∉ (EscapeString s).data ∧ '>' ∉ (EscapeString s).data := by
  unfold EscapeString
  constructor
  · intro h
    obtain ⟨c, -, hc⟩ := List.mem_flatMap.mp h
    exact (escapeRune_no_angle c).1 hc
  · intro h
    obtain ⟨c, -, hc⟩ := List.mem_flatMap.mp h
    exact (escapeRune_no_angle c).2 hc

theorem flatMap_escapeRune_of_plain (l : List Char)
    (h : ∀ c ∈ l, c ≠ '&' ∧ c ≠ Char.ofNat 39 ∧ c ≠ '<' ∧ c ≠ '>' ∧ c ≠ Char.ofNat 34) :
    l.flatMap escapeRune = l := by
  induction l with
  | nil => rfl
  | cons c cs ih =>
    obtain ⟨h1, h2, h3, h4, h5⟩ := h c (List.mem_cons_self _ _)
    rw [List.flatMap_cons, ih (fun d hd => h d (List.mem_cons_of_mem _ hd))]
    simp [escapeRune, h1, h2, h3, h4, h5]

/-- C26: for every input, the output of `SanitizeHTML` contains no `<` and no
`>`. The output is the escaping of the input with its tags removed: every
stretch from a `<` to the next `>` is dropped and the removal goes on behind
it, a `<` that no `>` follows is kept; in what remains the ampersand, the
apostrophe, the two angle brackets and the double quote are replaced by
`&amp;`, `&#39;`, `&lt;`, `&gt;` and `&#34;`. An input with none of these five
characters is returned unchanged. -/
theorem SanitizeHTML_no_angle_brackets (input : String) :
    '<' ∉ (SanitizeHTML input).data ∧ '>' ∉ (SanitizeHTML input).data ∧
    (SanitizeHTML input).data = (stripTags none input.data).flatMap escapeRune ∧
    (∀ pre mid post : List Char, input.data = pre ++ '<' :: (mid ++ '>' :: post) →
      '<' ∉ pre → '>' ∉ mid →
      (SanitizeHTML input).data =
        pre.flatMap escapeRune ++ (SanitizeHTML (String.mk post)).data) ∧
    (∀ pre rest : List Char, input.data = pre ++ '<' :: rest → '<' ∉ pre → '>' ∉ rest →
      (SanitizeHTML input).data = (pre ++ '<' :: rest).flatMap escapeRune) ∧
    ('<' ∉ input.data → (SanitizeHTML input).data = input.data.flatMap escapeRune) ∧
    (escapeRune '&' = "&amp;".data ∧ escapeRune (Char.ofNat 39) = "&#39;".data ∧
      escapeRune '<' = "&lt;".data ∧ escapeRune '>' = "&gt;".data ∧
      escapeRune (Char.ofNat 34) = "&#34;".data) ∧
    ((∀ c ∈ input.data,
        c ≠ '&' ∧ c ≠ Char.ofNat 39 ∧ c ≠ '<' ∧ c ≠ '>' ∧ c ≠ Char.ofNat 34) →
      SanitizeHTML input = input) := by
  obtain ⟨sp1, sp2, sp3⟩ := stripTags_spec
  have hdata : (SanitizeHTML input).data = (stripTags none input.data).flatMap escapeRune :=
    rfl
  refine ⟨(EscapeString_no_angle _).1, (EscapeString_no_angle _).2, hdata, ?_, ?_, ?_,
    ⟨rfl, rfl, rfl, rfl, rfl⟩, ?_⟩
  · intro pre mid post hin hpre hmid
    rw [hdata, hin, sp2 pre mid post hpre hmid, List.flatMap_append]
    rfl
  · intro pre rest hin hpre hrest
    rw [hdata, hin, sp3 pre rest hpre hrest]
  · intro h
    rw [hdata, sp1 _ h]
  · intro h
    apply String.ext
    rw [hdata, sp1 _ (fun hm => (h _ hm).2.2.1 rfl)]
    exact flatMap_escapeRune_of_plain _ h

/-- C26, at the inputs of `TestSanitizeHTML`. -/
theorem SanitizeHTML_no_angle_brackets_witness :
    SanitizeHTML (String.mk
      ("<script>alert(".data ++ Char.ofNat 39 :: "xss".data ++ Char.ofNat 39 ::
        ")</script>".data)) = "alert(&#39;xss&#39;)" ∧
    SanitizeHTML "<b>bold</b> text" = "bold text" ∧
    SanitizeHTML "normal text" = "normal text" ∧
    SanitizeHTML "<img src=x onerror=alert(1)>" = "" ∧
    SanitizeHTML "<p>paragraph</p>" = "paragraph" ∧
    SanitizeHTML "a < b" = "a &lt; b" ∧ SanitizeHTML "a > b & c" = "a &gt; b &amp; c" ∧
    SanitizeHTML "a<b<c>d" = "ad" :=
  ⟨by decide, by decide,
   (SanitizeHTML_no_angle_brackets "normal text").2.2.2.2.2.2.2 (by decide),
   by decide, by decide, by decide, by decide, by decide⟩

end GOCBT
